import Mathlib

/-!
# Billing core of the SaaS starter: webhook signatures and checkout polling

A shallow embedding of

* `backend/src/pkg/polar/webhook.go` (`VerifyWebhookSignature`,
  `ComputeWebhookSignature`), together with the library routines it calls
  (`encoding/base64`, `crypto/sha256`, `crypto/hmac`, `strings`);
* `backend/src/app/billing/infra/polar/polar_adapter.go`
  (`GetCheckoutSession`, `isRetryableError`, `GetCheckoutSessionWithPolling`,
  `GetSubscription` with `strconv.ParseInt`);
* `backend/src/app/billing/infra/repositories/subscription_repository.go`
  (the getters, `DecrementInvoiceCount`, `GetQuotaStatus` and the mapping
  functions), over the methods of a store whose source is not given.

Go strings and byte slices are byte sequences; both are lists of bytes here.
An `error` is `none` when `nil`; the `fmt.Print` lines of the source write
to standard output only and are left out. The polling function is modelled
over an explicit clock: an `Env` fixes what each fetch is answered and how
long it takes, when the context is cancelled, and what `select` picks when
both its cases are ready.
-/

namespace Polar

/-! ## Bytes and strings -/

/-- A Go `string` or `[]byte`: a finite sequence of bytes. -/
abbrev Bytes := List UInt8

/-- The bytes of an ASCII string literal of the source. -/
def lit (s : String) : Bytes := s.toList.map (fun c => UInt8.ofNat c.toNat)

/-- Go `strings.Contains(s, substr)`: `substr` occurs in `s` as a contiguous block. -/
def stringsContains : Bytes → Bytes → Bool
  | [], sub => sub.isEmpty
  | c :: s, sub => sub.isPrefixOf (c :: s) || stringsContains s sub

/-- Go `strings.Split(s, sep)` for a one-byte separator: the pieces between
occurrences of `sep`, in order; `n` separators give `n + 1` pieces. -/
def stringsSplit (sep : UInt8) : Bytes → List Bytes
  | [] => [[]]
  | c :: s =>
    if c = sep then [] :: stringsSplit sep s
    else
      match stringsSplit sep s with
      | [] => [[c]]
      | p :: ps => (c :: p) :: ps

/-! ## SHA-256 and HMAC (FIPS 180-4, RFC 2104), over 32-bit words held in `Nat` -/

namespace SHA256

/-- The round constants. -/
def K : List Nat :=
  [0x428a2f98, 0x71374491, 0xb5c0fbcf, 0xe9b5dba5, 0x3956c25b, 0x59f111f1, 0x923f82a4, 0xab1c5ed5,
   0xd807aa98, 0x12835b01, 0x243185be, 0x550c7dc3, 0x72be5d74, 0x80deb1fe, 0x9bdc06a7, 0xc19bf174,
   0xe49b69c1, 0xefbe4786, 0x0fc19dc6, 0x240ca1cc, 0x2de92c6f, 0x4a7484aa, 0x5cb0a9dc, 0x76f988da,
   0x983e5152, 0xa831c66d, 0xb00327c8, 0xbf597fc7, 0xc6e00bf3, 0xd5a79147, 0x06ca6351, 0x14292967,
   0x27b70a85, 0x2e1b2138, 0x4d2c6dfc, 0x53380d13, 0x650a7354, 0x766a0abb, 0x81c2c92e, 0x92722c85,
   0xa2bfe8a1, 0xa81a664b, 0xc24b8b70, 0xc76c51a3, 0xd192e819, 0xd6990624, 0xf40e3585, 0x106aa070,
   0x19a4c116, 0x1e376c08, 0x2748774c, 0x34b0bcb5, 0x391c0cb3, 0x4ed8aa4a, 0x5b9cca4f, 0x682e6ff3,
   0x748f82ee, 0x78a5636f, 0x84c87814, 0x8cc70208, 0x90befffa, 0xa4506ceb, 0xbef9a3f7, 0xc67178f2]

/-- The initial hash value. -/
def H0 : List Nat :=
  [0x6a09e667, 0xbb67ae85, 0x3c6ef372, 0xa54ff53a, 0x510e527f, 0x9b05688c, 0x1f83d9ab, 0x5be0cd19]

/-- Addition of 32-bit words. -/
def add32 (x y : Nat) : Nat := (x + y) % 4294967296

/-- Rotation of a 32-bit word to the right by `n` bits. -/
def rotr (n x : Nat) : Nat := (x >>> n ||| x <<< (32 - n)) % 4294967296

/-- Bitwise complement of a 32-bit word. -/
def not32 (x : Nat) : Nat := 4294967295 - x % 4294967296

def ch (x y z : Nat) : Nat := (x &&& y) ^^^ (not32 x &&& z)

def maj (x y z : Nat) : Nat := (x &&& y) ^^^ (x &&& z) ^^^ (y &&& z)

def bigSigma0 (x : Nat) : Nat := rotr 2 x ^^^ rotr 13 x ^^^ rotr 22 x

def bigSigma1 (x : Nat) : Nat := rotr 6 x ^^^ rotr 11 x ^^^ rotr 25 x

def smallSigma0 (x : Nat) : Nat := rotr 7 x ^^^ rotr 18 x ^^^ (x >>> 3)

def smallSigma1 (x : Nat) : Nat := rotr 17 x ^^^ rotr 19 x ^^^ (x >>> 10)

/-- Padding: a `0x80` byte, zero bytes up to 56 modulo 64, and the bit length
as a 64-bit big-endian integer. -/
def pad (msg : List Nat) : List Nat :=
  let l := msg.length
  let zeros := (119 - l % 64) % 64
  let bits := 8 * l
  msg ++ [128] ++ List.replicate zeros 0 ++
    (List.range 8).map (fun i => bits / 256 ^ (7 - i) % 256)

/-- Big-endian 32-bit words of a byte sequence whose length is a multiple of 4. -/
def toWords : List Nat → List Nat
  | a :: b :: c :: d :: rest => (a * 16777216 + b * 65536 + c * 256 + d) :: toWords rest
  | _ => []

/-- The message schedule: `w` holds the words so far, newest first. -/
def schedule : Nat → List Nat → List Nat
  | 0, w => w
  | n + 1, w =>
    let w2 := w.getD 1 0
    let w7 := w.getD 6 0
    let w15 := w.getD 14 0
    let w16 := w.getD 15 0
    schedule n (add32 (add32 (smallSigma1 w2) w7) (add32 (smallSigma0 w15) w16) :: w)

/-- The working variables `a .. h`. -/
structure Vars where
  a : Nat
  b : Nat
  c : Nat
  d : Nat
  e : Nat
  f : Nat
  g : Nat
  h : Nat

/-- One round, with round constant `k` and schedule word `w`. -/
def round (v : Vars) (kw : Nat × Nat) : Vars :=
  let t1 := add32 (add32 (add32 v.h (bigSigma1 v.e)) (add32 (ch v.e v.f v.g) kw.1)) kw.2
  let t2 := add32 (bigSigma0 v.a) (maj v.a v.b v.c)
  ⟨add32 t1 t2, v.a, v.b, v.c, add32 v.d t1, v.e, v.f, v.g⟩

/-- The compression function: one 16-word block folded into the hash value. -/
def compress (hs : List Nat) (block : List Nat) : List Nat :=
  let w := (schedule 48 block.reverse).reverse
  let v0 : Vars := ⟨hs.getD 0 0, hs.getD 1 0, hs.getD 2 0, hs.getD 3 0,
                    hs.getD 4 0, hs.getD 5 0, hs.getD 6 0, hs.getD 7 0⟩
  let v := (K.zip w).foldl round v0
  [add32 v0.a v.a, add32 v0.b v.b, add32 v0.c v.c, add32 v0.d v.d,
   add32 v0.e v.e, add32 v0.f v.f, add32 v0.g v.g, add32 v0.h v.h]

/-- All blocks of the padded message, `n` of them. -/
def blocks : Nat → List Nat → List Nat → List Nat
  | 0, _, hs => hs
  | n + 1, ws, hs => blocks n (ws.drop 16) (compress hs (ws.take 16))

/-- The four bytes of a 32-bit word, most significant first. -/
def wordBytes (w : Nat) : Bytes :=
  [UInt8.ofNat (w / 16777216), UInt8.ofNat (w / 65536), UInt8.ofNat (w / 256), UInt8.ofNat w]

/-- Go `sha256.Sum256`: the 32-byte digest. -/
def sum (msg : Bytes) : Bytes :=
  let ws := toWords (pad (msg.map UInt8.toNat))
  (blocks (ws.length / 16) ws H0).flatMap wordBytes

end SHA256

/-- Go `hmac.New(sha256.New, key)`, `Write(msg)`, `Sum(nil)`: HMAC-SHA256 with
a 64-byte block; a longer key is hashed first, a shorter one is zero-padded. -/
def hmacSHA256 (key msg : Bytes) : Bytes :=
  let key1 := if 64 < key.length then SHA256.sum key else key
  let k := key1 ++ List.replicate (64 - key1.length) 0
  let ipad := k.map (fun b => b ^^^ 0x36)
  let opad := k.map (fun b => b ^^^ 0x5c)
  SHA256.sum (opad ++ SHA256.sum (ipad ++ msg))

/-- Go `hmac.Equal`: equality of contents (the comparison's timing is not modelled). -/
def hmacEqual (a b : Bytes) : Bool := decide (a = b)

/-! ## `encoding/base64`, `StdEncoding` -/

namespace Base64

/-- The alphabet of `base64.StdEncoding`. -/
def encodeStd : Bytes :=
  lit "ABCDEFGHIJKLMNOPQRSTUVWXYZabcdefghijklmnopqrstuvwxyz0123456789+/"

/-- The padding character `=` of `StdEncoding`. -/
def padChar : UInt8 := 61

/-- The encoder table `enc.encode[v & 0x3F]`. -/
def encode (v : Nat) : UInt8 := encodeStd.getD (v % 64) 0

/-- The decoder table `enc.decodeMap[c]`: the position of `c` in the alphabet,
and `0xff` for a byte outside it. -/
def decodeMap (c : UInt8) : Nat :=
  let i := encodeStd.indexOf c
  if i < 64 then i else 255

/-- `Encoding.EncodeToString`: every 3 bytes give 4 characters; a last group
of 1 or 2 bytes gives 2 or 3 characters and `=` up to 4. -/
def EncodeToString : Bytes → Bytes
  | a :: b :: c :: rest =>
    let val := a.toNat * 65536 + b.toNat * 256 + c.toNat
    encode (val / 262144) :: encode (val / 4096) :: encode (val / 64) :: encode val ::
      EncodeToString rest
  | [a, b] =>
    let val := a.toNat * 65536 + b.toNat * 256
    [encode (val / 262144), encode (val / 4096), encode (val / 64), padChar]
  | [a] =>
    let val := a.toNat * 65536
    [encode (val / 262144), encode (val / 4096), padChar, padChar]
  | [] => []

/-- The end of `decodeQuantum`: the 6-bit values of `dbuf` (missing ones are
zero) are packed into 24 bits, of which the first `dlen - 1` bytes are written.
`StdEncoding` is not strict: left-over bits are not checked. -/
def quantumBytes (dbuf : List Nat) (dlen : Nat) : Bytes :=
  let val := dbuf.getD 0 0 * 262144 + dbuf.getD 1 0 * 4096 + dbuf.getD 2 0 * 64 + dbuf.getD 3 0
  [UInt8.ofNat (val / 65536), UInt8.ofNat (val / 256), UInt8.ofNat val].take (dlen - 1)

/-- The loops `for si < len(src) && (src[si] == '\n' || src[si] == '\r') { si++ }`
of `decodeQuantum`: the unread input and the index reached. -/
def skipNewlines : Bytes → Nat → Bytes × Nat
  | [], si => ([], si)
  | c :: rest, si => if c = 10 ∨ c = 13 then skipNewlines rest (si + 1) else (c :: rest, si)

/-- After the padding of a quantum: newlines are skipped and anything left is
trailing garbage, `CorruptInputError(si)`. -/
def afterPadding (rest : Bytes) (si : Nat) (acc : Bytes) : Except Nat Bytes :=
  match skipNewlines rest si with
  | ([], _) => .ok acc
  | (_ :: _, si1) => .error si1

/-- `Encoding.Decode` with `decodeQuantum` inlined, as one pass over the input.
`src` is the unread input, `si` its index in the whole input of length `srcLen`,
`dbuf` the 6-bit values of the current quantum (`j = dbuf.length`), `acc` the
bytes decoded so far. The result is the decoded bytes, or the offset of a
`CorruptInputError`. Newlines and carriage returns are skipped. -/
def decodeFrom (srcLen : Nat) : Bytes → Nat → List Nat → Bytes → Except Nat Bytes
  | [], si, dbuf, acc =>
    if dbuf.length = 0 then .ok acc else .error (si - dbuf.length)
  | c :: rest, si, dbuf, acc =>
    if decodeMap c ≠ 255 then
      if dbuf.length = 3 then
        decodeFrom srcLen rest (si + 1) [] (acc ++ quantumBytes (dbuf ++ [decodeMap c]) 4)
      else
        decodeFrom srcLen rest (si + 1) (dbuf ++ [decodeMap c]) acc
    else if c = 10 ∨ c = 13 then
      decodeFrom srcLen rest (si + 1) dbuf acc
    else if c ≠ padChar then
      .error si
    else
      match dbuf.length with
      | 0 => .error si
      | 1 => .error si
      | 2 =>
        match skipNewlines rest (si + 1) with
        | ([], _) => .error srcLen
        | (p :: rest1, si1) =>
          if p ≠ padChar then .error (si1 - 1)
          else afterPadding rest1 (si1 + 1) (acc ++ quantumBytes dbuf 2)
      | _ => afterPadding rest (si + 1) (acc ++ quantumBytes dbuf 3)

/-- `Encoding.DecodeString`. -/
def DecodeString (s : Bytes) : Except Nat Bytes := decodeFrom s.length s 0 [] []

end Base64

/-! ## `pkg/polar/webhook.go` -/

/-- The errors `VerifyWebhookSignature` builds with `fmt.Errorf`. -/
inductive VerifyError where
  /-- "webhook secret is not configured" -/
  | secretNotConfigured
  /-- "webhook signature is missing from request" -/
  | signatureMissing
  /-- "webhook ID is missing from request" -/
  | webhookIDMissing
  /-- "webhook timestamp is missing from request" -/
  | timestampMissing
  /-- "failed to decode signature: %w", wrapping `base64.CorruptInputError(offset)` -/
  | decodeFailed (offset : Nat)
  /-- "webhook signature verification failed: signature mismatch" -/
  | signatureMismatch
  deriving DecidableEq, Repr

/-- The signed content `webhookID + "." + timestamp + "." + string(payload)`. -/
def signedContent (webhookID timestamp payload : Bytes) : Bytes :=
  webhookID ++ lit "." ++ timestamp ++ lit "." ++ payload

/-- Lines 51-58: the version prefix is stripped when the header splits at `,`
into exactly two parts. -/
def stripVersionPrefix (signature : Bytes) : Bytes :=
  if stringsContains signature (lit ",") then
    match stringsSplit 44 signature with
    | [_, p1] => p1
    | _ => signature
  else signature

/-- Lines 60-89: the signature text is base64-decoded and compared with the
HMAC-SHA256 of the signed content. -/
def checkSignature (secret webhookID timestamp payload signature : Bytes) : Option VerifyError :=
  match Base64.DecodeString signature with
  | .error offset => some (.decodeFailed offset)
  | .ok signatureBytes =>
    let expectedSignatureBytes := hmacSHA256 secret (signedContent webhookID timestamp payload)
    if !hmacEqual signatureBytes expectedSignatureBytes then some .signatureMismatch
    else none

/-- `VerifyWebhookSignature`; `none` is the `nil` error. -/
def VerifyWebhookSignature (secret webhookID timestamp payload signature : Bytes) :
    Option VerifyError :=
  if secret = [] then some .secretNotConfigured
  else if signature = [] then some .signatureMissing
  else if webhookID = [] then some .webhookIDMissing
  else if timestamp = [] then some .timestampMissing
  else checkSignature secret webhookID timestamp payload (stripVersionPrefix signature)

/-- `ComputeWebhookSignature`. -/
def ComputeWebhookSignature (secret webhookID timestamp payload : Bytes) : Bytes :=
  Base64.EncodeToString (hmacSHA256 secret (signedContent webhookID timestamp payload))

/-! ## `app/billing/infra/polar/polar_adapter.go` -/

deriving instance DecidableEq for Except

/-- A `time.Time` obtained by `parseTime`, held as the RFC 3339 text it is
parsed from (the zero time when the text does not parse; the error of
`parseTime` is dropped by every caller). -/
structure Time where
  rfc3339 : Bytes
  deriving DecidableEq, Repr

/-- `parseTime`. -/
def parseTime (s : Bytes) : Time := ⟨s⟩

/-- `domain.CheckoutSessionResponse`, with the fields `GetCheckoutSession` fills. -/
structure CheckoutSessionResponse where
  ID : Bytes
  Status : Bytes
  CustomerID : Bytes
  SubscriptionID : Bytes
  ProductID : Bytes
  Amount : Int
  CreatedAt : Time
  deriving DecidableEq, Repr

/-- The struct `result` that `GetCheckoutSession` decodes the response body into. -/
structure CheckoutJSON where
  ID : Bytes
  Status : Bytes
  Amount : Int
  CustomerExternalID : Bytes
  CustomerID : Bytes
  ProductID : Bytes
  CustomerNestedID : Bytes
  CustomerNestedExternalID : Bytes
  SubscriptionID : Bytes
  CreatedAt : Bytes
  deriving DecidableEq, Repr

/-- What `p.client.Get` yields for one call: an error (with its message), or a
response with its status code, its body as `io.ReadAll` reads it, and the
outcome of `json.NewDecoder(resp.Body).Decode(&result)` on that body (the
message of the decoding error, or the decoded struct). -/
inductive Reply where
  | transportError (message : Bytes)
  | response (StatusCode : Int) (body : Bytes) (decoded : Except Bytes CheckoutJSON)

/-- `ctx.Err()` of a context that is done. -/
inductive CtxErr where
  | canceled
  | deadlineExceeded
  deriving DecidableEq, Repr

/-- The `error` values of the checkout operations. -/
inductive GoError where
  /-- `fmt.Errorf("failed to call Polar checkout API: %w", err)` -/
  | callFailed (cause : Bytes)
  /-- `fmt.Errorf("checkout session not found: %s", sessionID)` -/
  | sessionNotFound (sessionID : Bytes)
  /-- `fmt.Errorf("polar checkout API returned status %d: %s", resp.StatusCode, string(body))` -/
  | badStatus (StatusCode : Int) (body : Bytes)
  /-- `fmt.Errorf("failed to decode checkout response: %w", err)` -/
  | decodeFailed (cause : Bytes)
  /-- `fmt.Errorf("checkout verification timed out after 10 seconds (last status: %s)", lastStatus)` -/
  | timedOut (lastStatus : Bytes)
  /-- `ctx.Err()` -/
  | context (e : CtxErr)
  deriving DecidableEq, Repr

/-- The verb `%d` on an `int`. -/
def fmtInt (n : Int) : Bytes := lit (toString n)

/-- The method `Error()`: the message of an error. -/
def GoError.Error : GoError → Bytes
  | .callFailed cause => lit "failed to call Polar checkout API: " ++ cause
  | .sessionNotFound sessionID => lit "checkout session not found: " ++ sessionID
  | .badStatus code body =>
    lit "polar checkout API returned status " ++ fmtInt code ++ lit ": " ++ body
  | .decodeFailed cause => lit "failed to decode checkout response: " ++ cause
  | .timedOut lastStatus =>
    lit "checkout verification timed out after 10 seconds (last status: " ++ lastStatus ++ lit ")"
  | .context .canceled => lit "context canceled"
  | .context .deadlineExceeded => lit "context deadline exceeded"

/-- `GetCheckoutSession`, as a function of the session ID and of what the
HTTP call yields. -/
def GetCheckoutSession (sessionID : Bytes) : Reply → Except GoError CheckoutSessionResponse
  | .transportError message => .error (.callFailed message)
  | .response code body decoded =>
    if code = 404 then .error (.sessionNotFound sessionID)
    else if code ≠ 200 then .error (.badStatus code body)
    else
      match decoded with
      | .error cause => .error (.decodeFailed cause)
      | .ok result =>
        let createdAt := parseTime result.CreatedAt
        let externalCustomerID :=
          if result.CustomerExternalID = [] then result.CustomerNestedExternalID
          else result.CustomerExternalID
        .ok { ID := result.ID
              Status := result.Status
              CustomerID := externalCustomerID
              SubscriptionID := result.SubscriptionID
              ProductID := result.ProductID
              Amount := result.Amount
              CreatedAt := createdAt }

/-- `isRetryableError`; `none` is the `nil` error. -/
def isRetryableError : Option GoError → Bool
  | none => false
  | some err =>
    let errStr := err.Error
    if stringsContains errStr (lit "checkout session not found") ||
        stringsContains errStr (lit "404") then false
    else if stringsContains errStr (lit "returned status 400") ||
        stringsContains errStr (lit "returned status 401") ||
        stringsContains errStr (lit "returned status 403") then false
    else true

/-- `time.Second`, in nanoseconds. -/
def Second : Nat := 1000000000

/-- The constant `pollInterval`. -/
def pollInterval : Nat := 2 * Second

/-- The constant `maxDuration`. -/
def maxDuration : Nat := 10 * Second

/-- The surroundings of one call of `GetCheckoutSessionWithPolling`. Instants
are nanoseconds since the call started; `deadline` is `maxDuration` and the
ticker, created at the same instant, fires at the multiples of `pollInterval`. -/
structure Env where
  /-- What the HTTP call of the `i`-th `GetCheckoutSession` yields (from 0). -/
  reply : Nat → Reply
  /-- How long the `i`-th `GetCheckoutSession` takes. -/
  latency : Nat → Nat
  /-- The instant at which `ctx.Done()` is closed, if ever. -/
  cancelAt : Option Nat
  /-- The value of `ctx.Err()` once the context is done. -/
  ctxErr : CtxErr
  /-- The choice of `select` when both cases are ready, by the number of
  fetches made so far: `true` takes `ctx.Done()`. -/
  pickDone : Nat → Bool

/-- The case a `select` takes, and the instant at which it proceeds. -/
inductive Selected where
  | done (t : Nat)
  | tick (t : Nat)
  deriving DecidableEq, Repr

/-- The `select` of the polling loop, entered at instant `now`, the last
receive from `ticker.C` having been at `lastRecv`. The channel holds one tick:
a tick is ready when one fired after `lastRecv`. With no case ready the
`select` blocks until the context is done or the next tick fires. -/
def select (env : Env) (now lastRecv fetches : Nat) : Selected :=
  let tickReady : Bool := lastRecv / pollInterval < now / pollInterval
  let doneReady : Bool :=
    match env.cancelAt with
    | some c => c ≤ now
    | none => false
  if doneReady && tickReady then
    if env.pickDone fetches then .done now else .tick now
  else if doneReady then .done now
  else if tickReady then .tick now
  else
    let next := (now / pollInterval + 1) * pollInterval
    match env.cancelAt with
    | none => .tick next
    | some c =>
      if c < next then .done c
      else if c = next then (if env.pickDone fetches then .done c else .tick next)
      else .tick next

/-- What a call of `GetCheckoutSessionWithPolling` does: its result, the
instants at which it called `GetCheckoutSession`, and the instant it returned. -/
structure Outcome where
  result : Except GoError CheckoutSessionResponse
  fetchTimes : List Nat
  returnedAt : Nat
  deriving DecidableEq

/-- The polling loop `for time.Now().Before(deadline)` (lines 216-253).
`session` is the variable of the enclosing function, set by the first attempt
(the `session, err :=` of the loop body declares new variables); `times`
holds the instants of the fetches so far, so `attemptCount = times.length`.
The first argument bounds the number of iterations. -/
def pollLoop (env : Env) (sessionID : Bytes) (session : Option CheckoutSessionResponse) :
    Nat → Nat → Nat → List Nat → Option Outcome
  | 0, _, _, _ => none
  | fuel + 1, now, lastRecv, times =>
    if now < maxDuration then
      match select env now lastRecv times.length with
      | .done t => some ⟨.error (.context env.ctxErr), times, t⟩
      | .tick t =>
        let back := t + env.latency times.length
        match GetCheckoutSession sessionID (env.reply times.length) with
        | .ok s =>
          if s.Status = lit "succeeded" then some ⟨.ok s, times ++ [t], back⟩
          else pollLoop env sessionID session fuel back t (times ++ [t])
        | .error err =>
          if !isRetryableError (some err) then some ⟨.error err, times ++ [t], back⟩
          else pollLoop env sessionID session fuel back t (times ++ [t])
    else
      let lastStatus :=
        match session with
        | some s => s.Status
        | none => lit "unknown"
      some ⟨.error (.timedOut lastStatus), times, now⟩

/-- `GetCheckoutSessionWithPolling` (lines 190-253): the immediate first
attempt, then the polling loop. `none` would be a loop that outlives its bound. -/
def GetCheckoutSessionWithPolling (env : Env) (sessionID : Bytes) : Option Outcome :=
  let back := env.latency 0
  match GetCheckoutSession sessionID (env.reply 0) with
  | .ok s =>
    if s.Status = lit "succeeded" then some ⟨.ok s, [0], back⟩
    else pollLoop env sessionID (some s) (maxDuration / pollInterval + 1) back 0 [0]
  | .error err =>
    if !isRetryableError (some err) then some ⟨.error err, [0], back⟩
    else pollLoop env sessionID none (maxDuration / pollInterval + 1) back 0 [0]

end Polar

/-! ## The words of the specification -/

namespace Polar

/-- What follows the first comma of a header (nothing when it has no comma). -/
def afterFirstComma : Bytes → Bytes
  | [] => []
  | c :: s => if c = 44 then s else afterFirstComma s

/-- Spec: the header with its version prefix removed. A header `v1,<rest>` has
the prefix `v1,` and leaves `<rest>`; a header without a comma has no prefix. -/
def removeVersionPrefix (header : Bytes) : Bytes :=
  if 44 ∈ header then afterFirstComma header else header

/-- Spec: the comma-delimited segment immediately after the first comma. -/
def segmentAfterFirstComma (header : Bytes) : Bytes :=
  (afterFirstComma header).takeWhile (fun c => c != 44)

/-- Spec: when verification succeeds. The four texts are non-empty, the
signature without its version prefix is valid standard base64 (`StdEncoding`
decodes it), and the decoded bytes are the HMAC-SHA256, keyed by the secret, of
`webhookID + "." + timestamp + "." + payload`. -/
def VerifySpec (secret webhookID timestamp payload signature : Bytes) : Prop :=
  secret ≠ [] ∧ webhookID ≠ [] ∧ timestamp ≠ [] ∧ signature ≠ [] ∧
    ∃ decoded, Base64.DecodeString (removeVersionPrefix signature) = .ok decoded ∧
      decoded = hmacSHA256 secret (webhookID ++ lit "." ++ timestamp ++ lit "." ++ payload)

/-- Spec: "otherwise (status is pending/processing, or a retryable error),
continue polling". Whether the loop goes on after a fetch with this reply. -/
def keepsPolling (sessionID : Bytes) (r : Reply) : Bool :=
  match GetCheckoutSession sessionID r with
  | .ok s => decide (s.Status ≠ lit "succeeded")
  | .error err => isRetryableError (some err)

/-! ## Runs used as examples -/

/-- A decoded response body of the session `cs_1` with the given status. -/
def sessionJSON (status : Bytes) : CheckoutJSON :=
  { ID := lit "cs_1", Status := status, Amount := 1900, CustomerExternalID := lit "org_1",
    CustomerID := lit "cus_1", ProductID := lit "prod_1", CustomerNestedID := lit "cus_1",
    CustomerNestedExternalID := lit "org_1", SubscriptionID := lit "sub_1",
    CreatedAt := lit "2024-01-01T00:00:00Z" }

/-- The session `GetCheckoutSession` returns for `sessionJSON status`. -/
def sessionWithStatus (status : Bytes) : CheckoutSessionResponse :=
  { ID := lit "cs_1", Status := status, CustomerID := lit "org_1", SubscriptionID := lit "sub_1",
    ProductID := lit "prod_1", Amount := 1900, CreatedAt := parseTime (lit "2024-01-01T00:00:00Z") }

/-- A 200 reply with the given status. -/
def replyWithStatus (status : Bytes) : Reply :=
  .response 200 [] (.ok (sessionJSON status))

/-- The run of C7's model in which the provider always answers `pending`:
every fetch returns instantly, the context is never cancelled. -/
def alwaysPending : Env :=
  { reply := fun _ => replyWithStatus (lit "pending"), latency := fun _ => 0,
    cancelAt := none, ctxErr := .canceled, pickDone := fun _ => true }

/-- The provider answers `pending` to the first attempt and `processing` to
every poll; instant fetches, no cancellation. -/
def pendingThenProcessing : Env :=
  { alwaysPending with
    reply := fun i => if i = 0 then replyWithStatus (lit "pending")
      else replyWithStatus (lit "processing") }

/-- The first attempt gets a 503, every poll gets `pending`; instant fetches,
no cancellation. -/
def unavailableThenPending : Env :=
  { alwaysPending with
    reply := fun i => if i = 0 then .response 503 (lit "service unavailable") (.error [])
      else replyWithStatus (lit "pending") }

/-- The provider answers `pending` three times, then `succeeded`; each fetch
takes 150 ms, no cancellation. -/
def succeedsAtFourth : Env :=
  { alwaysPending with
    reply := fun i => if i < 3 then replyWithStatus (lit "pending")
      else replyWithStatus (lit "succeeded")
    latency := fun _ => 150000000 }

/-- The provider answers 404 to the first attempt, which takes 150 ms. -/
def notFoundAtOnce : Env :=
  { alwaysPending with
    reply := fun _ => .response 404 (lit "not found") (.error [])
    latency := fun _ => 150000000 }

/-- A byte `StdEncoding` can pass over without an error: one of the alphabet,
a newline, a carriage return or the padding character. -/
def Base64.accepted (c : UInt8) : Prop :=
  Base64.decodeMap c ≠ 255 ∨ c = 10 ∨ c = 13 ∨ c = Base64.padChar

end Polar

namespace Polar

/-! ## Runs with cancellation -/

/-- The first attempt is slow: the context is cancelled at 2.5 seconds, which
ends the attempt with an error at that instant. At the first wait point the
tick of 2 seconds and the cancellation are both pending; `select` takes the
tick, and the fetch that follows fails at once on the cancelled context. -/
def cancelledWithTickPending : Env :=
  { reply := fun _ => .transportError (lit "context canceled")
    latency := fun i => if i = 0 then 2500000000 else 0
    cancelAt := some 2500000000
    ctxErr := .canceled
    pickDone := fun _ => false }

/-- The same run, `select` taking the cancellation. -/
def cancelledTakingDone : Env :=
  { cancelledWithTickPending with pickDone := fun _ => true }

/-- The first attempt answers `pending` at once; the context is cancelled at
1 second, while the loop waits for the tick of 2 seconds. -/
def cancelledWhileWaiting : Env :=
  { alwaysPending with cancelAt := some 1000000000 }

end Polar

namespace Polar

/-! ## Errors of the subscription operations -/

/-- The package-level error variables the billing code compares errors with. -/
inductive Sentinel where
  /-- `sql.ErrNoRows` -/
  | sqlErrNoRows
  /-- `domain.ErrSubscriptionNotFound` -/
  | ErrSubscriptionNotFound
  /-- `domain.ErrQuotaNotFound` -/
  | ErrQuotaNotFound
  /-- Modelled from the spec: the condition `QuotaExhausted`, for which no
  source given declares an error variable. -/
  | QuotaExhausted
  deriving DecidableEq, Repr

/-- An `error` value, with what it wraps. -/
inductive Err where
  /-- One of the error variables itself. -/
  | sentinel (s : Sentinel)
  /-- Any other error that wraps nothing, with its message. -/
  | other (message : Bytes)
  /-- `fmt.Errorf(context + ": %w", cause)`. -/
  | wrap (context : Bytes) (cause : Err)
  deriving DecidableEq, Repr

/-- Go `errors.Is(err, target)` for a target that is an error variable: `err`
or an error it wraps, directly or not, is that variable. -/
def errorsIs : Err → Sentinel → Bool
  | .sentinel s, target => decide (s = target)
  | .other _, _ => false
  | .wrap _ cause, target => errorsIs cause target

/-! ## `strconv.ParseInt` in base 10 -/

/-- The field `Err` of a `*strconv.NumError`. -/
inductive NumError where
  | ErrSyntax
  | ErrRange
  deriving DecidableEq, Repr

/-- The loop of `strconv.ParseUint(s, 10, bitSize)` over the bytes of `s`,
with `n` the value so far (a `uint64`) and `maxVal = 1<<bitSize - 1`. Any byte
other than a decimal digit is a syntax error; the value and the error are
returned as a pair. -/
def parseUintLoop (maxVal : Nat) : Bytes → Nat → Nat × Option NumError
  | [], n => (n, none)
  | c :: rest, n =>
    if 48 ≤ c.toNat ∧ c.toNat ≤ 57 then
      let d := c.toNat - 48
      if 18446744073709551615 / 10 + 1 ≤ n then (maxVal, some .ErrRange)
      else
        let n10 := n * 10 % 18446744073709551616
        let n1 := (n10 + d) % 18446744073709551616
        if n1 < n10 ∨ maxVal < n1 then (maxVal, some .ErrRange)
        else parseUintLoop maxVal rest n1
    else (0, some .ErrSyntax)

/-- `strconv.ParseUint(s, 10, bitSize)`. -/
def ParseUint (s : Bytes) (bitSize : Nat) : Nat × Option NumError :=
  if s = [] then (0, some .ErrSyntax)
  else parseUintLoop (2 ^ bitSize - 1) s 0

/-- `strconv.ParseInt(s, 10, bitSize)`: the value and the error. -/
def ParseInt (s : Bytes) (bitSize : Nat) : Int × Option NumError :=
  match s with
  | [] => (0, some .ErrSyntax)
  | c :: rest =>
    let neg : Bool := c = 45
    let digits := if c = 43 ∨ c = 45 then rest else c :: rest
    match ParseUint digits bitSize with
    | (_, some .ErrSyntax) => (0, some .ErrSyntax)
    | (un, _) =>
      let cutoff : Nat := 2 ^ (bitSize - 1)
      if !neg ∧ cutoff ≤ un then ((cutoff : Int) - 1, some .ErrRange)
      else if neg ∧ cutoff < un then (-(cutoff : Int), some .ErrRange)
      else (if neg then -(un : Int) else (un : Int), none)

/-- The conversion `int32(x)` of an `int64`. -/
def int32 (x : Int) : Int := (x + 2147483648) % 4294967296 - 2147483648

/-! ## `GetSubscription` -/

/-- A `map[string]string`, as the list of its entries. -/
abbrev StringMap := List (Bytes × Bytes)

/-- A value of type `any` in the metadata of a subscription. -/
inductive AnyValue where
  | int32 (n : Int)
  | stringMap (m : StringMap)
  /-- A value decoded from stored JSON, held as its text. -/
  | json (text : Bytes)
  deriving DecidableEq, Repr

/-- A `map[string]any`, as the list of its entries; the nil map is `[]`. -/
abbrev Metadata := List (Bytes × AnyValue)

/-- `domain.Subscription`, with the fields the adapter and the repository fill.
`T` is the type of its instants: `Time` when they are parsed from the
provider's text, `Int` when they are read from the store. `ID` is an integer
key; a nil `CanceledAt` is `none`. -/
structure Subscription (T : Type) where
  ID : Int
  OrganizationID : Int
  ExternalCustomerID : Bytes
  SubscriptionID : Bytes
  SubscriptionStatus : Bytes
  ProductID : Bytes
  ProductName : Bytes
  PlanName : Bytes
  CurrentPeriodStart : T
  CurrentPeriodEnd : T
  CancelAtPeriodEnd : Bool
  CanceledAt : Option T
  Metadata : Metadata
  CreatedAt : T
  UpdatedAt : T
  deriving DecidableEq, Repr

/-- The zero `time.Time`, as a parsed time: what `parseTime` leaves on an error. -/
def zeroTime : Time := ⟨[]⟩

/-- An element of `result.Items` in `GetSubscription`. -/
structure SubscriptionItem where
  ID : Bytes
  CustomerID : Bytes
  ProductID : Bytes
  Status : Bytes
  CurrentPeriodStart : Bytes
  CurrentPeriodEnd : Bytes
  CanceledAt : Option Bytes
  CustomerNestedID : Bytes
  CustomerMetadata : StringMap
  ProductNestedID : Bytes
  ProductName : Bytes
  ProductMetadata : StringMap
  deriving DecidableEq, Repr

/-- What `p.client.Get` yields for `GetSubscription`: an error, or a response
with its status code, its body, and the outcome of decoding the body into
`result` (the decoding error, or the items decoded; an absent list is `[]`). -/
inductive SubscriptionsReply where
  | transportError (err : Err)
  | response (StatusCode : Int) (body : Bytes) (decoded : Except Err (List SubscriptionItem))

/-- Lines 83-89: the quota ceiling read from the product metadata. -/
def invoiceCountMax (productMetadata : StringMap) : Int :=
  match productMetadata.lookup (lit "invoice_count") with
  | some val =>
    match ParseInt val 32 with
    | (count, none) => int32 count
    | (_, some _) => 0
  | none => 0

/-- `GetSubscription`, as a function of the external customer ID and of what
the HTTP call yields. -/
def GetSubscription (externalCustomerID : Bytes) :
    SubscriptionsReply → Except Err (Subscription Time)
  | .transportError err => .error (.wrap (lit "failed to call Polar API") err)
  | .response code body decoded =>
    if code ≠ 200 then
      .error (.other (lit "polar API returned status " ++ fmtInt code ++ lit ": " ++ body))
    else
      match decoded with
      | .error err => .error (.wrap (lit "failed to decode response") err)
      | .ok [] => .error (.sentinel .ErrSubscriptionNotFound)
      | .ok (polarSub :: _) =>
        .ok { ID := 0
              OrganizationID := 0
              ExternalCustomerID := externalCustomerID
              SubscriptionID := polarSub.ID
              SubscriptionStatus := polarSub.Status
              ProductID := polarSub.ProductID
              ProductName := polarSub.ProductName
              PlanName := []
              CurrentPeriodStart := parseTime polarSub.CurrentPeriodStart
              CurrentPeriodEnd := parseTime polarSub.CurrentPeriodEnd
              CancelAtPeriodEnd := false
              CanceledAt := polarSub.CanceledAt.map parseTime
              Metadata :=
                [(lit "invoice_count_max", .int32 (invoiceCountMax polarSub.ProductMetadata)),
                 (lit "product_metadata", .stringMap polarSub.ProductMetadata),
                 (lit "customer_metadata", .stringMap polarSub.CustomerMetadata)]
              CreatedAt := zeroTime
              UpdatedAt := zeroTime }

end Polar

namespace Polar

/-! ## `app/billing/infra/repositories/subscription_repository.go` -/

/-- A `pgtype.Timestamp`: an instant (an integer count of microseconds) and
whether the column is not NULL. -/
structure PgTimestamp where
  Time : Int
  Valid : Bool
  deriving DecidableEq, Repr

/-- A `pgtype.Text`. -/
structure PgText where
  String : Bytes
  Valid : Bool
  deriving DecidableEq, Repr

/-- A `pgtype.Bool`. -/
structure PgBool where
  Valid : Bool
  Bool : Bool
  deriving DecidableEq, Repr

/-- A `pgtype.Int4`. -/
structure PgInt4 where
  Int32 : Int
  Valid : Bool
  deriving DecidableEq, Repr

/-- The row `sqlc.SubscriptionBillingSubscription`, with the fields the repository reads. -/
structure SubscriptionRow where
  ID : Int
  OrganizationID : Int
  ExternalCustomerID : Bytes
  SubscriptionID : Bytes
  SubscriptionStatus : Bytes
  ProductID : Bytes
  ProductName : PgText
  PlanName : PgText
  CurrentPeriodStart : PgTimestamp
  CurrentPeriodEnd : PgTimestamp
  CancelAtPeriodEnd : PgBool
  CanceledAt : PgTimestamp
  Metadata : Bytes
  CreatedAt : PgTimestamp
  UpdatedAt : PgTimestamp
  deriving DecidableEq, Repr

/-- The row `sqlc.SubscriptionBillingQuotaTracking`. -/
structure QuotaRow where
  ID : Int
  OrganizationID : Int
  InvoiceCount : Int
  MaxSeats : PgInt4
  PeriodStart : PgTimestamp
  PeriodEnd : PgTimestamp
  LastSyncedAt : PgTimestamp
  CreatedAt : PgTimestamp
  UpdatedAt : PgTimestamp
  deriving DecidableEq, Repr

/-- The row `sqlc.GetQuotaStatusRow`. -/
structure QuotaStatusRow where
  SubscriptionStatus : Bytes
  CurrentPeriodStart : PgTimestamp
  CurrentPeriodEnd : PgTimestamp
  CancelAtPeriodEnd : PgBool
  InvoiceCount : Int
  MaxSeats : PgInt4
  CanProcessInvoice : Bool
  deriving DecidableEq, Repr

/-- `domain.QuotaTracking`. -/
structure QuotaTracking where
  ID : Int
  OrganizationID : Int
  InvoiceCount : Int
  MaxSeats : Int
  PeriodStart : Int
  PeriodEnd : Int
  LastSyncedAt : Option Int
  CreatedAt : Int
  UpdatedAt : Int
  deriving DecidableEq, Repr

/-- `domain.QuotaStatus`. -/
structure QuotaStatus where
  SubscriptionStatus : Bytes
  CurrentPeriodStart : Int
  CurrentPeriodEnd : Int
  CancelAtPeriodEnd : Bool
  InvoiceCount : Int
  MaxSeats : Int
  CanProcessInvoice : Bool
  deriving DecidableEq, Repr

/-- The routines the mapping functions call and whose source is not given:
`postgres.StringFromPgText`, `postgres.Int32FromPgInt4` and, for the stored
metadata, what `json.Unmarshal` leaves in a nil `map[string]any`. -/
structure Helpers where
  StringFromPgText : PgText → Bytes
  Int32FromPgInt4 : PgInt4 → Int
  Unmarshal : Bytes → Metadata

/-- `mapToDomainSubscription`. -/
def mapToDomainSubscription (h : Helpers) (s : SubscriptionRow) : Subscription Int :=
  { ID := s.ID
    OrganizationID := s.OrganizationID
    ExternalCustomerID := s.ExternalCustomerID
    SubscriptionID := s.SubscriptionID
    SubscriptionStatus := s.SubscriptionStatus
    ProductID := s.ProductID
    ProductName := h.StringFromPgText s.ProductName
    PlanName := h.StringFromPgText s.PlanName
    CurrentPeriodStart := s.CurrentPeriodStart.Time
    CurrentPeriodEnd := s.CurrentPeriodEnd.Time
    CancelAtPeriodEnd := if s.CancelAtPeriodEnd.Valid then s.CancelAtPeriodEnd.Bool else false
    CanceledAt := if s.CanceledAt.Valid then some s.CanceledAt.Time else none
    Metadata := if 0 < s.Metadata.length then h.Unmarshal s.Metadata else []
    CreatedAt := s.CreatedAt.Time
    UpdatedAt := s.UpdatedAt.Time }

/-- `mapToDomainQuota`. -/
def mapToDomainQuota (h : Helpers) (q : QuotaRow) : QuotaTracking :=
  { ID := q.ID
    OrganizationID := q.OrganizationID
    InvoiceCount := q.InvoiceCount
    MaxSeats := h.Int32FromPgInt4 q.MaxSeats
    PeriodStart := q.PeriodStart.Time
    PeriodEnd := q.PeriodEnd.Time
    LastSyncedAt := if q.LastSyncedAt.Valid then some q.LastSyncedAt.Time else none
    CreatedAt := q.CreatedAt.Time
    UpdatedAt := q.UpdatedAt.Time }

/-- `mapToDomainQuotaStatus`. -/
def mapToDomainQuotaStatus (qs : QuotaStatusRow) : QuotaStatus :=
  { SubscriptionStatus := qs.SubscriptionStatus
    CurrentPeriodStart := qs.CurrentPeriodStart.Time
    CurrentPeriodEnd := qs.CurrentPeriodEnd.Time
    CancelAtPeriodEnd := if qs.CancelAtPeriodEnd.Valid then qs.CancelAtPeriodEnd.Bool else false
    InvoiceCount := qs.InvoiceCount
    MaxSeats := if qs.MaxSeats.Valid then qs.MaxSeats.Int32 else 0
    CanProcessInvoice := qs.CanProcessInvoice }

/-- A method of `adapters.SubscriptionStore`, whose source is not given: from
its argument and the state `σ` of the store, a row or an error, and the state
it leaves. -/
abbrev StoreMethod (σ α β : Type) := α → σ → Except Err β × σ

/-- `GetSubscriptionByOrgID`, over the store method it calls. -/
def GetSubscriptionByOrgID {σ : Type} (h : Helpers) (store : StoreMethod σ Int SubscriptionRow)
    (organizationID : Int) (st : σ) : Except Err (Subscription Int) × σ :=
  match store organizationID st with
  | (.error err, st1) =>
    if errorsIs err .sqlErrNoRows then (.error (.sentinel .ErrSubscriptionNotFound), st1)
    else (.error (.wrap (lit "failed to get subscription") err), st1)
  | (.ok result, st1) => (.ok (mapToDomainSubscription h result), st1)

/-- `GetQuotaByOrgID`, over the store method it calls. -/
def GetQuotaByOrgID {σ : Type} (h : Helpers) (store : StoreMethod σ Int QuotaRow)
    (organizationID : Int) (st : σ) : Except Err QuotaTracking × σ :=
  match store organizationID st with
  | (.error err, st1) =>
    if errorsIs err .sqlErrNoRows then (.error (.sentinel .ErrQuotaNotFound), st1)
    else (.error (.wrap (lit "failed to get quota") err), st1)
  | (.ok result, st1) => (.ok (mapToDomainQuota h result), st1)

/-- `DecrementInvoiceCount`, over the store method it calls. -/
def DecrementInvoiceCount {σ : Type} (h : Helpers) (store : StoreMethod σ Int QuotaRow)
    (organizationID : Int) (st : σ) : Except Err QuotaTracking × σ :=
  match store organizationID st with
  | (.error err, st1) => (.error (.wrap (lit "failed to decrement invoice count") err), st1)
  | (.ok result, st1) => (.ok (mapToDomainQuota h result), st1)

/-- `GetQuotaStatus`, over the store method it calls. -/
def GetQuotaStatus {σ : Type} (store : StoreMethod σ Int QuotaStatusRow)
    (organizationID : Int) (st : σ) : Except Err QuotaStatus × σ :=
  match store organizationID st with
  | (.error err, st1) =>
    if errorsIs err .sqlErrNoRows then (.error (.sentinel .ErrSubscriptionNotFound), st1)
    else (.error (.wrap (lit "failed to get quota status") err), st1)
  | (.ok result, st1) => (.ok (mapToDomainQuotaStatus result), st1)

/-! ## The store, from the specification -/

/-- Modelled from the spec: the stored billing state, which the sources given
do not hold. "One per organization": at most one subscription row and one
quota row for an organization ID. -/
structure Tables where
  subscriptions : Int → Option SubscriptionRow
  quotas : Int → Option QuotaRow

/-- Modelled from the spec: the store method `DecrementInvoiceCount`, whose
source and query are not given. "A single atomic operation at the storage
layer ... that decrements only if the current count is strictly positive", as
"a single conditional update statement": the row of the organization is
updated and returned when its count is positive; otherwise no row is updated,
the stored state is left as it is, and the store reports `noRow`, the error it
has for an empty result. -/
def specDecrementInvoiceCount (noRow : Err) : StoreMethod Tables Int QuotaRow :=
  fun organizationID t =>
    match t.quotas organizationID with
    | some q =>
      if 0 < q.InvoiceCount then
        let updated := { q with InvoiceCount := q.InvoiceCount - 1 }
        (.ok updated,
          { t with quotas := fun o => if o = organizationID then some updated else t.quotas o })
      else (.error noRow, t)
    | none => (.error noRow, t)

/-- Modelled from the spec: the store method `GetQuotaStatus`, whose source
and query are not given. "A single read ... joining subscription and quota
state", with `canProcessInvoice` "computed as: subscription status is in the
allowed-active set AND invoice count > 0 AND now is within the current
period", the period being `[start, end)`. `active` is the allowed-active set
and `now` the clock of the store; without both rows the result is empty. -/
def specGetQuotaStatus (active : Bytes → Bool) (now : Int) (noRow : Err) :
    StoreMethod Tables Int QuotaStatusRow :=
  fun organizationID t =>
    match t.subscriptions organizationID, t.quotas organizationID with
    | some s, some q =>
      (.ok { SubscriptionStatus := s.SubscriptionStatus
             CurrentPeriodStart := s.CurrentPeriodStart
             CurrentPeriodEnd := s.CurrentPeriodEnd
             CancelAtPeriodEnd := s.CancelAtPeriodEnd
             InvoiceCount := q.InvoiceCount
             MaxSeats := q.MaxSeats
             CanProcessInvoice :=
               active s.SubscriptionStatus && decide (0 < q.InvoiceCount) &&
               s.CurrentPeriodStart.Valid && s.CurrentPeriodEnd.Valid &&
               decide (s.CurrentPeriodStart.Time ≤ now) &&
               decide (now < s.CurrentPeriodEnd.Time) }, t)
    | _, _ => (.error noRow, t)

end Polar

namespace Polar

/-! ## Stored states used as examples -/

/-- A timestamp column holding the instant `t`. -/
def timestampAt (t : Int) : PgTimestamp := { Time := t, Valid := true }

/-- The quota row of organization 7 with the given invoice count, for the
period from instant 1000 to instant 2000. -/
def quotaRowWith (count : Int) : QuotaRow :=
  { ID := 1, OrganizationID := 7, InvoiceCount := count,
    MaxSeats := { Int32 := 5, Valid := true },
    PeriodStart := timestampAt 1000, PeriodEnd := timestampAt 2000,
    LastSyncedAt := { Time := 0, Valid := false },
    CreatedAt := timestampAt 900, UpdatedAt := timestampAt 950 }

/-- The subscription row of organization 7 with the given status, for the
period from instant 1000 to instant 2000. -/
def subscriptionRowWith (status : Bytes) : SubscriptionRow :=
  { ID := 1, OrganizationID := 7, ExternalCustomerID := lit "org_7",
    SubscriptionID := lit "sub_1", SubscriptionStatus := status, ProductID := lit "prod_1",
    ProductName := { String := lit "Pro", Valid := true },
    PlanName := { String := [], Valid := false },
    CurrentPeriodStart := timestampAt 1000, CurrentPeriodEnd := timestampAt 2000,
    CancelAtPeriodEnd := { Valid := true, Bool := false },
    CanceledAt := { Time := 0, Valid := false }, Metadata := [],
    CreatedAt := timestampAt 900, UpdatedAt := timestampAt 950 }

/-- A stored state with organization 7 only: a subscription with the given
status and a quota with the given invoice count. -/
def tablesWith (status : Bytes) (count : Int) : Tables :=
  { subscriptions := fun o => if o = 7 then some (subscriptionRowWith status) else none
    quotas := fun o => if o = 7 then some (quotaRowWith count) else none }

/-- Helpers that return the value of a valid column and the zero value of a
NULL one, and decode no metadata. -/
def plainHelpers : Helpers :=
  { StringFromPgText := fun x => if x.Valid then x.String else []
    Int32FromPgInt4 := fun x => if x.Valid then x.Int32 else 0
    Unmarshal := fun _ => [] }

/-- The allowed-active set holding the status `active` alone. -/
def onlyActive (status : Bytes) : Bool := decide (status = lit "active")

/-- A store method that answers every call with the given error. -/
def failingStore (α : Type) (err : Err) : StoreMethod Unit Int α :=
  fun _ st => (.error err, st)

end Polar

namespace Polar

/-! ## The words of the specification: the quota ceiling -/

/-- Spec: a decimal digit. -/
def IsDigit (c : UInt8) : Prop := 48 ≤ c.toNat ∧ c.toNat ≤ 57

/-- Spec: the number a text of decimal digits stands for, after the value `v`
of the digits before it. -/
def digitsValueFrom (v : Nat) (ds : Bytes) : Nat :=
  ds.foldl (fun v c => 10 * v + (c.toNat - 48)) v

/-- Spec: the number a text of decimal digits stands for. -/
def digitsValue (ds : Bytes) : Nat := digitsValueFrom 0 ds

/-- Spec: `s` is a base-10 text of the int32 `n`: one or more decimal digits,
after an optional sign, standing for `n`, with `n` in the range of `int32`. -/
def IsInt32Text (s : Bytes) (n : Int) : Prop :=
  -2147483648 ≤ n ∧ n ≤ 2147483647 ∧
    ∃ ds : Bytes, ds ≠ [] ∧ (∀ c ∈ ds, IsDigit c) ∧
      ((s = ds ∧ n = digitsValue ds) ∨ (s = 43 :: ds ∧ n = digitsValue ds) ∨
        (s = 45 :: ds ∧ n = -(digitsValue ds : Int)))

/-- A subscription item of the provider with the given product metadata. -/
def itemWithProductMetadata (m : StringMap) : SubscriptionItem :=
  { ID := lit "sub_1", CustomerID := lit "cus_1", ProductID := lit "prod_1",
    Status := lit "active", CurrentPeriodStart := lit "2024-01-01T00:00:00Z",
    CurrentPeriodEnd := lit "2024-02-01T00:00:00Z", CanceledAt := none,
    CustomerNestedID := lit "cus_1", CustomerMetadata := [],
    ProductNestedID := lit "prod_1", ProductName := lit "Pro", ProductMetadata := m }

end Polar

namespace Polar

/-! ## The writing operations of the repository -/

/-- Go `errors.Is(err, target)` for any target: `target` is `err` itself or an
error `err` wraps, directly or not. -/
def errorsIsErr : Err → Err → Bool
  | .wrap context cause, target =>
    decide (Err.wrap context cause = target) || errorsIsErr cause target
  | err, target => decide (err = target)

/-- The method `Error()`: the message of an error, given the messages of the
error variables. -/
def Err.Error (sentinelText : Sentinel → Bytes) : Err → Bytes
  | .sentinel s => sentinelText s
  | .other message => message
  | .wrap context cause => context ++ lit ": " ++ Err.Error sentinelText cause

/-- The routines `UpsertSubscription` and `UpsertQuota` call and whose source
is not given: `postgres.PgText`, `postgres.PgTimestamp`, `postgres.PgBool` and
`postgres.PgInt4`, each from a pointer (`none` is nil), and `json.Marshal` of
the metadata. -/
structure ParamHelpers where
  PgText : Option Bytes → PgText
  PgTimestamp : Option Int → PgTimestamp
  PgBool : Option Bool → PgBool
  PgInt4 : Option Int → PgInt4
  Marshal : Metadata → Except Err Bytes

/-- `sqlc.UpsertSubscriptionParams`. -/
structure UpsertSubscriptionParams where
  OrganizationID : Int
  ExternalCustomerID : Bytes
  SubscriptionID : Bytes
  SubscriptionStatus : Bytes
  ProductID : Bytes
  ProductName : PgText
  PlanName : PgText
  CurrentPeriodStart : PgTimestamp
  CurrentPeriodEnd : PgTimestamp
  CancelAtPeriodEnd : PgBool
  CanceledAt : PgTimestamp
  Metadata : Bytes
  deriving DecidableEq, Repr

/-- `sqlc.UpsertQuotaParams`. -/
structure UpsertQuotaParams where
  OrganizationID : Int
  InvoiceCount : Int
  MaxSeats : PgInt4
  PeriodStart : PgTimestamp
  PeriodEnd : PgTimestamp
  deriving DecidableEq, Repr

/-- The `params` that `UpsertSubscription` builds (lines 45-58). -/
def upsertSubscriptionParams (p : ParamHelpers) (subscription : Subscription Int)
    (metadataJSON : Bytes) : UpsertSubscriptionParams :=
  { OrganizationID := subscription.OrganizationID
    ExternalCustomerID := subscription.ExternalCustomerID
    SubscriptionID := subscription.SubscriptionID
    SubscriptionStatus := subscription.SubscriptionStatus
    ProductID := subscription.ProductID
    ProductName := p.PgText (some subscription.ProductName)
    PlanName := p.PgText (some subscription.PlanName)
    CurrentPeriodStart := p.PgTimestamp (some subscription.CurrentPeriodStart)
    CurrentPeriodEnd := p.PgTimestamp (some subscription.CurrentPeriodEnd)
    CancelAtPeriodEnd := p.PgBool (some subscription.CancelAtPeriodEnd)
    CanceledAt := p.PgTimestamp subscription.CanceledAt
    Metadata := metadataJSON }

/-- `UpsertSubscription`, over the store method it calls. -/
def UpsertSubscription {σ : Type} (h : Helpers) (p : ParamHelpers)
    (store : StoreMethod σ UpsertSubscriptionParams SubscriptionRow)
    (subscription : Subscription Int) (st : σ) : Except Err (Subscription Int) × σ :=
  match p.Marshal subscription.Metadata with
  | .error err => (.error (.wrap (lit "failed to marshal metadata") err), st)
  | .ok metadataJSON =>
    match store (upsertSubscriptionParams p subscription metadataJSON) st with
    | (.error err, st1) => (.error (.wrap (lit "failed to upsert subscription") err), st1)
    | (.ok result, st1) => (.ok (mapToDomainSubscription h result), st1)

/-- `DeleteSubscription`, over the store method it calls; `none` is the `nil` error. -/
def DeleteSubscription {σ : Type} (store : StoreMethod σ Int Unit)
    (organizationID : Int) (st : σ) : Option Err × σ :=
  match store organizationID st with
  | (.error err, st1) => (some (.wrap (lit "failed to delete subscription") err), st1)
  | (.ok _, st1) => (none, st1)

/-- The `params` that `UpsertQuota` builds (lines 88-94). -/
def upsertQuotaParams (p : ParamHelpers) (quota : QuotaTracking) : UpsertQuotaParams :=
  { OrganizationID := quota.OrganizationID
    InvoiceCount := quota.InvoiceCount
    MaxSeats := p.PgInt4 (some quota.MaxSeats)
    PeriodStart := p.PgTimestamp (some quota.PeriodStart)
    PeriodEnd := p.PgTimestamp (some quota.PeriodEnd) }

/-- `UpsertQuota`, over the store method it calls. -/
def UpsertQuota {σ : Type} (h : Helpers) (p : ParamHelpers)
    (store : StoreMethod σ UpsertQuotaParams QuotaRow)
    (quota : QuotaTracking) (st : σ) : Except Err QuotaTracking × σ :=
  match store (upsertQuotaParams p quota) st with
  | (.error err, st1) => (.error (.wrap (lit "failed to upsert quota") err), st1)
  | (.ok result, st1) => (.ok (mapToDomainQuota h result), st1)

/-- `n` calls of `DecrementInvoiceCount` for one organization, each a single
call of the store, taken one after the other: the results in order, and the
state of the store after the last. -/
def decrementTimes {σ : Type} (h : Helpers) (store : StoreMethod σ Int QuotaRow)
    (organizationID : Int) : Nat → σ → List (Except Err QuotaTracking) × σ
  | 0, st => ([], st)
  | n + 1, st =>
    let first := DecrementInvoiceCount h store organizationID st
    let rest := decrementTimes h store organizationID n first.2
    (first.1 :: rest.1, rest.2)

/-! ## `IngestMeterEvent` -/

/-- An element of the array `events` of the request body: `name`,
`external_customer_id` and `metadata.count`. -/
structure MeterEvent where
  name : Bytes
  external_customer_id : Bytes
  count : Int
  deriving DecidableEq, Repr

/-- What `p.client.Post` yields: an error, or a response with its status code
and its body as `io.ReadAll` reads it. -/
inductive PostReply where
  | transportError (err : Err)
  | response (StatusCode : Int) (body : Bytes)

/-- `IngestMeterEvent`, over `p.client.Post`, a function of the endpoint and
of the events of the request body; `none` is the `nil` error. -/
def IngestMeterEvent (post : Bytes → List MeterEvent → PostReply)
    (externalCustomerID meterSlug : Bytes) (amount : Int) : Option Err :=
  match post (lit "/v1/events/ingest")
      [{ name := meterSlug, external_customer_id := externalCustomerID, count := amount }] with
  | .transportError err => some (.wrap (lit "failed to call Polar events API") err)
  | .response code body =>
    if code ≠ 200 ∧ code ≠ 201 then
      some (.other (lit "polar events API returned status " ++ fmtInt code ++ lit ": " ++ body))
    else none

/-! ## Times, as the library parses them -/

/-- The zero `time.Time`, as an instant. -/
def zeroInstant : Int := 0

/-- The instant a parsed time stands for, given `time.Parse(time.RFC3339, s)`
as the function `parse` (`none` is an error): `time.Parse` returns the zero
time with its error, which `parseTime`'s callers drop. -/
def Time.instant (parse : Bytes → Option Int) (t : Time) : Int :=
  (parse t.rfc3339).getD zeroInstant

/-! ## More runs and replies used as examples -/

/-- The provider answers every fetch with a 200 and the given status; instant
fetches, no cancellation. -/
def alwaysStatus (status : Bytes) : Env :=
  { alwaysPending with reply := fun _ => replyWithStatus status }

/-- The provider answers every fetch with a 422; instant fetches, no cancellation. -/
def alwaysUnprocessable : Env :=
  { alwaysPending with
    reply := fun _ => .response 422 (lit "unprocessable entity") (.error []) }

/-- A transport that answers every request with the given reply. -/
def postAnswering (r : PostReply) : Bytes → List MeterEvent → PostReply := fun _ _ => r

/-- Parameter helpers that mark a column valid when the pointer is not nil,
and marshal any metadata to an empty object. -/
def plainParamHelpers : ParamHelpers :=
  { PgText := fun x => { String := x.getD [], Valid := x.isSome }
    PgTimestamp := fun x => { Time := x.getD 0, Valid := x.isSome }
    PgBool := fun x => { Valid := x.isSome, Bool := x.getD false }
    PgInt4 := fun x => { Int32 := x.getD 0, Valid := x.isSome }
    Marshal := fun _ => .ok (lit "null") }

/-- The messages of the error variables, for examples. -/
def sentinelText : Sentinel → Bytes
  | .sqlErrNoRows => lit "sql: no rows in result set"
  | .ErrSubscriptionNotFound => lit "subscription not found"
  | .ErrQuotaNotFound => lit "quota not found"
  | .QuotaExhausted => lit "quota exhausted"

/-- A store method, for any argument, that answers every call with the given error. -/
def failingMethod (α β : Type) (err : Err) : StoreMethod Unit α β :=
  fun _ st => (.error err, st)

end Polar

namespace Polar

/-! ## The response body of `GetSubscription`, as `encoding/json` decodes it -/

/-- A JSON value, as `encoding/json` scans it: a number is held as its text, a
string as the text it stands for, an object as its members in the order in
which the document gives them. -/
inductive JSONValue where
  | null
  | bool (b : Bool)
  | number (text : Bytes)
  | string (s : Bytes)
  | array (elements : List JSONValue)
  | object (members : List (Bytes × JSONValue))

/-- The name of an object member, folded as `encoding/json` folds it before it
looks for the field with that name: the ASCII capitals become small letters,
and so do the two other letters that Unicode folds onto an ASCII one, the
Kelvin sign (onto `k`) and the long s (onto `s`). The field names of the
response are small ASCII letters and `_`, which this folding leaves alone. -/
def foldName : Bytes → Bytes
  | [] => []
  | 0xE2 :: 0x84 :: 0xAA :: rest => 107 :: foldName rest
  | 0xC5 :: 0xBF :: rest => 115 :: foldName rest
  | c :: rest => (if 65 ≤ c ∧ c ≤ 90 then c + 32 else c) :: foldName rest

/-- Decoding into a Go `string` that holds `current`: `null` leaves it as it
is, a JSON string is stored, every other value is an `UnmarshalTypeError`
(`none`). -/
def decodeString (current : Bytes) : JSONValue → Option Bytes
  | .null => some current
  | .string s => some s
  | _ => none

/-- Decoding into a `*string`: `null` gives nil, a JSON string a pointer to it. -/
def decodeStringPointer : JSONValue → Option (Option Bytes)
  | .null => some none
  | .string s => some (some s)
  | _ => none

/-- The assignment `m[key] = value`. -/
def mapSet (m : StringMap) (key value : Bytes) : StringMap :=
  (key, value) :: m.filter (fun entry => entry.1 ≠ key)

/-- Decoding into a `map[string]string` that holds `current`: `null` gives the
nil map; an object stores each member, decoded into a fresh `string`, under
its name as it is written; every other value is an `UnmarshalTypeError`. -/
def decodeStringMap (current : StringMap) : JSONValue → Option StringMap
  | .null => some []
  | .object members =>
    members.foldlM (fun m member => (decodeString [] member.2).map (mapSet m member.1)) current
  | _ => none

/-- Decoding into a struct that holds `current`: `null` leaves it as it is, an
object decodes its members one after the other, every other value is an
`UnmarshalTypeError`. -/
def decodeStruct {α : Type} (decodeMember : α → Bytes × JSONValue → Option α) (current : α) :
    JSONValue → Option α
  | .null => some current
  | .object members => members.foldlM decodeMember current
  | _ => none

/-- Lines 51-54: a member of `customer`; a name that is no field is skipped. -/
def decodeCustomerMember (item : SubscriptionItem) (member : Bytes × JSONValue) :
    Option SubscriptionItem :=
  if foldName member.1 = lit "id" then
    (decodeString item.CustomerNestedID member.2).map
      (fun s => { item with CustomerNestedID := s })
  else if foldName member.1 = lit "metadata" then
    (decodeStringMap item.CustomerMetadata member.2).map
      (fun m => { item with CustomerMetadata := m })
  else some item

/-- Lines 55-59: a member of `product`. -/
def decodeProductMember (item : SubscriptionItem) (member : Bytes × JSONValue) :
    Option SubscriptionItem :=
  if foldName member.1 = lit "id" then
    (decodeString item.ProductNestedID member.2).map
      (fun s => { item with ProductNestedID := s })
  else if foldName member.1 = lit "name" then
    (decodeString item.ProductName member.2).map (fun s => { item with ProductName := s })
  else if foldName member.1 = lit "metadata" then
    (decodeStringMap item.ProductMetadata member.2).map
      (fun m => { item with ProductMetadata := m })
  else some item

/-- Lines 44-59: a member of an element of `items`. -/
def decodeItemMember (item : SubscriptionItem) (member : Bytes × JSONValue) :
    Option SubscriptionItem :=
  if foldName member.1 = lit "id" then
    (decodeString item.ID member.2).map (fun s => { item with ID := s })
  else if foldName member.1 = lit "customer_id" then
    (decodeString item.CustomerID member.2).map (fun s => { item with CustomerID := s })
  else if foldName member.1 = lit "product_id" then
    (decodeString item.ProductID member.2).map (fun s => { item with ProductID := s })
  else if foldName member.1 = lit "status" then
    (decodeString item.Status member.2).map (fun s => { item with Status := s })
  else if foldName member.1 = lit "current_period_start" then
    (decodeString item.CurrentPeriodStart member.2).map
      (fun s => { item with CurrentPeriodStart := s })
  else if foldName member.1 = lit "current_period_end" then
    (decodeString item.CurrentPeriodEnd member.2).map
      (fun s => { item with CurrentPeriodEnd := s })
  else if foldName member.1 = lit "canceled_at" then
    (decodeStringPointer member.2).map (fun p => { item with CanceledAt := p })
  else if foldName member.1 = lit "customer" then
    decodeStruct decodeCustomerMember item member.2
  else if foldName member.1 = lit "product" then
    decodeStruct decodeProductMember item member.2
  else some item

/-- The zero value of an element of `result.Items`. -/
def zeroItem : SubscriptionItem :=
  { ID := [], CustomerID := [], ProductID := [], Status := [], CurrentPeriodStart := [],
    CurrentPeriodEnd := [], CanceledAt := none, CustomerNestedID := [], CustomerMetadata := [],
    ProductNestedID := [], ProductName := [], ProductMetadata := [] }

/-- The elements of an array, decoded in turn, each into the element the
slice holds at its place, or into a zero element past its length. -/
def decodeElements : List SubscriptionItem → List JSONValue → Option (List SubscriptionItem)
  | _, [] => some []
  | current, element :: elements =>
    match decodeStruct decodeItemMember (current.headD zeroItem) element with
    | none => none
    | some item => (decodeElements current.tail elements).map (fun items => item :: items)

/-- Decoding into the slice `Items` that holds `current`: `null` gives the nil
slice, an array its elements, every other value is an `UnmarshalTypeError`.
(A document that gives `items` three times, the second time with fewer
elements than the first and the third, is decoded by `encoding/json` into
what the slice held beyond its length; the model leaves this out.) -/
def decodeItems (current : List SubscriptionItem) : JSONValue → Option (List SubscriptionItem)
  | .null => some []
  | .array elements => decodeElements current elements
  | _ => none

/-- Lines 42-61: a member of the response document. -/
def decodeResultMember (items : List SubscriptionItem) (member : Bytes × JSONValue) :
    Option (List SubscriptionItem) :=
  if foldName member.1 = lit "items" then decodeItems items member.2 else some items

/-- Lines 42-65: `json.NewDecoder(resp.Body).Decode(&result)` on a body that
is the JSON document `document`, as `result.Items`; `none` when `Decode`
returns an error. -/
def decodeResult (document : JSONValue) : Option (List SubscriptionItem) :=
  decodeStruct decodeResultMember [] document

/-- What `p.client.Get` yields when the response has the status `code` and a
body that is the JSON document `document`; `decodeError` is the error
`Decode` returns when the document does not fit `result`. -/
def jsonReply (code : Int) (body : Bytes) (document : JSONValue) (decodeError : Err) :
    SubscriptionsReply :=
  .response code body
    (match decodeResult document with
     | some items => .ok items
     | none => .error decodeError)

/-- The document of a response with one subscription, whose product metadata
give `invoice_count` as `ceiling`. -/
def subscriptionsDocument (ceiling : JSONValue) : JSONValue :=
  .object [(lit "items", .array [.object [
    (lit "id", .string (lit "sub_1")),
    (lit "customer_id", .string (lit "cus_1")),
    (lit "product_id", .string (lit "prod_1")),
    (lit "status", .string (lit "active")),
    (lit "current_period_start", .string (lit "2024-01-01T00:00:00Z")),
    (lit "current_period_end", .string (lit "2024-02-01T00:00:00Z")),
    (lit "canceled_at", .null),
    (lit "customer", .object [
      (lit "id", .string (lit "cus_1")),
      (lit "metadata", .object [])]),
    (lit "product", .object [
      (lit "id", .string (lit "prod_1")),
      (lit "name", .string (lit "Pro")),
      (lit "metadata", .object [(lit "invoice_count", ceiling)])])]])]

end Polar

/-! ## Bytes -/

namespace Polar

theorem toNat_ofNat (n : Nat) : (UInt8.ofNat n).toNat = n % 256 := by
  simp [UInt8.ofNat, UInt8.toNat]

theorem ofNat_eq_of_mod {n : Nat} {b : UInt8} (h : n % 256 = b.toNat) : UInt8.ofNat n = b := by
  apply UInt8.ext
  rw [toNat_ofNat, h]

theorem toNat_lt (b : UInt8) : b.toNat < 256 := by
  have := UInt8.toNat_lt b
  simpa using this

theorem stringsContains_singleton (c : UInt8) (s : Bytes) :
    stringsContains s [c] = true ↔ c ∈ s := by
  induction s with
  | nil => simp [stringsContains]
  | cons d s ih =>
    simp only [stringsContains, List.isPrefixOf, Bool.or_eq_true, ih, List.mem_cons,
      Bool.and_true, beq_iff_eq]

/-! ## The digest is 32 bytes long -/

theorem SHA256.length_blocks (n : Nat) :
    ∀ ws hs : List Nat, hs.length = 8 → (SHA256.blocks n ws hs).length = 8 := by
  induction n with
  | zero => intro ws hs h; simpa [SHA256.blocks] using h
  | succ n ih => intro ws hs _; exact ih _ _ (by simp [SHA256.compress])

theorem SHA256.length_flatMap_wordBytes (ws : List Nat) :
    (ws.flatMap SHA256.wordBytes).length = 4 * ws.length := by
  induction ws with
  | nil => rfl
  | cons w ws ih => simp [List.flatMap_cons, SHA256.wordBytes, ih]; omega

theorem SHA256.length_sum (msg : Bytes) : (SHA256.sum msg).length = 32 := by
  simp only [SHA256.sum, SHA256.length_flatMap_wordBytes]
  rw [SHA256.length_blocks _ _ _ (by rfl)]

theorem length_hmacSHA256 (key msg : Bytes) : (hmacSHA256 key msg).length = 32 := by
  simp only [hmacSHA256, SHA256.length_sum]

/-! ## Base64: decoding undoes encoding -/

namespace Base64

theorem decodeMap_encode (v : Nat) : decodeMap (encode v) = v % 64 := by
  have h : ∀ i : Fin 64, decodeMap (encodeStd.getD i.val 0) = i.val := by decide
  exact h ⟨v % 64, Nat.mod_lt _ (by norm_num)⟩

theorem decodeMap_encode_ne (v : Nat) : decodeMap (encode v) ≠ 255 := by
  rw [decodeMap_encode]; omega

theorem decodeMap_padChar : decodeMap padChar = 255 := by decide

theorem quantumBytes_full (a b c : UInt8) :
    quantumBytes [(a.toNat * 65536 + b.toNat * 256 + c.toNat) / 262144 % 64,
      (a.toNat * 65536 + b.toNat * 256 + c.toNat) / 4096 % 64,
      (a.toNat * 65536 + b.toNat * 256 + c.toNat) / 64 % 64,
      (a.toNat * 65536 + b.toNat * 256 + c.toNat) % 64] 4 = [a, b, c] := by
  have ha := toNat_lt a
  have hb := toNat_lt b
  have hc := toNat_lt c
  simp only [quantumBytes, List.getD_cons_zero, List.getD_cons_succ, Nat.add_one_sub_one,
    List.take_succ_cons, List.take_zero, List.cons.injEq, and_true]
  refine ⟨ofNat_eq_of_mod ?_, ofNat_eq_of_mod ?_, ofNat_eq_of_mod ?_⟩ <;> omega

theorem quantumBytes_two (a b : UInt8) :
    quantumBytes [(a.toNat * 65536 + b.toNat * 256) / 262144 % 64,
      (a.toNat * 65536 + b.toNat * 256) / 4096 % 64,
      (a.toNat * 65536 + b.toNat * 256) / 64 % 64] 3 = [a, b] := by
  have ha := toNat_lt a
  have hb := toNat_lt b
  simp only [quantumBytes, List.getD_cons_zero, List.getD_cons_succ, List.getD_nil,
    List.take_succ_cons, List.take_zero, List.cons.injEq, and_true]
  refine ⟨ofNat_eq_of_mod ?_, ofNat_eq_of_mod ?_⟩ <;> omega

theorem quantumBytes_one (a : UInt8) :
    quantumBytes [(a.toNat * 65536) / 262144 % 64, (a.toNat * 65536) / 4096 % 64] 2 = [a] := by
  have ha := toNat_lt a
  simp only [quantumBytes, List.getD_cons_zero, List.getD_cons_succ, List.getD_nil,
    List.take_succ_cons, List.take_zero, List.cons.injEq, and_true]
  refine ofNat_eq_of_mod ?_
  omega

/-- One character of the alphabet is read into the quantum buffer. -/
theorem decodeFrom_encode_cons (n v : Nat) (rest : Bytes) (si : Nat) (dbuf : List Nat)
    (acc : Bytes) (h : dbuf.length ≠ 3) :
    decodeFrom n (encode v :: rest) si dbuf acc =
      decodeFrom n rest (si + 1) (dbuf ++ [v % 64]) acc := by
  rw [decodeFrom, if_pos (decodeMap_encode_ne v), if_neg h, decodeMap_encode]

/-- The fourth character of a quantum completes it. -/
theorem decodeFrom_encode_last (n v : Nat) (rest : Bytes) (si : Nat) (dbuf : List Nat)
    (acc : Bytes) (h : dbuf.length = 3) :
    decodeFrom n (encode v :: rest) si dbuf acc =
      decodeFrom n rest (si + 1) [] (acc ++ quantumBytes (dbuf ++ [v % 64]) 4) := by
  rw [decodeFrom, if_pos (decodeMap_encode_ne v), if_pos h, decodeMap_encode]

theorem decodeFrom_encode (n : Nat) (bs : Bytes) :
    ∀ si acc, decodeFrom n (EncodeToString bs) si [] acc = .ok (acc ++ bs) := by
  induction bs using EncodeToString.induct with
  | case1 a b c rest ih =>
    intro si acc
    simp only [EncodeToString]
    rw [decodeFrom_encode_cons _ _ _ _ _ _ (by simp), decodeFrom_encode_cons _ _ _ _ _ _ (by simp),
      decodeFrom_encode_cons _ _ _ _ _ _ (by simp), decodeFrom_encode_last _ _ _ _ _ _ (by simp), ih]
    have := quantumBytes_full a b c
    simp only [List.nil_append, List.cons_append] at this ⊢
    rw [this]
    simp
  | case2 a b =>
    intro si acc
    simp only [EncodeToString]
    rw [decodeFrom_encode_cons _ _ _ _ _ _ (by simp), decodeFrom_encode_cons _ _ _ _ _ _ (by simp),
      decodeFrom_encode_cons _ _ _ _ _ _ (by simp)]
    have := quantumBytes_two a b
    simp only [List.nil_append, List.cons_append] at this ⊢
    have hp : ¬ (padChar = 10 ∨ padChar = 13) := by decide
    simp [decodeFrom, decodeMap_padChar, afterPadding, skipNewlines, this, hp]
  | case3 a =>
    intro si acc
    simp only [EncodeToString]
    rw [decodeFrom_encode_cons _ _ _ _ _ _ (by simp), decodeFrom_encode_cons _ _ _ _ _ _ (by simp)]
    have := quantumBytes_one a
    simp only [List.nil_append, List.cons_append] at this ⊢
    have hp : ¬ (padChar = 10 ∨ padChar = 13) := by decide
    simp [decodeFrom, decodeMap_padChar, afterPadding, skipNewlines, this, hp]
  | case4 =>
    intro si acc
    simp [EncodeToString, decodeFrom]

theorem DecodeString_EncodeToString (bs : Bytes) :
    DecodeString (EncodeToString bs) = .ok bs := by
  simpa [DecodeString] using decodeFrom_encode _ bs 0 []

end Base64

end Polar

/-! ## `strings.Split` at the comma -/

namespace Polar

theorem lit_comma : lit "," = [44] := by decide

theorem stringsSplit_ne_nil (sep : UInt8) (s : Bytes) : stringsSplit sep s ≠ [] := by
  cases s with
  | nil => simp [stringsSplit]
  | cons c s =>
    simp only [stringsSplit]
    split
    · simp
    · split <;> simp

theorem length_stringsSplit (sep : UInt8) (s : Bytes) :
    (stringsSplit sep s).length = s.count sep + 1 := by
  induction s with
  | nil => simp [stringsSplit]
  | cons c s ih =>
    simp only [stringsSplit]
    by_cases h : c = sep
    · subst h
      simp [ih]
    · rw [if_neg h]
      have hc : (c :: s).count sep = s.count sep := by
        rw [List.count_cons]
        simp [h]
      rw [hc, ← ih]
      cases hs : stringsSplit sep s with
      | nil => exact absurd hs (stringsSplit_ne_nil sep s)
      | cons p ps => simp

theorem stringsSplit_eq_singleton (s : Bytes) : ∀ p, stringsSplit 44 s = [p] → p = s := by
  induction s with
  | nil => intro p h; simpa [stringsSplit] using h.symm
  | cons c s ih =>
    intro p h
    simp only [stringsSplit] at h
    by_cases hc : c = 44
    · rw [if_pos hc] at h
      simp at h
      exact absurd h.2 (stringsSplit_ne_nil 44 s)
    · rw [if_neg hc] at h
      cases hs : stringsSplit 44 s with
      | nil => exact absurd hs (stringsSplit_ne_nil 44 s)
      | cons q qs =>
        rw [hs] at h
        simp at h
        obtain ⟨h1, h2⟩ := h
        subst h2
        rw [← h1, ih q hs]

theorem stringsSplit_eq_pair (s : Bytes) :
    ∀ p0 p1, stringsSplit 44 s = [p0, p1] → p1 = afterFirstComma s := by
  induction s with
  | nil => intro p0 p1 h; simp [stringsSplit] at h
  | cons c s ih =>
    intro p0 p1 h
    simp only [stringsSplit] at h
    by_cases hc : c = 44
    · rw [if_pos hc] at h
      simp at h
      rw [afterFirstComma, if_pos hc]
      exact stringsSplit_eq_singleton s p1 h.2
    · rw [if_neg hc] at h
      rw [afterFirstComma, if_neg hc]
      cases hs : stringsSplit 44 s with
      | nil => exact absurd hs (stringsSplit_ne_nil 44 s)
      | cons q qs =>
        rw [hs] at h
        simp at h
        exact ih q p1 (by rw [hs, h.2])

/-- What lines 51-58 leave of the header, by its number of commas. -/
theorem stripVersionPrefix_eq (s : Bytes) :
    stripVersionPrefix s = if s.count 44 = 1 then afterFirstComma s else s := by
  unfold stripVersionPrefix
  rw [lit_comma]
  by_cases hm : (44 : UInt8) ∈ s
  · rw [if_pos ((stringsContains_singleton 44 s).mpr hm)]
    have hlen := length_stringsSplit 44 s
    by_cases h1 : s.count 44 = 1
    · rw [if_pos h1]
      rw [h1] at hlen
      match hs : stringsSplit 44 s, hlen with
      | [p0, p1], _ => exact stringsSplit_eq_pair s p0 p1 hs
    · rw [if_neg h1]
      match hs : stringsSplit 44 s, hlen with
      | [], _ => rfl
      | [_], _ => rfl
      | [_, _], hl => simp at hl; omega
      | _ :: _ :: _ :: _, _ => rfl
  · have h0 : s.count 44 = 0 := List.count_eq_zero.mpr hm
    have hc : stringsContains s [44] ≠ true := fun h => hm ((stringsContains_singleton 44 s).mp h)
    rw [if_neg hc, if_neg (by omega)]

end Polar

/-! ## Base64: what the decoder accepts -/

namespace Polar

namespace Base64

theorem not_accepted_comma : ¬ accepted 44 := by
  unfold accepted; decide

theorem skipNewlines_mem (s : Bytes) :
    ∀ si r si1, skipNewlines s si = (r, si1) → ∀ c ∈ s, c ∈ r ∨ c = 10 ∨ c = 13 := by
  induction s with
  | nil => intro si r si1 _ c hc; simp at hc
  | cons d s ih =>
    intro si r si1 h c hc
    simp only [skipNewlines] at h
    by_cases hd : d = 10 ∨ d = 13
    · rw [if_pos hd] at h
      rcases List.mem_cons.mp hc with rfl | hc
      · exact Or.inr hd
      · exact ih _ _ _ h c hc
    · rw [if_neg hd] at h
      simp only [Prod.mk.injEq] at h
      rw [← h.1]
      exact Or.inl hc

theorem afterPadding_ok (s : Bytes) (si : Nat) (acc r : Bytes)
    (h : afterPadding s si acc = .ok r) : ∀ c ∈ s, accepted c := by
  intro c hc
  unfold afterPadding at h
  split at h
  · rename_i hs
    rcases skipNewlines_mem s si _ _ hs c hc with h1 | h1 | h1
    · simp at h1
    · exact Or.inr (Or.inl h1)
    · exact Or.inr (Or.inr (Or.inl h1))
  · simp at h

/-- The decoder reads every byte of its input: an input it decodes without
error holds only bytes of the alphabet, newlines and padding. -/
theorem decodeFrom_ok (n : Nat) (s : Bytes) :
    ∀ si dbuf acc r, decodeFrom n s si dbuf acc = .ok r → ∀ c ∈ s, accepted c := by
  induction s with
  | nil => intro si dbuf acc r _ c hc; simp at hc
  | cons d s ih =>
    intro si dbuf acc r h c hc
    rw [decodeFrom] at h
    by_cases hd : decodeMap d ≠ 255
    · rw [if_pos hd] at h
      rcases List.mem_cons.mp hc with rfl | hc
      · exact Or.inl hd
      · split at h
        · exact ih _ _ _ _ h c hc
        · exact ih _ _ _ _ h c hc
    · rw [if_neg hd] at h
      by_cases hn : d = 10 ∨ d = 13
      · rw [if_pos hn] at h
        rcases List.mem_cons.mp hc with rfl | hc
        · exact Or.inr (hn.elim Or.inl (fun x => Or.inr (Or.inl x)))
        · exact ih _ _ _ _ h c hc
      · rw [if_neg hn] at h
        by_cases hp : d ≠ padChar
        · rw [if_pos hp] at h
          simp at h
        · rw [if_neg hp] at h
          rcases List.mem_cons.mp hc with rfl | hc
          · exact Or.inr (Or.inr (Or.inr (not_not.mp hp)))
          · split at h
            · simp at h
            · simp at h
            · split at h
              · simp at h
              · rename_i p rest1 si1 hs
                by_cases hpp : p ≠ padChar
                · rw [if_pos hpp] at h
                  simp at h
                · rw [if_neg hpp] at h
                  rcases skipNewlines_mem s _ _ _ hs c hc with h1 | h1 | h1
                  · rcases List.mem_cons.mp h1 with rfl | h2
                    · exact Or.inr (Or.inr (Or.inr (not_not.mp hpp)))
                    · exact afterPadding_ok _ _ _ _ h c h2
                  · exact Or.inr (Or.inl h1)
                  · exact Or.inr (Or.inr (Or.inl h1))
            · exact afterPadding_ok _ _ _ _ h c hc

theorem DecodeString_ok {s r : Bytes} (h : DecodeString s = .ok r) : ∀ c ∈ s, accepted c :=
  decodeFrom_ok _ s _ _ _ _ h

/-- A text with a comma is not valid base64. -/
theorem DecodeString_comma {s : Bytes} (h : (44 : UInt8) ∈ s) :
    ∃ offset, DecodeString s = .error offset := by
  cases hd : DecodeString s with
  | error offset => exact ⟨offset, rfl⟩
  | ok r => exact absurd (DecodeString_ok hd 44 h) not_accepted_comma

theorem encode_ne_comma (v : Nat) : encode v ≠ 44 := by
  have h : ∀ i : Fin 64, encodeStd.getD i.val 0 ≠ 44 := by decide
  exact h ⟨v % 64, Nat.mod_lt _ (by norm_num)⟩

/-- The encoder writes no comma. -/
theorem EncodeToString_no_comma (bs : Bytes) : (44 : UInt8) ∉ EncodeToString bs := by
  have hp : padChar ≠ 44 := by decide
  induction bs using EncodeToString.induct with
  | case1 a b c rest ih =>
    simp only [EncodeToString, List.mem_cons, not_or]
    exact ⟨(encode_ne_comma _).symm, (encode_ne_comma _).symm, (encode_ne_comma _).symm,
      (encode_ne_comma _).symm, ih⟩
  | case2 a b =>
    simp only [EncodeToString, List.mem_cons, not_or, List.mem_nil_iff, not_false_eq_true, and_true]
    exact ⟨(encode_ne_comma _).symm, (encode_ne_comma _).symm, (encode_ne_comma _).symm,
      hp.symm⟩
  | case3 a =>
    simp only [EncodeToString, List.mem_cons, not_or, List.mem_nil_iff, not_false_eq_true, and_true]
    exact ⟨(encode_ne_comma _).symm, (encode_ne_comma _).symm, hp.symm, hp.symm⟩
  | case4 => simp [EncodeToString]

theorem EncodeToString_ne_nil {bs : Bytes} (h : bs ≠ []) : EncodeToString bs ≠ [] := by
  match bs, h with
  | [_], _ => simp [EncodeToString]
  | [_, _], _ => simp [EncodeToString]
  | _ :: _ :: _ :: _, _ => simp [EncodeToString]

end Base64

theorem hmacSHA256_ne_nil (key msg : Bytes) : hmacSHA256 key msg ≠ [] := by
  intro h
  have := length_hmacSHA256 key msg
  rw [h] at this
  simp at this

theorem ComputeWebhookSignature_ne_nil (secret webhookID timestamp payload : Bytes) :
    ComputeWebhookSignature secret webhookID timestamp payload ≠ [] :=
  Base64.EncodeToString_ne_nil (hmacSHA256_ne_nil _ _)

theorem stripVersionPrefix_of_not_mem {s : Bytes} (h : (44 : UInt8) ∉ s) :
    stripVersionPrefix s = s := by
  rw [stripVersionPrefix_eq, if_neg]
  rw [List.count_eq_zero.mpr h]
  omega

/-- The signature `ComputeWebhookSignature` returns passes lines 60-89. -/
theorem checkSignature_compute (secret webhookID timestamp payload : Bytes) :
    checkSignature secret webhookID timestamp payload
      (ComputeWebhookSignature secret webhookID timestamp payload) = none := by
  simp [checkSignature, ComputeWebhookSignature, Base64.DecodeString_EncodeToString, hmacEqual]

/-- C1. A signature freshly computed by `ComputeWebhookSignature` verifies:
for every non-empty secret, webhook ID and timestamp and every payload (the
empty one included), `VerifyWebhookSignature` returns `nil` on it. -/
theorem C1_fresh_signature_verifies (secret webhookID timestamp payload : Bytes)
    (hsecret : secret ≠ []) (hid : webhookID ≠ []) (hts : timestamp ≠ []) :
    VerifyWebhookSignature secret webhookID timestamp payload
      (ComputeWebhookSignature secret webhookID timestamp payload) = none := by
  unfold VerifyWebhookSignature
  rw [if_neg hsecret, if_neg (ComputeWebhookSignature_ne_nil _ _ _ _), if_neg hid, if_neg hts,
    stripVersionPrefix_of_not_mem (show (44 : UInt8) ∉ ComputeWebhookSignature _ _ _ _ from
      Base64.EncodeToString_no_comma _)]
  exact checkSignature_compute _ _ _ _

/-- C1 at the secret `whsec`, the ID `msg_1`, the timestamp `1700000000` and
the empty payload. -/
theorem C1_fresh_signature_verifies_witness :
    VerifyWebhookSignature (lit "whsec") (lit "msg_1") (lit "1700000000") []
      (ComputeWebhookSignature (lit "whsec") (lit "msg_1") (lit "1700000000") []) = none :=
  C1_fresh_signature_verifies (lit "whsec") (lit "msg_1") (lit "1700000000") []
    (by decide) (by decide) (by decide)

/-- A signature computed for one payload verifies another payload exactly
when both have the same MAC. -/
theorem verify_computed_eq_none_iff (secret webhookID timestamp payload payload1 : Bytes)
    (hsecret : secret ≠ []) (hid : webhookID ≠ []) (hts : timestamp ≠ []) :
    VerifyWebhookSignature secret webhookID timestamp payload1
        (ComputeWebhookSignature secret webhookID timestamp payload) = none ↔
      hmacSHA256 secret (signedContent webhookID timestamp payload) =
        hmacSHA256 secret (signedContent webhookID timestamp payload1) := by
  unfold VerifyWebhookSignature
  rw [if_neg hsecret, if_neg (ComputeWebhookSignature_ne_nil _ _ _ _), if_neg hid, if_neg hts,
    stripVersionPrefix_of_not_mem (show (44 : UInt8) ∉ ComputeWebhookSignature _ _ _ _ from
      Base64.EncodeToString_no_comma _)]
  simp [checkSignature, ComputeWebhookSignature, Base64.DecodeString_EncodeToString, hmacEqual]

end Polar

/-! ## The version prefix -/

namespace Polar

theorem count_afterFirstComma (s : Bytes) (h : (44 : UInt8) ∈ s) :
    (afterFirstComma s).count 44 + 1 = s.count 44 := by
  induction s with
  | nil => simp at h
  | cons c s ih =>
    by_cases hc : c = 44
    · subst hc
      simp [afterFirstComma]
    · rw [afterFirstComma, if_neg hc, List.count_cons]
      have hm : (44 : UInt8) ∈ s := by
        rcases List.mem_cons.mp h with h1 | h1
        · exact absurd h1.symm hc
        · exact h1
      simp [hc, ih hm]

theorem mem_of_count_pos {s : Bytes} (h : 0 < s.count 44) : (44 : UInt8) ∈ s := by
  by_contra hm
  rw [List.count_eq_zero.mpr hm] at h
  omega

/-- The code and the specification remove the same prefix, except from a
header with two or more commas, which neither makes decodable. -/
theorem decode_strip_iff_decode_remove (s d : Bytes) :
    Base64.DecodeString (stripVersionPrefix s) = .ok d ↔
      Base64.DecodeString (removeVersionPrefix s) = .ok d := by
  rw [stripVersionPrefix_eq]
  unfold removeVersionPrefix
  by_cases h1 : s.count 44 = 1
  · rw [if_pos h1, if_pos (mem_of_count_pos (by omega))]
  · rw [if_neg h1]
    by_cases hm : (44 : UInt8) ∈ s
    · rw [if_pos hm]
      have hc := count_afterFirstComma s hm
      have hpos : 0 < s.count 44 := List.count_pos_iff.mpr hm
      have hm2 : (44 : UInt8) ∈ afterFirstComma s := mem_of_count_pos (by omega)
      obtain ⟨o1, ho1⟩ := Base64.DecodeString_comma hm
      obtain ⟨o2, ho2⟩ := Base64.DecodeString_comma hm2
      rw [ho1, ho2]
      simp
    · rw [if_neg hm]

theorem checkSignature_eq_none_iff (secret webhookID timestamp payload signature : Bytes) :
    checkSignature secret webhookID timestamp payload signature = none ↔
      ∃ decoded, Base64.DecodeString signature = .ok decoded ∧
        decoded = hmacSHA256 secret (webhookID ++ lit "." ++ timestamp ++ lit "." ++ payload) := by
  unfold checkSignature
  cases hd : Base64.DecodeString signature with
  | error offset => simp
  | ok bytes => simp [hmacEqual, signedContent]

/-- C2. `VerifyWebhookSignature` returns `nil` exactly when the secret, the
webhook ID, the timestamp and the signature are non-empty, the signature
without its version prefix is valid standard base64, and the decoded bytes are
the HMAC-SHA256, keyed by the secret, of `webhookID + "." + timestamp + "." +
payload`, the payload taken as passed in. -/
theorem C2_verify_nil_iff (secret webhookID timestamp payload signature : Bytes) :
    VerifyWebhookSignature secret webhookID timestamp payload signature = none ↔
      VerifySpec secret webhookID timestamp payload signature := by
  unfold VerifyWebhookSignature VerifySpec
  by_cases h1 : secret = []
  · simp [h1]
  by_cases h2 : signature = []
  · simp [h1, h2]
  by_cases h3 : webhookID = []
  · simp [h1, h2, h3]
  by_cases h4 : timestamp = []
  · simp [h1, h2, h3, h4]
  rw [if_neg h1, if_neg h2, if_neg h3, if_neg h4, checkSignature_eq_none_iff]
  constructor
  · rintro ⟨d, hd, he⟩
    exact ⟨h1, h3, h4, h2, d, (decode_strip_iff_decode_remove _ _).mp hd, he⟩
  · rintro ⟨_, _, _, _, d, hd, he⟩
    exact ⟨d, (decode_strip_iff_decode_remove _ _).mpr hd, he⟩

theorem takeWhile_ne_of_not_mem (s : Bytes) (h : (44 : UInt8) ∉ s) :
    s.takeWhile (fun c => c != 44) = s := by
  induction s with
  | nil => rfl
  | cons c s ih =>
    have hc : c ≠ 44 := fun e => h (by simp [e])
    have hs : (44 : UInt8) ∉ s := fun e => h (List.mem_cons_of_mem _ e)
    simp [List.takeWhile_cons, hc, ih hs]

/-- C3, as stated, fails at the header `v1,<valid signature>,x`: the segment
after the first comma is the valid signature, yet the code decodes the whole
header and rejects its comma, at offset 2. -/
theorem C3_counterexample :
    (44 : UInt8) ∈ lit "v1,BWTzwBkfdMQ/4Q5udtuJSj84ei6yhnLOIyiGfGRolck=,x" ∧
    checkSignature (lit "whsec") (lit "msg_1") (lit "1700000000") (lit "event=checkout.updated")
      (segmentAfterFirstComma (lit "v1,BWTzwBkfdMQ/4Q5udtuJSj84ei6yhnLOIyiGfGRolck=,x")) = none ∧
    VerifyWebhookSignature (lit "whsec") (lit "msg_1") (lit "1700000000") (lit "event=checkout.updated")
      (lit "v1,BWTzwBkfdMQ/4Q5udtuJSj84ei6yhnLOIyiGfGRolck=,x") = some (.decodeFailed 2) := by
  decide!

/-- C3, amended. For a non-empty secret, webhook ID and timestamp: a header
with exactly one comma is verified as the segment after that comma, decoded
and compared with the expected MAC; a header with two or more commas is not
split but decoded whole, and is rejected with the decoding error. -/
theorem C3_single_comma_segment (secret webhookID timestamp payload header : Bytes)
    (hsecret : secret ≠ []) (hid : webhookID ≠ []) (hts : timestamp ≠ []) :
    (header.count 44 = 1 →
      VerifyWebhookSignature secret webhookID timestamp payload header =
        checkSignature secret webhookID timestamp payload (segmentAfterFirstComma header)) ∧
    (2 ≤ header.count 44 →
      ∃ offset, VerifyWebhookSignature secret webhookID timestamp payload header =
        some (.decodeFailed offset)) := by
  constructor
  · intro h1
    have hm : (44 : UInt8) ∈ header := mem_of_count_pos (by omega)
    have hne : header ≠ [] := List.ne_nil_of_mem hm
    have hc := count_afterFirstComma header hm
    have hno : (44 : UInt8) ∉ afterFirstComma header := by
      intro hmem
      have := List.count_pos_iff.mpr hmem
      omega
    unfold VerifyWebhookSignature segmentAfterFirstComma
    rw [if_neg hsecret, if_neg hne, if_neg hid, if_neg hts, stripVersionPrefix_eq, if_pos h1,
      takeWhile_ne_of_not_mem _ hno]
  · intro h2
    have hm : (44 : UInt8) ∈ header := mem_of_count_pos (by omega)
    have hne : header ≠ [] := List.ne_nil_of_mem hm
    obtain ⟨offset, ho⟩ := Base64.DecodeString_comma hm
    refine ⟨offset, ?_⟩
    unfold VerifyWebhookSignature
    rw [if_neg hsecret, if_neg hne, if_neg hid, if_neg hts, stripVersionPrefix_eq,
      if_neg (by omega)]
    simp [checkSignature, ho]

/-- C3, amended, at the headers `v1,QUJD` (one comma) and `v1,QUJD,x` (two). -/
theorem C3_single_comma_segment_witness :
    VerifyWebhookSignature (lit "whsec") (lit "msg_1") (lit "1700000000") [] (lit "v1,QUJD") =
      checkSignature (lit "whsec") (lit "msg_1") (lit "1700000000") []
        (segmentAfterFirstComma (lit "v1,QUJD")) ∧
    ∃ offset, VerifyWebhookSignature (lit "whsec") (lit "msg_1") (lit "1700000000") []
      (lit "v1,QUJD,x") = some (.decodeFailed offset) :=
  ⟨(C3_single_comma_segment (lit "whsec") (lit "msg_1") (lit "1700000000") [] (lit "v1,QUJD")
      (by decide) (by decide) (by decide)).1 (by decide),
   (C3_single_comma_segment (lit "whsec") (lit "msg_1") (lit "1700000000") [] (lit "v1,QUJD,x")
      (by decide) (by decide) (by decide)).2 (by decide)⟩

end Polar

/-! ## The polling loop -/

namespace Polar

/-- A tick taken by `select` fired after the last receive, and not before `now`. -/
theorem select_tick {env : Env} {now lastRecv n t : Nat}
    (h : select env now lastRecv n = .tick t) (hle : lastRecv ≤ now) :
    lastRecv / 2000000000 < t / 2000000000 ∧ now ≤ t ∧
      t / 2000000000 ≤ now / 2000000000 + 1 := by
  unfold select at h
  simp only [pollInterval, Second, Nat.reduceMul] at h
  cases hc : env.cancelAt with
  | none =>
    simp only [hc, Bool.false_and, Bool.false_eq_true, if_false] at h
    split_ifs at h with h1
    · simp only [Selected.tick.injEq] at h
      subst h
      simp at h1
      omega
    · simp only [Selected.tick.injEq] at h
      subst h
      omega
  | some c =>
    simp only [hc] at h
    split_ifs at h <;> simp only [Selected.tick.injEq, reduceCtorEq] at h <;> subst h <;>
      simp_all <;> omega

/-- One iteration of the loop. -/
theorem pollLoop_succ (env : Env) (sessionID : Bytes) (session : Option CheckoutSessionResponse)
    (fuel now lastRecv : Nat) (times : List Nat) :
    pollLoop env sessionID session (fuel + 1) now lastRecv times =
      if now < maxDuration then
        match select env now lastRecv times.length with
        | .done t => some ⟨.error (.context env.ctxErr), times, t⟩
        | .tick t =>
          match GetCheckoutSession sessionID (env.reply times.length) with
          | .ok s =>
            if s.Status = lit "succeeded" then
              some ⟨.ok s, times ++ [t], t + env.latency times.length⟩
            else pollLoop env sessionID session fuel (t + env.latency times.length) t (times ++ [t])
          | .error err =>
            if !isRetryableError (some err) then
              some ⟨.error err, times ++ [t], t + env.latency times.length⟩
            else pollLoop env sessionID session fuel (t + env.latency times.length) t (times ++ [t])
      else
        some ⟨.error (.timedOut (match session with
          | some s => s.Status
          | none => lit "unknown")), times, now⟩ := rfl

theorem pollLoop_isSome (env : Env) (sessionID : Bytes) (session : Option CheckoutSessionResponse) :
    ∀ fuel now lastRecv times, lastRecv ≤ now → 5 ≤ fuel + lastRecv / 2000000000 →
      (pollLoop env sessionID session (fuel + 1) now lastRecv times).isSome = true := by
  intro fuel
  induction fuel with
  | zero =>
    intro now lastRecv times hle h5
    have : ¬ now < maxDuration := by
      simp only [maxDuration, Second]
      omega
    rw [pollLoop_succ, if_neg this]
    rfl
  | succ fuel ih =>
    intro now lastRecv times hle h5
    rw [pollLoop_succ]
    split_ifs with hnow
    · cases hsel : select env now lastRecv times.length with
      | done t => simp
      | tick t =>
        have ht := select_tick hsel hle
        have hrec : ∀ back ts, t ≤ back →
            (pollLoop env sessionID session (fuel + 1) back t ts).isSome = true :=
          fun back ts hb => ih back t ts hb (by omega)
        simp only
        split
        · split_ifs
          · simp
          · exact hrec _ _ (by omega)
        · split_ifs
          · simp
          · exact hrec _ _ (by omega)
    · simp

/-- The call always returns: the loop ends within its bound of iterations. -/
theorem GetCheckoutSessionWithPolling_isSome (env : Env) (sessionID : Bytes) :
    (GetCheckoutSessionWithPolling env sessionID).isSome = true := by
  unfold GetCheckoutSessionWithPolling
  have h5 : maxDuration / pollInterval + 1 = 5 + 1 := by decide
  rw [h5]
  simp only
  split
  · split_ifs
    · simp
    · exact pollLoop_isSome _ _ _ _ _ _ _ (by omega) (by omega)
  · split_ifs
    · simp
    · exact pollLoop_isSome _ _ _ _ _ _ _ (by omega) (by omega)

end Polar

/-! ## Where the polling stops -/

namespace Polar

/-- After a fetch that does not keep the loop going, the loop has returned
with the result of that fetch, and fetched no more. -/
theorem pollLoop_stops (env : Env) (sessionID : Bytes) (session : Option CheckoutSessionResponse) :
    ∀ fuel now lastRecv times out,
      pollLoop env sessionID session fuel now lastRecv times = some out →
      times.length ≤ out.fetchTimes.length ∧
      ∀ n, times.length ≤ n → n < out.fetchTimes.length →
        keepsPolling sessionID (env.reply n) = false →
        out.fetchTimes.length = n + 1 ∧
          out.result = GetCheckoutSession sessionID (env.reply n) := by
  intro fuel
  induction fuel with
  | zero => intro now lastRecv times out h; simp [pollLoop] at h
  | succ fuel ih =>
    intro now lastRecv times out h
    rw [pollLoop_succ] at h
    split_ifs at h with hnow
    · cases hsel : select env now lastRecv times.length with
      | done t =>
        simp only [hsel, Option.some.injEq] at h
        subst h
        exact ⟨le_refl _, fun n h1 h2 _ => absurd h2 (by simpa using h1)⟩
      | tick t =>
        simp only [hsel] at h
        cases hget : GetCheckoutSession sessionID (env.reply times.length) with
        | ok s =>
          simp only [hget] at h
          split_ifs at h with hst
          · simp only [Option.some.injEq] at h
            subst h
            refine ⟨by simp, fun n h1 h2 _ => ?_⟩
            have hn : n = times.length := by simp at h2; omega
            subst hn
            exact ⟨by simp, hget.symm⟩
          · obtain ⟨hlen, hrest⟩ := ih _ _ _ _ h
            simp only [List.length_append, List.length_singleton] at hlen hrest
            refine ⟨by omega, fun n h1 h2 hk => ?_⟩
            by_cases hn : n = times.length
            · subst hn
              simp [keepsPolling, hget, hst] at hk
            · exact hrest n (by omega) h2 hk
        | error err =>
          simp only [hget] at h
          split_ifs at h with hre
          · simp only [Option.some.injEq] at h
            subst h
            refine ⟨by simp, fun n h1 h2 _ => ?_⟩
            have hn : n = times.length := by simp at h2; omega
            subst hn
            exact ⟨by simp, hget.symm⟩
          · obtain ⟨hlen, hrest⟩ := ih _ _ _ _ h
            simp only [List.length_append, List.length_singleton] at hlen hrest
            refine ⟨by omega, fun n h1 h2 hk => ?_⟩
            by_cases hn : n = times.length
            · subst hn
              simp [keepsPolling, hget] at hk
              simp [hk] at hre
            · exact hrest n (by omega) h2 hk
    · simp only [Option.some.injEq] at h
      subst h
      exact ⟨le_refl _, fun n h1 h2 _ => absurd h2 (by simpa using h1)⟩

/-- The same for the whole call, the first attempt included. -/
theorem GetCheckoutSessionWithPolling_stops (env : Env) (sessionID : Bytes) (out : Outcome)
    (h : GetCheckoutSessionWithPolling env sessionID = some out) (n : Nat)
    (hn : n < out.fetchTimes.length) (hk : keepsPolling sessionID (env.reply n) = false) :
    out.fetchTimes.length = n + 1 ∧
      out.result = GetCheckoutSession sessionID (env.reply n) := by
  unfold GetCheckoutSessionWithPolling at h
  simp only at h
  cases hget : GetCheckoutSession sessionID (env.reply 0) with
  | ok s =>
    simp only [hget] at h
    split_ifs at h with hst
    · simp only [Option.some.injEq] at h
      subst h
      have h0 : n = 0 := by simp at hn; omega
      subst h0
      exact ⟨rfl, hget.symm⟩
    · obtain ⟨_, hrest⟩ := pollLoop_stops _ _ _ _ _ _ _ _ h
      by_cases h0 : n = 0
      · subst h0
        simp [keepsPolling, hget, hst] at hk
      · exact hrest n (by simp; omega) hn hk
  | error err =>
    simp only [hget] at h
    split_ifs at h with hre
    · simp only [Option.some.injEq] at h
      subst h
      have h0 : n = 0 := by simp at hn; omega
      subst h0
      exact ⟨rfl, hget.symm⟩
    · obtain ⟨_, hrest⟩ := pollLoop_stops _ _ _ _ _ _ _ _ h
      by_cases h0 : n = 0
      · subst h0
        simp [keepsPolling, hget] at hk
        simp [hk] at hre
      · exact hrest n (by simp; omega) hn hk

/-- C8. At any attempt, the immediate one or a later poll, a fetch that
succeeds with status exactly `succeeded` ends the call: the call returns that
session with a nil error, and that fetch is its last, whatever remains of the
budget. The call itself always returns. -/
theorem C8_succeeded_ends_call (env : Env) (sessionID : Bytes) :
    ∃ out, GetCheckoutSessionWithPolling env sessionID = some out ∧
      ∀ n s, n < out.fetchTimes.length →
        GetCheckoutSession sessionID (env.reply n) = .ok s → s.Status = lit "succeeded" →
        out.result = .ok s ∧ out.fetchTimes.length = n + 1 := by
  obtain ⟨out, hout⟩ := Option.isSome_iff_exists.mp (GetCheckoutSessionWithPolling_isSome env sessionID)
  refine ⟨out, hout, fun n s hn hget hst => ?_⟩
  have hk : keepsPolling sessionID (env.reply n) = false := by
    simp [keepsPolling, hget, hst]
  obtain ⟨h1, h2⟩ := GetCheckoutSessionWithPolling_stops env sessionID out hout n hn hk
  exact ⟨h2.trans hget, h1⟩

theorem stringsContains_of_isPrefixOf {p s : Bytes} (h : p.isPrefixOf s = true) :
    stringsContains s p = true := by
  cases s with
  | nil =>
    cases p with
    | nil => rfl
    | cons c p => simp [List.isPrefixOf] at h
  | cons c s => simp [stringsContains, h]

theorem stringsContains_prefix_append (p s : Bytes) : stringsContains (p ++ s) p = true :=
  stringsContains_of_isPrefixOf (List.isPrefixOf_iff_prefix.mpr (List.prefix_append p s))

/-- The not-found error is never retried, whatever the session ID. -/
theorem isRetryableError_sessionNotFound (sessionID : Bytes) :
    isRetryableError (some (.sessionNotFound sessionID)) = false := by
  have h : lit "checkout session not found: " ++ sessionID =
      lit "checkout session not found" ++ (lit ": " ++ sessionID) := by
    rw [← List.append_assoc]
    rfl
  simp only [isRetryableError, GoError.Error, h, stringsContains_prefix_append, Bool.true_or,
    if_true]

/-- C9. At any attempt, a fetch that fails with an error `isRetryableError`
rejects ends the call: the call returns that same error and no session, and
that fetch is its last. When the very first fetch fails with the
session-not-found error, the call has made one fetch, at the start, and
returns as soon as that fetch does, without waiting for a tick. The call
itself always returns. -/
theorem C9_non_retryable_ends_call (env : Env) (sessionID : Bytes) :
    ∃ out, GetCheckoutSessionWithPolling env sessionID = some out ∧
      (∀ n err, n < out.fetchTimes.length →
        GetCheckoutSession sessionID (env.reply n) = .error err →
        isRetryableError (some err) = false →
        out.result = .error err ∧ out.fetchTimes.length = n + 1) ∧
      (GetCheckoutSession sessionID (env.reply 0) = .error (.sessionNotFound sessionID) →
        out.result = .error (.sessionNotFound sessionID) ∧ out.fetchTimes = [0] ∧
          out.returnedAt = env.latency 0) := by
  obtain ⟨out, hout⟩ := Option.isSome_iff_exists.mp (GetCheckoutSessionWithPolling_isSome env sessionID)
  refine ⟨out, hout, fun n err hn hget hre => ?_, fun hget => ?_⟩
  · have hk : keepsPolling sessionID (env.reply n) = false := by
      simp [keepsPolling, hget, hre]
    obtain ⟨h1, h2⟩ := GetCheckoutSessionWithPolling_stops env sessionID out hout n hn hk
    exact ⟨h2.trans hget, h1⟩
  · unfold GetCheckoutSessionWithPolling at hout
    simp only [hget, isRetryableError_sessionNotFound, Bool.not_false, if_true,
      Option.some.injEq] at hout
    subst hout
    exact ⟨rfl, rfl, rfl⟩

end Polar

/-! ## Success after `k` pending answers -/

namespace Polar

/-- The instants `0, pollInterval, ..., k * pollInterval`. -/
theorem tickTimes_succ (j : Nat) :
    (List.range (j + 1)).map (fun i => i * pollInterval) ++ [(j + 1) * pollInterval] =
      (List.range (j + 1 + 1)).map (fun i => i * pollInterval) := by
  rw [List.range_succ (n := j + 1), List.map_append]
  rfl

/-- With no cancellation, a `select` entered between tick `j`, the last one
received, and tick `j + 1` proceeds at tick `j + 1`. -/
theorem select_next_tick {env : Env} (hctx : env.cancelAt = none) (j now n : Nat)
    (h1 : j * pollInterval ≤ now) (h2 : now ≤ (j + 1) * pollInterval) :
    select env now (j * pollInterval) n = .tick ((j + 1) * pollInterval) := by
  unfold select
  simp only [pollInterval, Second, Nat.reduceMul] at h1 h2 ⊢
  simp only [hctx, Bool.false_and, Bool.false_eq_true, if_false]
  split_ifs with h
  · simp only [decide_eq_true_eq] at h
    simp only [Selected.tick.injEq]
    omega
  · simp only [decide_eq_true_eq] at h
    simp only [Selected.tick.injEq]
    omega

theorem pollLoop_succeeds (env : Env) (sessionID : Bytes)
    (session : Option CheckoutSessionResponse) (k : Nat) (s : CheckoutSessionResponse)
    (hk : k ≤ 3) (hctx : env.cancelAt = none)
    (hfast : ∀ i, i < k → env.latency i ≤ pollInterval)
    (hpending : ∀ i, i < k → ∃ si, GetCheckoutSession sessionID (env.reply i) = .ok si ∧
      si.Status ≠ lit "succeeded")
    (hsucc : GetCheckoutSession sessionID (env.reply k) = .ok s)
    (hst : s.Status = lit "succeeded") :
    ∀ d j fuel now, j + d + 1 = k → d < fuel →
      j * pollInterval ≤ now → now ≤ (j + 1) * pollInterval →
      pollLoop env sessionID session fuel now (j * pollInterval)
        ((List.range (j + 1)).map (fun i => i * pollInterval)) =
        some ⟨.ok s, (List.range (k + 1)).map (fun i => i * pollInterval),
          k * pollInterval + env.latency k⟩ := by
  intro d
  induction d with
  | zero =>
    intro j fuel now hjk hfuel h1 h2
    obtain ⟨f, rfl⟩ : ∃ f, fuel = f + 1 := ⟨fuel - 1, by omega⟩
    have hnow : now < maxDuration := by
      simp only [maxDuration, pollInterval, Second] at h2 ⊢
      omega
    have hlen : ((List.range (j + 1)).map (fun i => i * pollInterval)).length = k := by
      simp; omega
    rw [pollLoop_succ, if_pos hnow, hlen, select_next_tick hctx j now _ h1 h2]
    simp only [hsucc, hst, if_true]
    rw [tickTimes_succ]
    have hj : j + 1 = k := by omega
    rw [hj]
  | succ d ih =>
    intro j fuel now hjk hfuel h1 h2
    obtain ⟨f, rfl⟩ : ∃ f, fuel = f + 1 := ⟨fuel - 1, by omega⟩
    have hnow : now < maxDuration := by
      simp only [maxDuration, pollInterval, Second] at h2 ⊢
      omega
    have hlen : ((List.range (j + 1)).map (fun i => i * pollInterval)).length = j + 1 := by
      simp
    obtain ⟨si, hsi, hne⟩ := hpending (j + 1) (by omega)
    have hlat := hfast (j + 1) (by omega)
    rw [pollLoop_succ, if_pos hnow, hlen, select_next_tick hctx j now _ h1 h2]
    simp only [hsi, hne, if_false]
    rw [tickTimes_succ]
    refine ih (j + 1) f _ (by omega) (by omega) (by omega) ?_
    simp only [pollInterval, Second] at hlat ⊢
    omega

/-- C10. For every `k` from 0 to 3: when the first `k` fetches succeed with a
status other than `succeeded`, fetch `k + 1` succeeds with status `succeeded`,
the context is not cancelled and each of the first `k` fetches returns within
one poll interval, the call makes exactly `k + 1` fetches, at the ticks
`0, 1, ..., k` (fetch `k + 1` at `k * pollInterval`, that is 2k seconds after
the start), and returns the succeeded session, not a timeout. -/
theorem C10_succeeds_at_tick (env : Env) (sessionID : Bytes) (k : Nat)
    (s : CheckoutSessionResponse) (hk : k ≤ 3) (hctx : env.cancelAt = none)
    (hfast : ∀ i, i < k → env.latency i ≤ pollInterval)
    (hpending : ∀ i, i < k → ∃ si, GetCheckoutSession sessionID (env.reply i) = .ok si ∧
      si.Status ≠ lit "succeeded")
    (hsucc : GetCheckoutSession sessionID (env.reply k) = .ok s)
    (hst : s.Status = lit "succeeded") :
    GetCheckoutSessionWithPolling env sessionID =
      some ⟨.ok s, (List.range (k + 1)).map (fun i => i * pollInterval),
        k * pollInterval + env.latency k⟩ := by
  unfold GetCheckoutSessionWithPolling
  cases k with
  | zero =>
    simp only [hsucc, hst, if_true]
    simp [List.range_succ]
  | succ k =>
    obtain ⟨s0, hs0, hne⟩ := hpending 0 (by omega)
    have hlat := hfast 0 (by omega)
    simp only [hs0, hne, if_false]
    have h := pollLoop_succeeds env sessionID (some s0) (k + 1) s hk hctx hfast hpending hsucc hst
      k 0 (maxDuration / pollInterval + 1) (env.latency 0) (by omega)
      (by have : maxDuration / pollInterval + 1 = 6 := by decide
          omega)
      (by simp) (by simpa using hlat)
    simpa using h

end Polar

/-! ## Runs -/

namespace Polar

/-- The fetches of a run are bounded by the ticks left before the deadline. -/
theorem pollLoop_fetches_le (env : Env) (sessionID : Bytes)
    (session : Option CheckoutSessionResponse) :
    ∀ fuel now lastRecv times out,
      pollLoop env sessionID session fuel now lastRecv times = some out →
      lastRecv ≤ now → lastRecv / 2000000000 ≤ 5 →
      out.fetchTimes.length + lastRecv / 2000000000 ≤ times.length + 5 := by
  intro fuel
  induction fuel with
  | zero => intro now lastRecv times out h; simp [pollLoop] at h
  | succ fuel ih =>
    intro now lastRecv times out h hle h5
    rw [pollLoop_succ] at h
    split_ifs at h with hnow
    · simp only [maxDuration, Second] at hnow
      cases hsel : select env now lastRecv times.length with
      | done t =>
        simp only [hsel, Option.some.injEq] at h
        subst h
        simp only
        omega
      | tick t =>
        have ht := select_tick hsel hle
        simp only [hsel] at h
        split at h
        · split_ifs at h
          · simp only [Option.some.injEq] at h
            subst h
            simp only [List.length_append, List.length_singleton]
            omega
          · have := ih _ _ _ _ h (by omega) (by omega)
            simp only [List.length_append, List.length_singleton] at this
            omega
        · split_ifs at h
          · simp only [Option.some.injEq] at h
            subst h
            simp only [List.length_append, List.length_singleton]
            omega
          · have := ih _ _ _ _ h (by omega) (by omega)
            simp only [List.length_append, List.length_singleton] at this
            omega
    · simp only [Option.some.injEq] at h
      subst h
      simp only
      omega

/-- Every call makes at most six fetches. -/
theorem GetCheckoutSessionWithPolling_fetches_le (env : Env) (sessionID : Bytes) (out : Outcome)
    (h : GetCheckoutSessionWithPolling env sessionID = some out) :
    out.fetchTimes.length ≤ 6 := by
  unfold GetCheckoutSessionWithPolling at h
  simp only at h
  split at h
  · split_ifs at h
    · simp only [Option.some.injEq] at h
      subst h
      simp
    · have := pollLoop_fetches_le _ _ _ _ _ _ _ _ h (by omega) (by omega)
      simp only [List.length_singleton] at this
      omega
  · split_ifs at h
    · simp only [Option.some.injEq] at h
      subst h
      simp
    · have := pollLoop_fetches_le _ _ _ _ _ _ _ _ h (by omega) (by omega)
      simp only [List.length_singleton] at this
      omega

/-- C5, on the code. On deadline expiry the error carries the status of the
first attempt only. With `pending` at the first attempt and `processing` at
every poll the call reports `pending`; with a 503 at the first attempt and
`pending` at every poll it reports `unknown`. -/
theorem C5_timeout_reports_first_attempt :
    GetCheckoutSessionWithPolling pendingThenProcessing (lit "cs_1") =
      some ⟨.error (.timedOut (lit "pending")),
        [0, 2000000000, 4000000000, 6000000000, 8000000000, 10000000000], 10000000000⟩ ∧
    GetCheckoutSessionWithPolling unavailableThenPending (lit "cs_1") =
      some ⟨.error (.timedOut (lit "unknown")),
        [0, 2000000000, 4000000000, 6000000000, 8000000000, 10000000000], 10000000000⟩ := by
  decide

/-- C6, on the code. A 503 response whose body holds the text `404`, a 429
response whose body holds `returned status 400` and a transport error whose
message holds `404` are all classified as not retryable. -/
theorem C6_retryable_errors_rejected :
    GetCheckoutSession (lit "cs_1") (.response 503 (lit "upstream answered 404") (.error [])) =
      .error (.badStatus 503 (lit "upstream answered 404")) ∧
    isRetryableError (some (.badStatus 503 (lit "upstream answered 404"))) = false ∧
    GetCheckoutSession (lit "cs_1")
        (.response 429 (lit "proxy returned status 400") (.error [])) =
      .error (.badStatus 429 (lit "proxy returned status 400")) ∧
    isRetryableError (some (.badStatus 429 (lit "proxy returned status 400"))) = false ∧
    GetCheckoutSession (lit "cs_404") (.transportError (lit "Get /v1/checkouts/custom/cs_404: EOF")) =
      .error (.callFailed (lit "Get /v1/checkouts/custom/cs_404: EOF")) ∧
    isRetryableError (some (.callFailed (lit "Get /v1/checkouts/custom/cs_404: EOF"))) = false := by
  decide

/-- C7, on the code. With a provider that always answers `pending`, instant
fetches and a ticker firing every 2 seconds, the call makes six fetches, the
sixth at the deadline itself. -/
theorem C7_six_fetches_when_pending :
    GetCheckoutSessionWithPolling alwaysPending (lit "cs_1") =
      some ⟨.error (.timedOut (lit "pending")),
        [0, 2000000000, 4000000000, 6000000000, 8000000000, 10000000000], 10000000000⟩ := by
  decide

/-- C8 on the run `succeedsAtFourth`: the fourth fetch answers `succeeded`. -/
theorem C8_succeeded_ends_call_witness :
    ∃ out, GetCheckoutSessionWithPolling succeedsAtFourth (lit "cs_1") = some out ∧
      out.result = .ok (sessionWithStatus (lit "succeeded")) ∧ out.fetchTimes.length = 4 := by
  have hrun : GetCheckoutSessionWithPolling succeedsAtFourth (lit "cs_1") =
      some ⟨.ok (sessionWithStatus (lit "succeeded")),
        [0, 2000000000, 4000000000, 6000000000], 6150000000⟩ := by decide
  obtain ⟨out, hout, h⟩ := C8_succeeded_ends_call succeedsAtFourth (lit "cs_1")
  have hout2 := hout
  rw [hrun, Option.some.injEq] at hout2
  exact ⟨out, hout, h 3 (sessionWithStatus (lit "succeeded")) (by rw [← hout2]; decide)
    (by decide) (by decide)⟩

/-- C9 on the run `notFoundAtOnce`: the first fetch answers 404. -/
theorem C9_non_retryable_ends_call_witness :
    ∃ out, GetCheckoutSessionWithPolling notFoundAtOnce (lit "cs_1") = some out ∧
      out.result = .error (.sessionNotFound (lit "cs_1")) ∧ out.fetchTimes = [0] ∧
        out.returnedAt = 150000000 := by
  obtain ⟨out, hout, _, h⟩ := C9_non_retryable_ends_call notFoundAtOnce (lit "cs_1")
  exact ⟨out, hout, h (by decide)⟩

/-- C10 on the run `succeedsAtFourth`, `k = 3`: three `pending` answers, then
`succeeded` at 6 seconds. -/
theorem C10_succeeds_at_tick_witness :
    GetCheckoutSessionWithPolling succeedsAtFourth (lit "cs_1") =
      some ⟨.ok (sessionWithStatus (lit "succeeded")),
        (List.range (3 + 1)).map (fun i => i * pollInterval),
        3 * pollInterval + succeedsAtFourth.latency 3⟩ :=
  C10_succeeds_at_tick succeedsAtFourth (lit "cs_1") 3 (sessionWithStatus (lit "succeeded"))
    (by decide) rfl (fun _ _ => show 150000000 ≤ pollInterval by decide)
    (fun i hi => ⟨sessionWithStatus (lit "pending"), by
      have h3 : i = 0 ∨ i = 1 ∨ i = 2 := by omega
      rcases h3 with rfl | rfl | rfl <;> decide⟩)
    (by decide) (by decide)

end Polar

/-! ## The deadline and the cancellation -/

namespace Polar

/-- With a context that is never cancelled `select` takes a tick. -/
theorem select_ne_done {env : Env} (hctx : env.cancelAt = none) (now lastRecv n t : Nat) :
    select env now lastRecv n ≠ .done t := by
  unfold select
  simp only [hctx, Bool.false_and, Bool.false_eq_true, if_false]
  split_ifs <;> simp

/-- The loop, never cancelled and never given a reason to stop, ends on the deadline. -/
theorem pollLoop_timedOut (env : Env) (sessionID : Bytes)
    (session : Option CheckoutSessionResponse) (hctx : env.cancelAt = none)
    (hkeep : ∀ i, keepsPolling sessionID (env.reply i) = true) :
    ∀ fuel now lastRecv times out,
      pollLoop env sessionID session fuel now lastRecv times = some out →
      ∃ lastStatus, out.result = .error (.timedOut lastStatus) := by
  intro fuel
  induction fuel with
  | zero => intro now lastRecv times out h; simp [pollLoop] at h
  | succ fuel ih =>
    intro now lastRecv times out h
    rw [pollLoop_succ] at h
    split_ifs at h with hnow
    · cases hsel : select env now lastRecv times.length with
      | done t => exact absurd hsel (select_ne_done hctx _ _ _ _)
      | tick t =>
        simp only [hsel] at h
        have hk := hkeep times.length
        cases hget : GetCheckoutSession sessionID (env.reply times.length) with
        | ok s =>
          simp only [hget] at h
          simp only [keepsPolling, hget, decide_eq_true_eq] at hk
          rw [if_neg hk] at h
          exact ih _ _ _ _ h
        | error err =>
          simp only [hget] at h
          simp only [keepsPolling, hget] at hk
          simp only [hk, Bool.not_true, Bool.false_eq_true, if_false] at h
          exact ih _ _ _ _ h
    · simp only [Option.some.injEq] at h
      subst h
      exact ⟨_, rfl⟩

/-- `GetCheckoutSession` never returns the timeout error. -/
theorem GetCheckoutSession_ne_timedOut (sessionID : Bytes) (r : Reply) (lastStatus : Bytes) :
    GetCheckoutSession sessionID r ≠ .error (.timedOut lastStatus) := by
  unfold GetCheckoutSession
  cases r with
  | transportError message => simp
  | response code body decoded =>
    simp only
    split_ifs
    · simp
    · simp
    · cases decoded <;> simp

/-- C11. When the context is never cancelled and every fetch either succeeds
with a status other than `succeeded` or fails with a retryable error, the call
returns after at most six fetches, and what it returns is the timeout error
"checkout verification timed out after 10 seconds (last status: ...)": no
session, and none of the errors of the fetches. -/
theorem C11_times_out (env : Env) (sessionID : Bytes) (hctx : env.cancelAt = none)
    (hfetch : ∀ i,
      (∃ s, GetCheckoutSession sessionID (env.reply i) = .ok s ∧ s.Status ≠ lit "succeeded") ∨
      (∃ err, GetCheckoutSession sessionID (env.reply i) = .error err ∧
        isRetryableError (some err) = true)) :
    ∃ out, GetCheckoutSessionWithPolling env sessionID = some out ∧
      out.fetchTimes.length ≤ 6 ∧
      (∃ lastStatus, out.result = .error (.timedOut lastStatus)) ∧
      (∀ s, out.result ≠ .ok s) ∧
      (∀ i, out.result ≠ GetCheckoutSession sessionID (env.reply i)) := by
  have hkeep : ∀ i, keepsPolling sessionID (env.reply i) = true := by
    intro i
    rcases hfetch i with ⟨s, hs, hne⟩ | ⟨err, he, hre⟩
    · simp [keepsPolling, hs, hne]
    · simp [keepsPolling, he, hre]
  obtain ⟨out, hout⟩ :=
    Option.isSome_iff_exists.mp (GetCheckoutSessionWithPolling_isSome env sessionID)
  have hlen := GetCheckoutSessionWithPolling_fetches_le env sessionID out hout
  have hto : ∃ lastStatus, out.result = .error (.timedOut lastStatus) := by
    have h := hout
    unfold GetCheckoutSessionWithPolling at h
    have hk := hkeep 0
    simp only at h
    cases hget : GetCheckoutSession sessionID (env.reply 0) with
    | ok s =>
      simp only [hget] at h
      simp only [keepsPolling, hget, decide_eq_true_eq] at hk
      rw [if_neg hk] at h
      exact pollLoop_timedOut env sessionID _ hctx hkeep _ _ _ _ _ h
    | error err =>
      simp only [hget] at h
      simp only [keepsPolling, hget] at hk
      simp only [hk, Bool.not_true, Bool.false_eq_true, if_false] at h
      exact pollLoop_timedOut env sessionID _ hctx hkeep _ _ _ _ _ h
  obtain ⟨lastStatus, hres⟩ := hto
  refine ⟨out, hout, hlen, ⟨lastStatus, hres⟩, ?_, ?_⟩
  · intro s
    rw [hres]
    simp
  · intro i
    rw [hres]
    exact (GetCheckoutSession_ne_timedOut sessionID (env.reply i) lastStatus).symm

/-- C11 on the run `alwaysPending`. -/
theorem C11_times_out_witness :
    ∃ out, GetCheckoutSessionWithPolling alwaysPending (lit "cs_1") = some out ∧
      out.fetchTimes.length ≤ 6 ∧
      (∃ lastStatus, out.result = .error (.timedOut lastStatus)) ∧
      (∀ s, out.result ≠ .ok s) ∧
      (∀ i, out.result ≠ GetCheckoutSession (lit "cs_1") (alwaysPending.reply i)) :=
  C11_times_out alwaysPending (lit "cs_1") rfl
    (fun _ => Or.inl ⟨sessionWithStatus (lit "pending"),
      show GetCheckoutSession (lit "cs_1") (replyWithStatus (lit "pending")) = _ by decide,
      by decide⟩)

end Polar

namespace Polar

/-- The fetches made before the loop are the first of the run. -/
theorem pollLoop_fetchTimes_prefix (env : Env) (sessionID : Bytes)
    (session : Option CheckoutSessionResponse) :
    ∀ fuel now lastRecv times out,
      pollLoop env sessionID session fuel now lastRecv times = some out →
      times <+: out.fetchTimes := by
  intro fuel
  induction fuel with
  | zero => intro now lastRecv times out h; simp [pollLoop] at h
  | succ fuel ih =>
    intro now lastRecv times out h
    rw [pollLoop_succ] at h
    split_ifs at h with hnow
    · split at h
      · simp only [Option.some.injEq] at h
        subst h
        exact List.prefix_refl _
      · split at h
        · split_ifs at h
          · simp only [Option.some.injEq] at h
            subst h
            exact List.prefix_append _ _
          · exact (List.prefix_append _ _).trans (ih _ _ _ _ h)
        · split_ifs at h
          · simp only [Option.some.injEq] at h
            subst h
            exact List.prefix_append _ _
          · exact (List.prefix_append _ _).trans (ih _ _ _ _ h)
    · simp only [Option.some.injEq] at h
      subst h
      exact List.prefix_refl _

/-- C12, as stated, fails on the run `cancelledWithTickPending`: at the first
wait point, at 2.5 seconds, the cancellation and the tick of 2 seconds are
both pending; `select` takes the tick and the call makes another fetch, at 2.5
seconds, before it returns `ctx.Err()`. -/
theorem C12_counterexample :
    cancelledWithTickPending.cancelAt = some 2500000000 ∧
    cancelledWithTickPending.latency 0 = 2500000000 ∧
    0 / pollInterval < 2500000000 / pollInterval ∧
    GetCheckoutSessionWithPolling cancelledWithTickPending (lit "cs_1") =
      some ⟨.error (.context .canceled), [0, 2500000000], 2500000000⟩ := by
  decide

/-- C12, amended. At a wait point of the loop, entered before the deadline
with a context cancelled at `c`: when neither case is ready and the
cancellation comes before the next tick, the call returns `ctx.Err()` at `c`
with no further fetch; when the cancellation and a tick are both pending,
`select` takes either, and the call returns `ctx.Err()` at once if it takes
the cancellation, and makes another fetch, at that instant, if it takes the
tick. -/
theorem C12_cancellation_at_wait_point (env : Env) (sessionID : Bytes)
    (session : Option CheckoutSessionResponse) (fuel now lastRecv c : Nat) (times : List Nat)
    (hc : env.cancelAt = some c) (hnow : now < maxDuration) :
    (now < c → lastRecv / pollInterval = now / pollInterval →
      c < (now / pollInterval + 1) * pollInterval →
      pollLoop env sessionID session (fuel + 1) now lastRecv times =
        some ⟨.error (.context env.ctxErr), times, c⟩) ∧
    (c ≤ now → lastRecv / pollInterval < now / pollInterval →
      (env.pickDone times.length = true →
        pollLoop env sessionID session (fuel + 1) now lastRecv times =
          some ⟨.error (.context env.ctxErr), times, now⟩) ∧
      (env.pickDone times.length = false →
        ∀ out, pollLoop env sessionID session (fuel + 1) now lastRecv times = some out →
          times ++ [now] <+: out.fetchTimes)) := by
  refine ⟨fun h1 h2 h3 => ?_, fun h1 h2 => ⟨fun hp => ?_, fun hp out hout => ?_⟩⟩
  · have hsel : select env now lastRecv times.length = .done c := by
      unfold select
      simp only [hc]
      have hd : ¬ c ≤ now := by omega
      have ht : ¬ lastRecv / pollInterval < now / pollInterval := by omega
      simp [hd, ht, h3]
    rw [pollLoop_succ, if_pos hnow, hsel]
  · have hsel : select env now lastRecv times.length = .done now := by
      unfold select
      simp [hc, h1, h2, hp]
    rw [pollLoop_succ, if_pos hnow, hsel]
  · have hsel : select env now lastRecv times.length = .tick now := by
      unfold select
      simp [hc, h1, h2, hp]
    rw [pollLoop_succ, if_pos hnow, hsel] at hout
    simp only at hout
    split at hout
    · split_ifs at hout
      · simp only [Option.some.injEq] at hout
        subst hout
        exact List.prefix_refl _
      · exact pollLoop_fetchTimes_prefix _ _ _ _ _ _ _ _ hout
    · split_ifs at hout
      · simp only [Option.some.injEq] at hout
        subst hout
        exact List.prefix_refl _
      · exact pollLoop_fetchTimes_prefix _ _ _ _ _ _ _ _ hout

/-- C12, amended, on three runs: `cancelledWhileWaiting` at its first wait
point (instant 0, cancellation at 1 second), and `cancelledTakingDone` and
`cancelledWithTickPending` at theirs (instant 2.5 seconds, cancellation and
tick both pending). -/
theorem C12_cancellation_at_wait_point_witness :
    pollLoop cancelledWhileWaiting (lit "cs_1") (some (sessionWithStatus (lit "pending")))
        (5 + 1) 0 0 [0] =
      some ⟨.error (.context .canceled), [0], 1000000000⟩ ∧
    pollLoop cancelledTakingDone (lit "cs_1") none (5 + 1) 2500000000 0 [0] =
      some ⟨.error (.context .canceled), [0], 2500000000⟩ ∧
    ∀ out, pollLoop cancelledWithTickPending (lit "cs_1") none (5 + 1) 2500000000 0 [0] =
        some out →
      [0] ++ [2500000000] <+: out.fetchTimes :=
  ⟨(C12_cancellation_at_wait_point cancelledWhileWaiting (lit "cs_1")
      (some (sessionWithStatus (lit "pending"))) 5 0 0 1000000000 [0] rfl (by decide)).1
      (by decide) (by decide) (by decide),
   ((C12_cancellation_at_wait_point cancelledTakingDone (lit "cs_1") none 5 2500000000 0
      2500000000 [0] rfl (by decide)).2 (by decide) (by decide)).1 rfl,
   ((C12_cancellation_at_wait_point cancelledWithTickPending (lit "cs_1") none 5 2500000000 0
      2500000000 [0] rfl (by decide)).2 (by decide) (by decide)).2 rfl⟩

end Polar

/-! ## The order of the failures of `VerifyWebhookSignature` -/

namespace Polar

/-- C13. With an empty secret `VerifyWebhookSignature` returns the error
"webhook secret is not configured", whatever the webhook ID, the timestamp,
the payload and the signature are, empty ones included: the missing secret
comes before every missing header, every malformed signature and every
mismatch. -/
theorem C13_missing_secret_first (webhookID timestamp payload signature : Bytes) :
    VerifyWebhookSignature [] webhookID timestamp payload signature =
      some .secretNotConfigured := by
  simp [VerifyWebhookSignature]

/-- C14. With a non-empty secret, when the webhook ID, the timestamp or the
signature is empty, `VerifyWebhookSignature` returns one of the three
"... is missing from request" errors: never `nil`, a decoding error or a
mismatch, whatever the signature holds. -/
theorem C14_missing_header (secret webhookID timestamp payload signature : Bytes)
    (hsecret : secret ≠ [])
    (hempty : webhookID = [] ∨ timestamp = [] ∨ signature = []) :
    VerifyWebhookSignature secret webhookID timestamp payload signature =
        some .signatureMissing ∨
      VerifyWebhookSignature secret webhookID timestamp payload signature =
        some .webhookIDMissing ∨
      VerifyWebhookSignature secret webhookID timestamp payload signature =
        some .timestampMissing := by
  unfold VerifyWebhookSignature
  rw [if_neg hsecret]
  by_cases h1 : signature = []
  · exact Or.inl (by rw [if_pos h1])
  · rw [if_neg h1]
    by_cases h2 : webhookID = []
    · exact Or.inr (Or.inl (by rw [if_pos h2]))
    · rw [if_neg h2]
      by_cases h3 : timestamp = []
      · exact Or.inr (Or.inr (by rw [if_pos h3]))
      · rcases hempty with h | h | h
        · exact absurd h h2
        · exact absurd h h3
        · exact absurd h h1

/-- C14 with an empty webhook ID and a signature that is not base64. -/
theorem C14_missing_header_witness :
    VerifyWebhookSignature (lit "whsec") [] (lit "1700000000") (lit "body") (lit "!not base64!") =
        some .signatureMissing ∨
      VerifyWebhookSignature (lit "whsec") [] (lit "1700000000") (lit "body")
        (lit "!not base64!") = some .webhookIDMissing ∨
      VerifyWebhookSignature (lit "whsec") [] (lit "1700000000") (lit "body")
        (lit "!not base64!") = some .timestampMissing :=
  C14_missing_header (lit "whsec") [] (lit "1700000000") (lit "body") (lit "!not base64!")
    (by decide) (Or.inl rfl)

/-- A signature text that decodes to bytes other than the expected MAC fails
lines 60-89 with the mismatch error. -/
theorem checkSignature_mismatch (secret webhookID timestamp payload signature decoded : Bytes)
    (hdec : Base64.DecodeString signature = .ok decoded)
    (hne : decoded ≠ hmacSHA256 secret (signedContent webhookID timestamp payload)) :
    checkSignature secret webhookID timestamp payload signature = some .signatureMismatch := by
  simp [checkSignature, hdec, hmacEqual, hne]

/-- C15, as stated, fails at the empty header: it decodes, to no bytes at all,
which are not the expected MAC, and the error is that the signature is missing,
where the header `AAAA`, which decodes to three zero bytes, gets the mismatch
error. -/
theorem C15_counterexample :
    Base64.DecodeString [] = .ok [] ∧
    [] ≠ hmacSHA256 (lit "whsec")
      (signedContent (lit "msg_1") (lit "1700000000") (lit "event=checkout.updated")) ∧
    VerifyWebhookSignature (lit "whsec") (lit "msg_1") (lit "1700000000")
      (lit "event=checkout.updated") [] = some .signatureMissing ∧
    Base64.DecodeString (lit "AAAA") = .ok [0, 0, 0] ∧
    [0, 0, 0] ≠ hmacSHA256 (lit "whsec")
      (signedContent (lit "msg_1") (lit "1700000000") (lit "event=checkout.updated")) ∧
    VerifyWebhookSignature (lit "whsec") (lit "msg_1") (lit "1700000000")
      (lit "event=checkout.updated") (lit "AAAA") = some .signatureMismatch := by
  decide!

/-- C15, amended. For a non-empty secret, webhook ID and timestamp and every
payload, any two non-empty signature headers that both base64-decode to bytes
other than the expected MAC get the same error, the signature mismatch,
however much of the MAC their bytes match and whatever their length. -/
theorem C15_mismatches_fail_alike (secret webhookID timestamp payload s1 s2 b1 b2 : Bytes)
    (hsecret : secret ≠ []) (hid : webhookID ≠ []) (hts : timestamp ≠ [])
    (hs1 : s1 ≠ []) (hs2 : s2 ≠ [])
    (hd1 : Base64.DecodeString s1 = .ok b1) (hd2 : Base64.DecodeString s2 = .ok b2)
    (hb1 : b1 ≠ hmacSHA256 secret (signedContent webhookID timestamp payload))
    (hb2 : b2 ≠ hmacSHA256 secret (signedContent webhookID timestamp payload)) :
    VerifyWebhookSignature secret webhookID timestamp payload s1 = some .signatureMismatch ∧
    VerifyWebhookSignature secret webhookID timestamp payload s2 = some .signatureMismatch := by
  have key : ∀ s b : Bytes, s ≠ [] → Base64.DecodeString s = .ok b →
      b ≠ hmacSHA256 secret (signedContent webhookID timestamp payload) →
      VerifyWebhookSignature secret webhookID timestamp payload s = some .signatureMismatch := by
    intro s b hs hd hb
    have hno : (44 : UInt8) ∉ s := fun hm =>
      Base64.not_accepted_comma (Base64.DecodeString_ok hd 44 hm)
    unfold VerifyWebhookSignature
    rw [if_neg hsecret, if_neg hs, if_neg hid, if_neg hts, stripVersionPrefix_of_not_mem hno]
    exact checkSignature_mismatch _ _ _ _ _ _ hd hb
  exact ⟨key s1 b1 hs1 hd1 hb1, key s2 b2 hs2 hd2 hb2⟩

/-- C15, amended, at the header `AAAA`, whose bytes share nothing with the
MAC, and at the encoding of the MAC with its last bit flipped. -/
theorem C15_mismatches_fail_alike_witness :
    VerifyWebhookSignature (lit "whsec") (lit "msg_1") (lit "1700000000")
      (lit "event=checkout.updated") (lit "AAAA") = some .signatureMismatch ∧
    VerifyWebhookSignature (lit "whsec") (lit "msg_1") (lit "1700000000")
      (lit "event=checkout.updated") (lit "BWTzwBkfdMQ/4Q5udtuJSj84ei6yhnLOIyiGfGRolcg=") =
        some .signatureMismatch :=
  C15_mismatches_fail_alike (lit "whsec") (lit "msg_1") (lit "1700000000")
    (lit "event=checkout.updated") (lit "AAAA")
    (lit "BWTzwBkfdMQ/4Q5udtuJSj84ei6yhnLOIyiGfGRolcg=") [0, 0, 0]
    [5, 100, 243, 192, 25, 31, 116, 196, 63, 225, 14, 110, 118, 219, 137, 74, 63, 56, 122, 46,
      178, 134, 114, 206, 35, 40, 134, 124, 100, 104, 149, 200]
    (by decide) (by decide) (by decide) (by decide) (by decide) (by decide!) (by decide!)
    (by decide!) (by decide!)

end Polar

/-! ## The repository and its store -/

namespace Polar

/-- Wrapping with `%w` keeps what `errors.Is` finds. -/
theorem errorsIs_wrap (context : Bytes) (cause : Err) (target : Sentinel) :
    errorsIs (.wrap context cause) target = errorsIs cause target := rfl

/-- C16, as stated, fails under a store that decrements by one conditional
update and reports `sql.ErrNoRows` when no row is updated: with a stored count
of 0 the call returns the wrapped storage error, which `errors.Is` does not
match with `QuotaExhausted`, and which is the very error returned for an
organization without a quota row. -/
theorem C16_counterexample :
    (DecrementInvoiceCount plainHelpers (specDecrementInvoiceCount (.sentinel .sqlErrNoRows))
        7 (tablesWith (lit "active") 0)).1 =
      .error (.wrap (lit "failed to decrement invoice count") (.sentinel .sqlErrNoRows)) ∧
    errorsIs (.wrap (lit "failed to decrement invoice count") (.sentinel .sqlErrNoRows))
      .QuotaExhausted = false ∧
    (DecrementInvoiceCount plainHelpers (specDecrementInvoiceCount (.sentinel .sqlErrNoRows))
        8 (tablesWith (lit "active") 0)).1 =
      .error (.wrap (lit "failed to decrement invoice count") (.sentinel .sqlErrNoRows)) := by
  decide

/-- C16, amended. Over a store that decrements by one conditional update and
reports the error `noRow` when no row is updated: for an organization whose
stored invoice count is 0 the call leaves the stored state as it is, returns no
quota, and returns `noRow` wrapped as "failed to decrement invoice count: ...",
which `errors.Is` matches with `QuotaExhausted` exactly when it matches `noRow`
with it; for a stored count `n > 0` it returns the quota with count `n - 1`,
which is also the count then stored. -/
theorem C16_decrement (h : Helpers) (noRow : Err) (t : Tables) (organizationID : Int)
    (q : QuotaRow) (hq : t.quotas organizationID = some q) :
    (q.InvoiceCount = 0 →
      DecrementInvoiceCount h (specDecrementInvoiceCount noRow) organizationID t =
        (.error (.wrap (lit "failed to decrement invoice count") noRow), t) ∧
      errorsIs (.wrap (lit "failed to decrement invoice count") noRow) .QuotaExhausted =
        errorsIs noRow .QuotaExhausted) ∧
    (0 < q.InvoiceCount →
      ∃ quota t1,
        DecrementInvoiceCount h (specDecrementInvoiceCount noRow) organizationID t =
          (.ok quota, t1) ∧
        quota.InvoiceCount = q.InvoiceCount - 1 ∧
        quota.OrganizationID = q.OrganizationID ∧
        (t1.quotas organizationID).map (fun r => r.InvoiceCount) = some (q.InvoiceCount - 1)) := by
  constructor
  · intro h0
    refine ⟨?_, rfl⟩
    simp [DecrementInvoiceCount, specDecrementInvoiceCount, hq, h0]
  · intro hpos
    refine ⟨mapToDomainQuota h { q with InvoiceCount := q.InvoiceCount - 1 },
      { t with quotas := fun o =>
          if o = organizationID then some { q with InvoiceCount := q.InvoiceCount - 1 }
          else t.quotas o }, ?_, rfl, rfl, ?_⟩
    · simp [DecrementInvoiceCount, specDecrementInvoiceCount, hq, hpos]
    · simp

/-- C16, amended, on organization 7 with a stored count of 0 and of 3, the
store reporting `sql.ErrNoRows`. -/
theorem C16_decrement_witness :
    (DecrementInvoiceCount plainHelpers (specDecrementInvoiceCount (.sentinel .sqlErrNoRows))
        7 (tablesWith (lit "active") 0)).1 =
      .error (.wrap (lit "failed to decrement invoice count") (.sentinel .sqlErrNoRows)) ∧
    ∃ quota t1,
      DecrementInvoiceCount plainHelpers (specDecrementInvoiceCount (.sentinel .sqlErrNoRows))
          7 (tablesWith (lit "active") 3) = (.ok quota, t1) ∧
        quota.InvoiceCount = 3 - 1 ∧ quota.OrganizationID = 7 ∧
        (t1.quotas 7).map (fun r => r.InvoiceCount) = some (3 - 1) :=
  ⟨congrArg Prod.fst
      ((C16_decrement plainHelpers (.sentinel .sqlErrNoRows) (tablesWith (lit "active") 0) 7
        (quotaRowWith 0) rfl).1 rfl).1,
   (C16_decrement plainHelpers (.sentinel .sqlErrNoRows) (tablesWith (lit "active") 3) 7
      (quotaRowWith 3) rfl).2 (by decide)⟩

/-- C17. Over a store whose query computes the flag as the specification
says: in every `QuotaStatus` that `GetQuotaStatus` returns, `CanProcessInvoice`
is true only if the subscription status is in the allowed-active set, the
invoice count is positive and the current time lies in
`[CurrentPeriodStart, CurrentPeriodEnd)`; it is false in every other
combination. -/
theorem C17_can_process_invoice (active : Bytes → Bool) (now : Int) (noRow : Err)
    (organizationID : Int) (t : Tables) (qs : QuotaStatus)
    (hqs : (GetQuotaStatus (specGetQuotaStatus active now noRow) organizationID t).1 = .ok qs) :
    (qs.CanProcessInvoice = true →
      active qs.SubscriptionStatus = true ∧ 0 < qs.InvoiceCount ∧
        qs.CurrentPeriodStart ≤ now ∧ now < qs.CurrentPeriodEnd) ∧
    (¬ (active qs.SubscriptionStatus = true ∧ 0 < qs.InvoiceCount ∧
        qs.CurrentPeriodStart ≤ now ∧ now < qs.CurrentPeriodEnd) →
      qs.CanProcessInvoice = false) := by
  have key : qs.CanProcessInvoice = true →
      active qs.SubscriptionStatus = true ∧ 0 < qs.InvoiceCount ∧
        qs.CurrentPeriodStart ≤ now ∧ now < qs.CurrentPeriodEnd := by
    intro hcan
    unfold GetQuotaStatus specGetQuotaStatus at hqs
    cases hs : t.subscriptions organizationID with
    | none =>
      simp only [hs] at hqs
      split_ifs at hqs
    | some s =>
      cases hq : t.quotas organizationID with
      | none =>
        simp only [hs, hq] at hqs
        split_ifs at hqs
      | some q =>
        simp only [hs, hq, Except.ok.injEq] at hqs
        subst hqs
        simp only [mapToDomainQuotaStatus, Bool.and_eq_true, decide_eq_true_eq] at hcan ⊢
        obtain ⟨⟨⟨⟨⟨h1, h2⟩, _⟩, _⟩, h5⟩, h6⟩ := hcan
        exact ⟨h1, h2, h5, h6⟩
  refine ⟨key, fun hnot => ?_⟩
  cases hc : qs.CanProcessInvoice with
  | false => rfl
  | true => exact absurd (key hc) hnot

/-- C17 on organization 7, at instant 1500 of its period from 1000 to 2000:
an active subscription with 3 invoices left can process an invoice; with none
left, with a canceled subscription, or at instant 2000, it cannot. -/
theorem C17_can_process_invoice_witness :
    ((onlyActive (lit "active") = true ∧ (0 : Int) < 3 ∧ (1000 : Int) ≤ 1500 ∧
        (1500 : Int) < 2000) ∧
      (GetQuotaStatus (specGetQuotaStatus onlyActive 1500 (.sentinel .sqlErrNoRows)) 7
        (tablesWith (lit "active") 3)).1.map (fun qs => qs.CanProcessInvoice) = .ok true) ∧
    (GetQuotaStatus (specGetQuotaStatus onlyActive 1500 (.sentinel .sqlErrNoRows)) 7
      (tablesWith (lit "active") 0)).1.map (fun qs => qs.CanProcessInvoice) = .ok false ∧
    (GetQuotaStatus (specGetQuotaStatus onlyActive 1500 (.sentinel .sqlErrNoRows)) 7
      (tablesWith (lit "canceled") 3)).1.map (fun qs => qs.CanProcessInvoice) = .ok false ∧
    (GetQuotaStatus (specGetQuotaStatus onlyActive 2000 (.sentinel .sqlErrNoRows)) 7
      (tablesWith (lit "active") 3)).1.map (fun qs => qs.CanProcessInvoice) = .ok false :=
  ⟨⟨(C17_can_process_invoice onlyActive 1500 (.sentinel .sqlErrNoRows) 7
        (tablesWith (lit "active") 3)
        (mapToDomainQuotaStatus
          { SubscriptionStatus := lit "active", CurrentPeriodStart := timestampAt 1000,
            CurrentPeriodEnd := timestampAt 2000,
            CancelAtPeriodEnd := { Valid := true, Bool := false }, InvoiceCount := 3,
            MaxSeats := { Int32 := 5, Valid := true }, CanProcessInvoice := true })
        (by decide)).1 (by decide), by decide⟩,
    by decide, by decide, by decide⟩

end Polar

namespace Polar

/-- C19. For every HTTP 200 response whose body decodes to an empty or absent
list of items, `GetSubscription` returns no subscription and the error
`domain.ErrSubscriptionNotFound` itself, not wrapped. -/
theorem C19_empty_items_not_found (externalCustomerID body : Bytes) :
    GetSubscription externalCustomerID (.response 200 body (.ok [])) =
      .error (.sentinel .ErrSubscriptionNotFound) := by
  simp [GetSubscription]

/-- C20. When the store reports `sql.ErrNoRows` (an error `errors.Is` matches
with it), `GetSubscriptionByOrgID` returns no subscription and
`domain.ErrSubscriptionNotFound`, and `GetQuotaByOrgID` no quota and
`domain.ErrQuotaNotFound`. For every other error of the store each returns
that error wrapped, which is neither of the two error variables. -/
theorem C20_getters_map_no_rows {σ : Type} (h : Helpers)
    (subscriptionStore : StoreMethod σ Int SubscriptionRow)
    (quotaStore : StoreMethod σ Int QuotaRow) (organizationID : Int) (st : σ) :
    (∀ err st1, subscriptionStore organizationID st = (.error err, st1) →
      (errorsIs err .sqlErrNoRows = true →
        (GetSubscriptionByOrgID h subscriptionStore organizationID st).1 =
          .error (.sentinel .ErrSubscriptionNotFound)) ∧
      (errorsIs err .sqlErrNoRows = false →
        (GetSubscriptionByOrgID h subscriptionStore organizationID st).1 =
          .error (.wrap (lit "failed to get subscription") err) ∧
        (GetSubscriptionByOrgID h subscriptionStore organizationID st).1 ≠
          .error (.sentinel .ErrSubscriptionNotFound) ∧
        (GetSubscriptionByOrgID h subscriptionStore organizationID st).1 ≠
          .error (.sentinel .ErrQuotaNotFound))) ∧
    (∀ err st1, quotaStore organizationID st = (.error err, st1) →
      (errorsIs err .sqlErrNoRows = true →
        (GetQuotaByOrgID h quotaStore organizationID st).1 =
          .error (.sentinel .ErrQuotaNotFound)) ∧
      (errorsIs err .sqlErrNoRows = false →
        (GetQuotaByOrgID h quotaStore organizationID st).1 =
          .error (.wrap (lit "failed to get quota") err) ∧
        (GetQuotaByOrgID h quotaStore organizationID st).1 ≠
          .error (.sentinel .ErrSubscriptionNotFound) ∧
        (GetQuotaByOrgID h quotaStore organizationID st).1 ≠
          .error (.sentinel .ErrQuotaNotFound))) := by
  constructor
  · intro err st1 hstore
    constructor
    · intro hno
      simp [GetSubscriptionByOrgID, hstore, hno]
    · intro hno
      have hres : (GetSubscriptionByOrgID h subscriptionStore organizationID st).1 =
          .error (.wrap (lit "failed to get subscription") err) := by
        simp [GetSubscriptionByOrgID, hstore, hno]
      rw [hres]
      simp
  · intro err st1 hstore
    constructor
    · intro hno
      simp [GetQuotaByOrgID, hstore, hno]
    · intro hno
      have hres : (GetQuotaByOrgID h quotaStore organizationID st).1 =
          .error (.wrap (lit "failed to get quota") err) := by
        simp [GetQuotaByOrgID, hstore, hno]
      rw [hres]
      simp

/-- C20 on a store that reports `sql.ErrNoRows`, wrapped once, and on a store
that reports a lost connection. -/
theorem C20_getters_map_no_rows_witness :
    ((GetSubscriptionByOrgID plainHelpers
        (failingStore SubscriptionRow (.wrap (lit "scan") (.sentinel .sqlErrNoRows))) 7 ()).1 =
      .error (.sentinel .ErrSubscriptionNotFound)) ∧
    ((GetQuotaByOrgID plainHelpers
        (failingStore QuotaRow (.other (lit "connection reset"))) 7 ()).1 =
      .error (.wrap (lit "failed to get quota") (.other (lit "connection reset"))) ∧
     (GetQuotaByOrgID plainHelpers
        (failingStore QuotaRow (.other (lit "connection reset"))) 7 ()).1 ≠
      .error (.sentinel .ErrSubscriptionNotFound) ∧
     (GetQuotaByOrgID plainHelpers
        (failingStore QuotaRow (.other (lit "connection reset"))) 7 ()).1 ≠
      .error (.sentinel .ErrQuotaNotFound)) :=
  ⟨((C20_getters_map_no_rows plainHelpers
        (failingStore SubscriptionRow (.wrap (lit "scan") (.sentinel .sqlErrNoRows)))
        (failingStore QuotaRow (.other (lit "connection reset"))) 7 ()).1
        (.wrap (lit "scan") (.sentinel .sqlErrNoRows)) () rfl).1 rfl,
   ((C20_getters_map_no_rows plainHelpers
        (failingStore SubscriptionRow (.wrap (lit "scan") (.sentinel .sqlErrNoRows)))
        (failingStore QuotaRow (.other (lit "connection reset"))) 7 ()).2
        (.other (lit "connection reset")) () rfl).2 rfl⟩

end Polar

/-! ## `strconv.ParseInt` and the texts of int32 numbers -/

namespace Polar

theorem le_digitsValueFrom (ds : Bytes) : ∀ v, v ≤ digitsValueFrom v ds := by
  induction ds with
  | nil => intro v; exact le_refl _
  | cons c ds ih =>
    intro v
    have := ih (10 * v + (c.toNat - 48))
    simp only [digitsValueFrom, List.foldl_cons] at this ⊢
    omega

theorem digitsValueFrom_cons (v : Nat) (c : UInt8) (ds : Bytes) :
    digitsValueFrom v (c :: ds) = digitsValueFrom (10 * v + (c.toNat - 48)) ds := rfl

/-- One step of the loop of `ParseUint`. -/
theorem parseUintLoop_cons (maxVal : Nat) (c : UInt8) (rest : Bytes) (n : Nat) :
    parseUintLoop maxVal (c :: rest) n =
      if 48 ≤ c.toNat ∧ c.toNat ≤ 57 then
        if 18446744073709551615 / 10 + 1 ≤ n then (maxVal, some .ErrRange)
        else if (n * 10 % 18446744073709551616 + (c.toNat - 48)) % 18446744073709551616 <
              n * 10 % 18446744073709551616 ∨
            maxVal < (n * 10 % 18446744073709551616 + (c.toNat - 48)) % 18446744073709551616 then
          (maxVal, some .ErrRange)
        else parseUintLoop maxVal rest
          ((n * 10 % 18446744073709551616 + (c.toNat - 48)) % 18446744073709551616)
      else (0, some .ErrSyntax) := rfl

/-- On decimal digits the loop of `ParseUint` computes their value, or
reports that it exceeds 32 bits. -/
theorem parseUintLoop_digits (ds : Bytes) :
    ∀ n, (∀ c ∈ ds, IsDigit c) → n ≤ 4294967295 →
      parseUintLoop 4294967295 ds n =
        if digitsValueFrom n ds ≤ 4294967295 then (digitsValueFrom n ds, none)
        else (4294967295, some .ErrRange) := by
  induction ds with
  | nil =>
    intro n _ hn
    simp [parseUintLoop, digitsValueFrom, hn]
  | cons c ds ih =>
    intro n hd hn
    have hc : IsDigit c := hd c (List.mem_cons_self _ _)
    have hrest : ∀ x ∈ ds, IsDigit x := fun x hx => hd x (List.mem_cons_of_mem _ hx)
    have hcut : ¬ (18446744073709551615 / 10 + 1 ≤ n) := by omega
    have h10 : n * 10 % 18446744073709551616 = n * 10 := Nat.mod_eq_of_lt (by omega)
    have hc2 := hc.2
    have h1 : (n * 10 + (c.toNat - 48)) % 18446744073709551616 = 10 * n + (c.toNat - 48) := by
      rw [Nat.mod_eq_of_lt (by omega)]
      omega
    rw [parseUintLoop_cons, if_pos (show 48 ≤ c.toNat ∧ c.toNat ≤ 57 from hc), if_neg hcut]
    simp only [h10, h1]
    rw [digitsValueFrom_cons]
    by_cases hover : 4294967295 < 10 * n + (c.toNat - 48)
    · have hge := le_digitsValueFrom ds (10 * n + (c.toNat - 48))
      rw [if_pos (Or.inr hover), if_neg (by omega)]
    · rw [if_neg (by omega)]
      exact ih _ hrest (by omega)

/-- The loop of `ParseUint` reports no error only on decimal digits. -/
theorem parseUintLoop_ok (maxVal : Nat) (s : Bytes) :
    ∀ n, (parseUintLoop maxVal s n).2 = none → ∀ c ∈ s, IsDigit c := by
  induction s with
  | nil => intro n _ c hc; simp at hc
  | cons d s ih =>
    intro n h c hc
    rw [parseUintLoop_cons] at h
    by_cases hd : 48 ≤ d.toNat ∧ d.toNat ≤ 57
    · rw [if_pos hd] at h
      rcases List.mem_cons.mp hc with rfl | hc
      · exact hd
      · split_ifs at h
        exact ih _ h c hc
    · rw [if_neg hd] at h
      simp at h

/-- A range error of the loop comes with the value `maxVal`. -/
theorem parseUintLoop_range (maxVal : Nat) (s : Bytes) :
    ∀ n, (parseUintLoop maxVal s n).2 = some .ErrRange → (parseUintLoop maxVal s n).1 = maxVal := by
  induction s with
  | nil => intro n h; simp [parseUintLoop] at h
  | cons d s ih =>
    intro n h
    rw [parseUintLoop_cons] at h ⊢
    split_ifs at h ⊢
    · rfl
    · rfl
    · exact ih _ h
    · simp at h

theorem not_isDigit_sign : ¬ IsDigit 43 ∧ ¬ IsDigit 45 := by
  unfold IsDigit
  decide

/-- `ParseUint` on a text of decimal digits. -/
theorem ParseUint_digits (ds : Bytes) (hne : ds ≠ []) (hd : ∀ c ∈ ds, IsDigit c) :
    ParseUint ds 32 =
      if digitsValue ds ≤ 4294967295 then (digitsValue ds, none)
      else (4294967295, some .ErrRange) := by
  unfold ParseUint
  rw [if_neg hne]
  exact parseUintLoop_digits ds 0 hd (by omega)

/-- `ParseUint` reports no error only on a non-empty text of decimal digits,
whose value it returns. -/
theorem ParseUint_ok (s : Bytes) (un : Nat) (h : ParseUint s 32 = (un, none)) :
    s ≠ [] ∧ (∀ c ∈ s, IsDigit c) ∧ un = digitsValue s ∧ un ≤ 4294967295 := by
  have hne : s ≠ [] := by
    intro he
    simp [ParseUint, he] at h
  have hd : ∀ c ∈ s, IsDigit c := by
    have h2 : (parseUintLoop (2 ^ 32 - 1) s 0).2 = none := by
      unfold ParseUint at h
      rw [if_neg hne] at h
      rw [h]
    exact parseUintLoop_ok _ s 0 h2
  rw [ParseUint_digits s hne hd] at h
  split_ifs at h with hle
  · simp only [Prod.mk.injEq, and_true] at h
    exact ⟨hne, hd, h.symm, by omega⟩
  · simp at h

end Polar

namespace Polar

/-- `ParseInt` after a `ParseUint` without error: the range of `int32` is checked. -/
theorem ParseInt_of_ParseUint_ok (c : UInt8) (rest : Bytes) (un : Nat)
    (h : ParseUint (if c = 43 ∨ c = 45 then rest else c :: rest) 32 = (un, none)) :
    ParseInt (c :: rest) 32 =
      if c ≠ 45 ∧ 2147483648 ≤ un then (2147483647, some .ErrRange)
      else if c = 45 ∧ 2147483648 < un then (-2147483648, some .ErrRange)
      else (if c = 45 then -(un : Int) else (un : Int), none) := by
  simp only [ParseInt, h]
  by_cases hc : c = 45
  · subst hc
    by_cases h2 : 2147483648 < un
    · simp [h2]
    · simp [h2]
  · by_cases h2 : 2147483648 ≤ un
    · simp [hc, h2]
    · simp [hc, h2]

/-- A range error of `ParseUint` comes with the largest 32-bit value. -/
theorem ParseUint_range (s : Bytes) (un : Nat) (h : ParseUint s 32 = (un, some .ErrRange)) :
    un = 4294967295 := by
  unfold ParseUint at h
  by_cases hnil : s = []
  · rw [if_pos hnil] at h
    simp at h
  · rw [if_neg hnil] at h
    have h2 := parseUintLoop_range (2 ^ 32 - 1) s 0 (by rw [h])
    rw [h] at h2
    simpa using h2

/-- `ParseInt` after a `ParseUint` with an error reports an error. -/
theorem ParseInt_of_ParseUint_error (c : UInt8) (rest : Bytes) (un : Nat) (e : NumError)
    (h : ParseUint (if c = 43 ∨ c = 45 then rest else c :: rest) 32 = (un, some e)) :
    (ParseInt (c :: rest) 32).2 ≠ none := by
  cases e with
  | ErrSyntax => simp [ParseInt, h]
  | ErrRange =>
    have hun := ParseUint_range _ un h
    subst hun
    simp only [ParseInt, h]
    by_cases hc : c = 45
    · subst hc
      simp
    · simp [hc]

theorem isDigit_ne_sign {c : UInt8} (h : IsDigit c) : ¬ (c = 43 ∨ c = 45) := by
  rintro (rfl | rfl)
  · exact not_isDigit_sign.1 h
  · exact not_isDigit_sign.2 h

/-- `strconv.ParseInt(s, 10, 32)` returns `n` without error exactly when `s`
is a base-10 text of the int32 `n`. -/
theorem ParseInt_eq_iff (s : Bytes) (n : Int) :
    ParseInt s 32 = (n, none) ↔ IsInt32Text s n := by
  constructor
  · intro h
    cases s with
    | nil => simp [ParseInt] at h
    | cons c rest =>
      cases hu : ParseUint (if c = 43 ∨ c = 45 then rest else c :: rest) 32 with
      | mk un e =>
        cases e with
        | some e =>
          exact absurd (by rw [h]) (ParseInt_of_ParseUint_error c rest un e hu)
        | none =>
          obtain ⟨hne, hd, hv, hle⟩ := ParseUint_ok _ un hu
          rw [ParseInt_of_ParseUint_ok c rest un hu] at h
          by_cases hneg : c = 45
          · have hdig : (if c = 43 ∨ c = 45 then rest else c :: rest) = rest := by
              rw [if_pos (Or.inr hneg)]
            rw [hdig] at hne hd hv
            rw [if_neg (fun hh => hh.1 hneg)] at h
            by_cases hbig : 2147483648 < un
            · rw [if_pos ⟨hneg, hbig⟩] at h
              simp at h
            · rw [if_neg (fun hh => hbig hh.2), if_pos hneg] at h
              simp only [Prod.mk.injEq, and_true] at h
              refine ⟨by omega, by omega, rest, hne, hd, Or.inr (Or.inr ⟨by rw [hneg], ?_⟩)⟩
              rw [← h, hv]
          · by_cases hbig : 2147483648 ≤ un
            · rw [if_pos ⟨hneg, hbig⟩] at h
              simp at h
            · rw [if_neg (fun hh => hbig hh.2), if_neg (fun hh => hneg hh.1), if_neg hneg] at h
              simp only [Prod.mk.injEq, and_true] at h
              by_cases hplus : c = 43
              · have hdig : (if c = 43 ∨ c = 45 then rest else c :: rest) = rest := by
                  rw [if_pos (Or.inl hplus)]
                rw [hdig] at hne hd hv
                refine ⟨by omega, by omega, rest, hne, hd, Or.inr (Or.inl ⟨by rw [hplus], ?_⟩)⟩
                rw [← h, hv]
              · have hdig : (if c = 43 ∨ c = 45 then rest else c :: rest) = c :: rest := by
                  rw [if_neg (by tauto)]
                rw [hdig] at hne hd hv
                refine ⟨by omega, by omega, c :: rest, hne, hd, Or.inl ⟨rfl, ?_⟩⟩
                rw [← h, hv]
  · rintro ⟨hlo, hhi, ds, hne, hd, hcase⟩
    have hpu := ParseUint_digits ds hne hd
    rcases hcase with ⟨rfl, hn⟩ | ⟨rfl, hn⟩ | ⟨rfl, hn⟩
    · cases s with
      | nil => exact absurd rfl hne
      | cons c rest =>
        have hc : ¬ (c = 43 ∨ c = 45) := isDigit_ne_sign (hd c (List.mem_cons_self _ _))
        have hle : digitsValue (c :: rest) ≤ 4294967295 := by omega
        rw [if_pos hle] at hpu
        rw [ParseInt_of_ParseUint_ok c rest _ (by rw [if_neg hc]; exact hpu)]
        have h45 : c ≠ 45 := fun e => hc (Or.inr e)
        rw [if_neg (fun hh => by omega), if_neg (fun hh => h45 hh.1), if_neg h45, hn]
    · have hle : digitsValue ds ≤ 4294967295 := by omega
      rw [if_pos hle] at hpu
      rw [ParseInt_of_ParseUint_ok 43 ds _ (by rw [if_pos (Or.inl rfl)]; exact hpu)]
      have h45 : (43 : UInt8) ≠ 45 := by decide
      rw [if_neg (fun hh => by omega), if_neg (fun hh => h45 hh.1), if_neg h45, hn]
    · have hle : digitsValue ds ≤ 4294967295 := by omega
      rw [if_pos hle] at hpu
      rw [ParseInt_of_ParseUint_ok 45 ds _ (by rw [if_pos (Or.inr rfl)]; exact hpu)]
      rw [if_neg (fun hh => hh.1 rfl), if_neg (fun hh => by omega), if_pos rfl, hn]

theorem int32_of_range {n : Int} (hlo : -2147483648 ≤ n) (hhi : n ≤ 2147483647) :
    int32 n = n := by
  unfold int32
  omega

/-- The quota ceiling, by the entry `invoice_count` of the product metadata. -/
theorem invoiceCountMax_spec (m : StringMap) :
    (∀ val n, m.lookup (lit "invoice_count") = some val → IsInt32Text val n →
      invoiceCountMax m = n) ∧
    (∀ val, m.lookup (lit "invoice_count") = some val → (¬ ∃ n, IsInt32Text val n) →
      invoiceCountMax m = 0) ∧
    (m.lookup (lit "invoice_count") = none → invoiceCountMax m = 0) := by
  refine ⟨fun val n hl ht => ?_, fun val hl hno => ?_, fun hl => ?_⟩
  · have hp := (ParseInt_eq_iff val n).mpr ht
    simp only [invoiceCountMax, hl, hp]
    exact int32_of_range ht.1 ht.2.1
  · simp only [invoiceCountMax, hl]
    cases hp : ParseInt val 32 with
    | mk count e =>
      cases e with
      | none => exact absurd ⟨count, (ParseInt_eq_iff val count).mp hp⟩ hno
      | some e => rfl
  · simp only [invoiceCountMax, hl]

/-- What `GetSubscription` returns for a 200 response with a first item. -/
theorem GetSubscription_ok (externalCustomerID body : Bytes) (polarSub : SubscriptionItem)
    (rest : List SubscriptionItem) :
    GetSubscription externalCustomerID (.response 200 body (.ok (polarSub :: rest))) =
      .ok { ID := 0
            OrganizationID := 0
            ExternalCustomerID := externalCustomerID
            SubscriptionID := polarSub.ID
            SubscriptionStatus := polarSub.Status
            ProductID := polarSub.ProductID
            ProductName := polarSub.ProductName
            PlanName := []
            CurrentPeriodStart := parseTime polarSub.CurrentPeriodStart
            CurrentPeriodEnd := parseTime polarSub.CurrentPeriodEnd
            CancelAtPeriodEnd := false
            CanceledAt := polarSub.CanceledAt.map parseTime
            Metadata :=
              [(lit "invoice_count_max", .int32 (invoiceCountMax polarSub.ProductMetadata)),
               (lit "product_metadata", .stringMap polarSub.ProductMetadata),
               (lit "customer_metadata", .stringMap polarSub.CustomerMetadata)]
            CreatedAt := zeroTime
            UpdatedAt := zeroTime } := by
  simp [GetSubscription]

/-- C18, amended. For every HTTP 200 response whose body decodes, to a
non-empty list of items, `GetSubscription` succeeds, and
`Metadata["invoice_count_max"]` of its result is the int32 `n` when the product
metadata of the first item has an entry `invoice_count` that is a base-10 text
of `n`, and 0 in every other case: an entry that is no such text (empty, not a
number, fractional, out of the range of `int32`) or no entry. -/
theorem C18_quota_ceiling (externalCustomerID body : Bytes) (item : SubscriptionItem)
    (rest : List SubscriptionItem) :
    ∃ sub, GetSubscription externalCustomerID (.response 200 body (.ok (item :: rest))) =
        .ok sub ∧
      (∀ val n, item.ProductMetadata.lookup (lit "invoice_count") = some val →
        IsInt32Text val n →
        sub.Metadata.lookup (lit "invoice_count_max") = some (.int32 n)) ∧
      (∀ val, item.ProductMetadata.lookup (lit "invoice_count") = some val →
        (¬ ∃ n, IsInt32Text val n) →
        sub.Metadata.lookup (lit "invoice_count_max") = some (.int32 0)) ∧
      (item.ProductMetadata.lookup (lit "invoice_count") = none →
        sub.Metadata.lookup (lit "invoice_count_max") = some (.int32 0)) := by
  obtain ⟨h1, h2, h3⟩ := invoiceCountMax_spec item.ProductMetadata
  have hkey : ∀ v : Int,
      List.lookup (lit "invoice_count_max")
        [(lit "invoice_count_max", AnyValue.int32 v),
         (lit "product_metadata", AnyValue.stringMap item.ProductMetadata),
         (lit "customer_metadata", AnyValue.stringMap item.CustomerMetadata)] =
        some (.int32 v) := by
    intro v
    simp [List.lookup]
  refine ⟨_, GetSubscription_ok externalCustomerID body item rest,
    fun val n hl ht => ?_, fun val hl hno => ?_, fun hl => ?_⟩
  · rw [← h1 val n hl ht]
    exact hkey _
  · rw [← h2 val hl hno]
    exact hkey _
  · rw [← h3 hl]
    exact hkey _

end Polar

namespace Polar

/-- The quota ceiling read from some entries: a number, a signed number with
leading zeros, the least int32, and texts that are no int32. -/
theorem invoiceCountMax_examples :
    invoiceCountMax [(lit "invoice_count", lit "250")] = 250 ∧
    invoiceCountMax [(lit "invoice_count", lit "+007")] = 7 ∧
    invoiceCountMax [(lit "invoice_count", lit "-2147483648")] = -2147483648 ∧
    invoiceCountMax [(lit "invoice_count", lit "2147483648")] = 0 ∧
    invoiceCountMax [(lit "invoice_count", lit "")] = 0 ∧
    invoiceCountMax [(lit "invoice_count", lit "unlimited")] = 0 ∧
    invoiceCountMax [(lit "invoice_count", lit "12.5")] = 0 ∧
    invoiceCountMax [(lit "seats", lit "5")] = 0 := by
  decide

/-- C18, amended, on a first item whose product metadata holds `invoice_count = 250`. -/
theorem C18_quota_ceiling_witness :
    ∃ sub, GetSubscription (lit "org_7")
        (.response 200 [] (.ok [itemWithProductMetadata [(lit "invoice_count", lit "250")]])) =
        .ok sub ∧
      sub.Metadata.lookup (lit "invoice_count_max") = some (.int32 250) := by
  obtain ⟨sub, hsub, h1, _, _⟩ := C18_quota_ceiling (lit "org_7") []
    (itemWithProductMetadata [(lit "invoice_count", lit "250")]) []
  refine ⟨sub, hsub, h1 (lit "250") 250 (by decide) ⟨by decide, by decide, lit "250", by decide,
    ?_, Or.inl ⟨rfl, by decide⟩⟩⟩
  unfold IsDigit
  decide

end Polar

/-! ## Every store error comes back as an error -/

namespace Polar

/-- An error wrapped with `%w` is found by `errors.Is`. -/
theorem errorsIsErr_wrap (context : Bytes) (cause : Err) :
    errorsIsErr (.wrap context cause) cause = true := by
  have hself : ∀ e : Err, errorsIsErr e e = true := by
    intro e
    cases e <;> simp [errorsIsErr]
  simp [errorsIsErr, hself]

/-- C21. In each of the seven operations of the repository, when the call of
the store returns an error `e`, the operation returns no entity and an error:
on the three getters (`GetSubscriptionByOrgID`, `GetQuotaByOrgID`,
`GetQuotaStatus`) their not-found error variable when `errors.Is` matches `e`
with `sql.ErrNoRows`, and in every other case `e` wrapped with the context of
the operation, which `errors.Is` matches with `e`. -/
theorem C21_store_errors_propagate {σ : Type} (h : Helpers) (p : ParamHelpers) (st st1 : σ)
    (e : Err) :
    (∀ (store : StoreMethod σ Int SubscriptionRow) (organizationID : Int),
      store organizationID st = (.error e, st1) →
      (GetSubscriptionByOrgID h store organizationID st).1 =
        (if errorsIs e .sqlErrNoRows then .error (.sentinel .ErrSubscriptionNotFound)
         else .error (.wrap (lit "failed to get subscription") e))) ∧
    (∀ (store : StoreMethod σ UpsertSubscriptionParams SubscriptionRow)
      (subscription : Subscription Int) (metadataJSON : Bytes),
      p.Marshal subscription.Metadata = .ok metadataJSON →
      store (upsertSubscriptionParams p subscription metadataJSON) st = (.error e, st1) →
      (UpsertSubscription h p store subscription st).1 =
        .error (.wrap (lit "failed to upsert subscription") e)) ∧
    (∀ (store : StoreMethod σ Int Unit) (organizationID : Int),
      store organizationID st = (.error e, st1) →
      (DeleteSubscription store organizationID st).1 =
        some (.wrap (lit "failed to delete subscription") e)) ∧
    (∀ (store : StoreMethod σ Int QuotaRow) (organizationID : Int),
      store organizationID st = (.error e, st1) →
      (GetQuotaByOrgID h store organizationID st).1 =
        (if errorsIs e .sqlErrNoRows then .error (.sentinel .ErrQuotaNotFound)
         else .error (.wrap (lit "failed to get quota") e))) ∧
    (∀ (store : StoreMethod σ UpsertQuotaParams QuotaRow) (quota : QuotaTracking),
      store (upsertQuotaParams p quota) st = (.error e, st1) →
      (UpsertQuota h p store quota st).1 = .error (.wrap (lit "failed to upsert quota") e)) ∧
    (∀ (store : StoreMethod σ Int QuotaRow) (organizationID : Int),
      store organizationID st = (.error e, st1) →
      (DecrementInvoiceCount h store organizationID st).1 =
        .error (.wrap (lit "failed to decrement invoice count") e)) ∧
    (∀ (store : StoreMethod σ Int QuotaStatusRow) (organizationID : Int),
      store organizationID st = (.error e, st1) →
      (GetQuotaStatus store organizationID st).1 =
        (if errorsIs e .sqlErrNoRows then .error (.sentinel .ErrSubscriptionNotFound)
         else .error (.wrap (lit "failed to get quota status") e))) ∧
    (∀ context, errorsIsErr (.wrap context e) e = true) := by
  refine ⟨?_, ?_, ?_, ?_, ?_, ?_, ?_, fun context => errorsIsErr_wrap context e⟩
  · intro store organizationID hs
    simp only [GetSubscriptionByOrgID, hs]
    split_ifs <;> rfl
  · intro store subscription metadataJSON hm hs
    simp only [UpsertSubscription, hm, hs]
  · intro store organizationID hs
    simp only [DeleteSubscription, hs]
  · intro store organizationID hs
    simp only [GetQuotaByOrgID, hs]
    split_ifs <;> rfl
  · intro store quota hs
    simp only [UpsertQuota, hs]
  · intro store organizationID hs
    simp only [DecrementInvoiceCount, hs]
  · intro store organizationID hs
    simp only [GetQuotaStatus, hs]
    split_ifs <;> rfl

/-- C21 on stores that answer every call with `sql.ErrNoRows`: the getter
returns its not-found error, the other operations the error wrapped. -/
theorem C21_store_errors_propagate_witness :
    (GetQuotaByOrgID plainHelpers (failingMethod Int QuotaRow (.sentinel .sqlErrNoRows)) 7 ()).1 =
      .error (.sentinel .ErrQuotaNotFound) ∧
    (UpsertQuota plainHelpers plainParamHelpers
        (failingMethod UpsertQuotaParams QuotaRow (.sentinel .sqlErrNoRows))
        (mapToDomainQuota plainHelpers (quotaRowWith 3)) ()).1 =
      .error (.wrap (lit "failed to upsert quota") (.sentinel .sqlErrNoRows)) ∧
    (DeleteSubscription (failingMethod Int Unit (.sentinel .sqlErrNoRows)) 7 ()).1 =
      some (.wrap (lit "failed to delete subscription") (.sentinel .sqlErrNoRows)) ∧
    errorsIsErr (.wrap (lit "failed to delete subscription") (.sentinel .sqlErrNoRows))
      (.sentinel .sqlErrNoRows) = true :=
  ⟨(C21_store_errors_propagate plainHelpers plainParamHelpers () ()
      (.sentinel .sqlErrNoRows)).2.2.2.1 _ 7 rfl,
   (C21_store_errors_propagate plainHelpers plainParamHelpers () ()
      (.sentinel .sqlErrNoRows)).2.2.2.2.1 _ _ rfl,
   (C21_store_errors_propagate plainHelpers plainParamHelpers () ()
      (.sentinel .sqlErrNoRows)).2.2.1 _ 7 rfl,
   (C21_store_errors_propagate plainHelpers plainParamHelpers () ()
      (.sentinel .sqlErrNoRows)).2.2.2.2.2.2.2 _⟩

end Polar

/-! ## `IngestMeterEvent` -/

namespace Polar

theorem stringsContains_append_left (a s sub : Bytes) (h : stringsContains s sub = true) :
    stringsContains (a ++ s) sub = true := by
  induction a with
  | nil => simpa using h
  | cons x a ih => simp [stringsContains, ih]

/-- A text holds each of its parts. -/
theorem stringsContains_middle (a b c : Bytes) : stringsContains (a ++ b ++ c) b = true := by
  rw [List.append_assoc]
  exact stringsContains_append_left a _ b (stringsContains_prefix_append b c)

/-- C22. For every response of the provider whose status code is outside
200..299, `IngestMeterEvent` returns an error, whose message is "polar events
API returned status", the status code and the response body: it holds both the
code and the body. -/
theorem C22_non_2xx_is_an_error (post : Bytes → List MeterEvent → PostReply)
    (externalCustomerID meterSlug : Bytes) (amount code : Int) (body : Bytes)
    (hpost : post (lit "/v1/events/ingest")
      [{ name := meterSlug, external_customer_id := externalCustomerID, count := amount }] =
        .response code body)
    (hcode : code < 200 ∨ 299 < code) :
    ∃ err, IngestMeterEvent post externalCustomerID meterSlug amount = some err ∧
      ∀ text : Sentinel → Bytes,
        err.Error text =
          lit "polar events API returned status " ++ fmtInt code ++ lit ": " ++ body ∧
        stringsContains (err.Error text) (fmtInt code) = true ∧
        stringsContains (err.Error text) body = true := by
  have hne : code ≠ 200 ∧ code ≠ 201 := by omega
  refine ⟨.other (lit "polar events API returned status " ++ fmtInt code ++ lit ": " ++ body),
    ?_, fun text => ⟨rfl, ?_, ?_⟩⟩
  · simp only [IngestMeterEvent, hpost, if_pos hne]
  · simp only [Err.Error]
    rw [List.append_assoc (lit "polar events API returned status " ++ fmtInt code)]
    exact stringsContains_middle _ _ _
  · simp only [Err.Error]
    have := stringsContains_middle
      (lit "polar events API returned status " ++ fmtInt code ++ lit ": ") body []
    simpa using this

/-- C22 on a 503 response with the body `try later`. -/
theorem C22_non_2xx_is_an_error_witness :
    ∃ err, IngestMeterEvent (postAnswering (.response 503 (lit "try later"))) (lit "org_7")
        (lit "invoice_processing") 1 = some err ∧
      ∀ text : Sentinel → Bytes,
        err.Error text =
          lit "polar events API returned status " ++ fmtInt 503 ++ lit ": " ++ lit "try later" ∧
        stringsContains (err.Error text) (fmtInt 503) = true ∧
        stringsContains (err.Error text) (lit "try later") = true :=
  C22_non_2xx_is_an_error (postAnswering (.response 503 (lit "try later"))) (lit "org_7")
    (lit "invoice_processing") 1 503 (lit "try later") rfl (Or.inr (by decide))

/-- C29. `IngestMeterEvent` returns `nil` exactly when the transport call
succeeds and the status code of the response is 200 or 201; every other
status, the other 2xx ones included, gives an error. -/
theorem C29_nil_iff_200_or_201 (post : Bytes → List MeterEvent → PostReply)
    (externalCustomerID meterSlug : Bytes) (amount : Int) :
    IngestMeterEvent post externalCustomerID meterSlug amount = none ↔
      ∃ code body,
        post (lit "/v1/events/ingest")
          [{ name := meterSlug, external_customer_id := externalCustomerID, count := amount }] =
            .response code body ∧ (code = 200 ∨ code = 201) := by
  unfold IngestMeterEvent
  cases hp : post (lit "/v1/events/ingest")
      [{ name := meterSlug, external_customer_id := externalCustomerID, count := amount }] with
  | transportError err => simp
  | response code body =>
    constructor
    · intro h
      simp only at h
      split_ifs at h with hc
      refine ⟨code, body, rfl, ?_⟩
      by_contra hno
      exact hc ⟨fun e => hno (Or.inl e), fun e => hno (Or.inr e)⟩
    · rintro ⟨c, b, hcb, hc⟩
      simp only [PostReply.response.injEq] at hcb
      obtain ⟨rfl, rfl⟩ := hcb
      simp only
      rw [if_neg]
      rcases hc with h | h <;> simp [h]

/-- The statuses 202 and 204 give an error, 200 and 201 give `nil`. -/
theorem IngestMeterEvent_examples :
    (IngestMeterEvent (postAnswering (.response 202 [])) (lit "org_7") (lit "m") 1).isSome = true ∧
    (IngestMeterEvent (postAnswering (.response 204 [])) (lit "org_7") (lit "m") 1).isSome = true ∧
    IngestMeterEvent (postAnswering (.response 200 [])) (lit "org_7") (lit "m") 1 = none ∧
    IngestMeterEvent (postAnswering (.response 201 [])) (lit "org_7") (lit "m") 1 = none := by
  decide

end Polar

/-! ## Decrements taken in turn -/

namespace Polar

/-- The decrement of a stored count of zero changes nothing and reports the
store's error, wrapped. -/
theorem DecrementInvoiceCount_zero (h : Helpers) (noRow : Err) (t : Tables)
    (organizationID : Int) (q : QuotaRow) (hq : t.quotas organizationID = some q)
    (h0 : q.InvoiceCount = 0) :
    DecrementInvoiceCount h (specDecrementInvoiceCount noRow) organizationID t =
      (.error (.wrap (lit "failed to decrement invoice count") noRow), t) := by
  simp [DecrementInvoiceCount, specDecrementInvoiceCount, hq, h0]

/-- The decrement of a positive stored count returns and stores the row with
one less. -/
theorem DecrementInvoiceCount_pos (h : Helpers) (noRow : Err) (t : Tables)
    (organizationID : Int) (q : QuotaRow) (hq : t.quotas organizationID = some q)
    (hpos : 0 < q.InvoiceCount) :
    DecrementInvoiceCount h (specDecrementInvoiceCount noRow) organizationID t =
      (.ok (mapToDomainQuota h { q with InvoiceCount := q.InvoiceCount - 1 }),
        { t with quotas := fun o =>
            if o = organizationID then some { q with InvoiceCount := q.InvoiceCount - 1 }
            else t.quotas o }) := by
  simp [DecrementInvoiceCount, specDecrementInvoiceCount, hq, hpos]

theorem decrementTimes_succ {σ : Type} (h : Helpers) (store : StoreMethod σ Int QuotaRow)
    (organizationID : Int) (n : Nat) (st : σ) :
    decrementTimes h store organizationID (n + 1) st =
      ((DecrementInvoiceCount h store organizationID st).1 ::
        (decrementTimes h store organizationID n
          (DecrementInvoiceCount h store organizationID st).2).1,
       (decrementTimes h store organizationID n
          (DecrementInvoiceCount h store organizationID st).2).2) := rfl

/-- Once the count is zero every further call fails alike and stores nothing. -/
theorem decrementTimes_zero (h : Helpers) (noRow : Err) (organizationID : Int) (q : QuotaRow)
    (h0 : q.InvoiceCount = 0) :
    ∀ (n : Nat) (t : Tables), t.quotas organizationID = some q →
      decrementTimes h (specDecrementInvoiceCount noRow) organizationID n t =
        (List.replicate n (.error (.wrap (lit "failed to decrement invoice count") noRow)), t) := by
  intro n
  induction n with
  | zero => intro t _; rfl
  | succ n ih =>
    intro t hq
    rw [decrementTimes_succ, DecrementInvoiceCount_zero h noRow t organizationID q hq h0]
    simp only [ih t hq]
    rfl

/-- The results of `n` calls on a stored count of `k ≤ n`: `k` quotas, with the
counts `k - 1` down to `0`, then `n - k` times the store's error, wrapped; the
count stored at the end is 0. -/
theorem decrementTimes_spec (h : Helpers) (noRow : Err) (organizationID : Int) :
    ∀ (k n : Nat) (t : Tables) (q : QuotaRow), t.quotas organizationID = some q →
      q.InvoiceCount = k → k ≤ n →
      ∃ oks : List QuotaTracking,
        (decrementTimes h (specDecrementInvoiceCount noRow) organizationID n t).1 =
          oks.map .ok ++ List.replicate (n - k)
            (.error (.wrap (lit "failed to decrement invoice count") noRow)) ∧
        oks.map (fun x => x.InvoiceCount) = (List.range k).reverse.map Int.ofNat ∧
        ((decrementTimes h (specDecrementInvoiceCount noRow) organizationID n t).2.quotas
          organizationID).map (fun r => r.InvoiceCount) = some 0 := by
  intro k
  induction k with
  | zero =>
    intro n t q hq hk _
    have h0 : q.InvoiceCount = 0 := by simpa using hk
    refine ⟨[], ?_, rfl, ?_⟩
    · rw [decrementTimes_zero h noRow organizationID q h0 n t hq]
      simp
    · rw [decrementTimes_zero h noRow organizationID q h0 n t hq]
      simp [hq, h0]
  | succ k ih =>
    intro n t q hq hk hle
    obtain ⟨m, rfl⟩ : ∃ m, n = m + 1 := ⟨n - 1, by omega⟩
    have hpos : 0 < q.InvoiceCount := by omega
    have hstep := DecrementInvoiceCount_pos h noRow t organizationID q hq hpos
    obtain ⟨oks, h1, h2, h3⟩ := ih m
      { t with quotas := fun o =>
          if o = organizationID then some { q with InvoiceCount := q.InvoiceCount - 1 }
          else t.quotas o }
      { q with InvoiceCount := q.InvoiceCount - 1 } (by simp) (by simp; omega) (by omega)
    refine ⟨mapToDomainQuota h { q with InvoiceCount := q.InvoiceCount - 1 } :: oks, ?_, ?_, ?_⟩
    · have hsub : m + 1 - (k + 1) = m - k := by omega
      rw [decrementTimes_succ, hstep, hsub]
      simp only [h1, List.map_cons, List.cons_append]
    · rw [List.map_cons, h2, List.range_succ, List.reverse_append]
      simp [mapToDomainQuota, hk]
    · rw [decrementTimes_succ, hstep]
      exact h3

/-- C23, as stated, fails under a store that decrements by one conditional
update and reports `sql.ErrNoRows` when no row is updated: of 2 calls on a
stored count of 1, the first returns the quota with count 0 and the second the
wrapped storage error, which `errors.Is` does not match with `QuotaExhausted`. -/
theorem C23_counterexample :
    (decrementTimes plainHelpers (specDecrementInvoiceCount (.sentinel .sqlErrNoRows)) 7 2
        (tablesWith (lit "active") 1)).1 =
      [.ok (mapToDomainQuota plainHelpers (quotaRowWith 0)),
       .error (.wrap (lit "failed to decrement invoice count") (.sentinel .sqlErrNoRows))] ∧
    errorsIs (.wrap (lit "failed to decrement invoice count") (.sentinel .sqlErrNoRows))
      .QuotaExhausted = false := by
  decide

/-- C23, amended. Over a store that decrements by one conditional update and
reports the error `noRow` when no row is updated, the `N` calls each being one
call of the store, served one after the other in whatever order: on a stored
count `K < N`, exactly `K` calls return a quota, with the counts `K - 1` down
to `0`, and the `N - K` others return `noRow` wrapped as "failed to decrement
invoice count: ..."; the count stored at the end is 0. -/
theorem C23_decrements_in_turn (h : Helpers) (noRow : Err) (organizationID : Int) (K N : Nat)
    (t : Tables) (q : QuotaRow) (hq : t.quotas organizationID = some q)
    (hK : q.InvoiceCount = K) (hlt : K < N) :
    ∃ oks : List QuotaTracking,
      (decrementTimes h (specDecrementInvoiceCount noRow) organizationID N t).1 =
        oks.map .ok ++ List.replicate (N - K)
          (.error (.wrap (lit "failed to decrement invoice count") noRow)) ∧
      oks.length = K ∧
      oks.map (fun x => x.InvoiceCount) = (List.range K).reverse.map Int.ofNat ∧
      ((decrementTimes h (specDecrementInvoiceCount noRow) organizationID N t).2.quotas
        organizationID).map (fun r => r.InvoiceCount) = some 0 := by
  obtain ⟨oks, h1, h2, h3⟩ :=
    decrementTimes_spec h noRow organizationID K N t q hq hK (by omega)
  refine ⟨oks, h1, ?_, h2, h3⟩
  have := congrArg List.length h2
  rw [List.length_map, List.length_map, List.length_reverse, List.length_range] at this
  exact this

/-- C23, amended, on 5 calls for organization 7 with a stored count of 2. -/
theorem C23_decrements_in_turn_witness :
    ∃ oks : List QuotaTracking,
      (decrementTimes plainHelpers (specDecrementInvoiceCount (.sentinel .sqlErrNoRows)) 7 5
          (tablesWith (lit "active") 2)).1 =
        oks.map .ok ++ List.replicate (5 - 2)
          (.error (.wrap (lit "failed to decrement invoice count") (.sentinel .sqlErrNoRows))) ∧
      oks.length = 2 ∧
      oks.map (fun x => x.InvoiceCount) = (List.range 2).reverse.map Int.ofNat ∧
      ((decrementTimes plainHelpers (specDecrementInvoiceCount (.sentinel .sqlErrNoRows)) 7 5
          (tablesWith (lit "active") 2)).2.quotas 7).map (fun r => r.InvoiceCount) = some 0 :=
  C23_decrements_in_turn plainHelpers (.sentinel .sqlErrNoRows) 7 2 5
    (tablesWith (lit "active") 2) (quotaRowWith 2) rfl rfl (by decide)

end Polar

/-! ## More on `GetCheckoutSession` and the polling -/

namespace Polar

/-- C24, on the code. The error of a 422 response is classified as retryable,
so is that of a 402, a 409 or a 410 one: only the statuses 400, 401, 403 and
404 stop the polling, and a call answered 422 every time polls up to the
deadline, with six fetches. -/
theorem C24_other_4xx_are_retried :
    GetCheckoutSession (lit "cs_1") (.response 422 (lit "unprocessable entity") (.error [])) =
      .error (.badStatus 422 (lit "unprocessable entity")) ∧
    isRetryableError (some (.badStatus 422 (lit "unprocessable entity"))) = true ∧
    isRetryableError (some (.badStatus 402 (lit "payment required"))) = true ∧
    isRetryableError (some (.badStatus 409 (lit "conflict"))) = true ∧
    isRetryableError (some (.badStatus 410 (lit "gone"))) = true ∧
    GetCheckoutSessionWithPolling alwaysUnprocessable (lit "cs_1") =
      some ⟨.error (.timedOut (lit "unknown")),
        [0, 2000000000, 4000000000, 6000000000, 8000000000, 10000000000], 10000000000⟩ := by
  decide

/-- C25. For every HTTP 200 response that decodes, the `CustomerID` of the
session returned is the root-level `customer_external_id` when that is not
empty and the nested `customer.external_id` otherwise; the provider's own
`customer_id`, at the root or nested, has no part in the result; `Status` is
the provider's status as it is. -/
theorem C25_customer_id_resolution (sessionID body : Bytes) (result : CheckoutJSON) :
    ∃ s, GetCheckoutSession sessionID (.response 200 body (.ok result)) = .ok s ∧
      s.CustomerID =
        (if result.CustomerExternalID ≠ [] then result.CustomerExternalID
         else result.CustomerNestedExternalID) ∧
      s.Status = result.Status ∧
      ∀ customerID nestedID : Bytes,
        GetCheckoutSession sessionID
          (.response 200 body
            (.ok { result with CustomerID := customerID, CustomerNestedID := nestedID })) =
          .ok s := by
  refine ⟨{ ID := result.ID
            Status := result.Status
            CustomerID :=
              if result.CustomerExternalID = [] then result.CustomerNestedExternalID
              else result.CustomerExternalID
            SubscriptionID := result.SubscriptionID
            ProductID := result.ProductID
            Amount := result.Amount
            CreatedAt := parseTime result.CreatedAt }, ?_, ?_, rfl, fun customerID nestedID => ?_⟩
  · simp [GetCheckoutSession]
  · by_cases h : result.CustomerExternalID = [] <;> simp [h]
  · simp [GetCheckoutSession]

/-- C25 on decoded bodies with and without a root-level external ID. -/
theorem C25_customer_id_resolution_examples :
    (GetCheckoutSession (lit "cs_1")
        (.response 200 [] (.ok { sessionJSON (lit "pending") with
          CustomerExternalID := lit "org_root", CustomerNestedExternalID := lit "org_nested",
          CustomerID := lit "polar_cus" }))).map (fun s => s.CustomerID) = .ok (lit "org_root") ∧
    (GetCheckoutSession (lit "cs_1")
        (.response 200 [] (.ok { sessionJSON (lit "pending") with
          CustomerExternalID := [], CustomerNestedExternalID := lit "org_nested",
          CustomerID := lit "polar_cus" }))).map (fun s => s.CustomerID) = .ok (lit "org_nested") ∧
    (GetCheckoutSession (lit "cs_1")
        (.response 200 [] (.ok { sessionJSON (lit "pending") with
          CustomerExternalID := [], CustomerNestedExternalID := [],
          CustomerID := lit "polar_cus" }))).map (fun s => s.CustomerID) = .ok [] := by
  decide

/-- The loop, never cancelled and never given a reason to stop, ends with the
timeout error that carries the status of the first attempt. -/
theorem pollLoop_timedOut_status (env : Env) (sessionID : Bytes)
    (session : Option CheckoutSessionResponse) (hctx : env.cancelAt = none)
    (hkeep : ∀ i, keepsPolling sessionID (env.reply i) = true) :
    ∀ fuel now lastRecv times out,
      pollLoop env sessionID session fuel now lastRecv times = some out →
      out.result = .error (.timedOut (match session with
        | some s => s.Status
        | none => lit "unknown")) := by
  intro fuel
  induction fuel with
  | zero => intro now lastRecv times out h; simp [pollLoop] at h
  | succ fuel ih =>
    intro now lastRecv times out h
    rw [pollLoop_succ] at h
    split_ifs at h with hnow
    · cases hsel : select env now lastRecv times.length with
      | done t => exact absurd hsel (select_ne_done hctx _ _ _ _)
      | tick t =>
        simp only [hsel] at h
        have hk := hkeep times.length
        cases hget : GetCheckoutSession sessionID (env.reply times.length) with
        | ok s =>
          simp only [hget] at h
          simp only [keepsPolling, hget, decide_eq_true_eq] at hk
          rw [if_neg hk] at h
          exact ih _ _ _ _ h
        | error err =>
          simp only [hget] at h
          simp only [keepsPolling, hget] at hk
          simp only [hk, Bool.not_true, Bool.false_eq_true, if_false] at h
          exact ih _ _ _ _ h
    · simp only [Option.some.injEq] at h
      subst h
      rfl

/-- A session the loop returns has the status `succeeded`. -/
theorem pollLoop_ok_succeeded (env : Env) (sessionID : Bytes)
    (session : Option CheckoutSessionResponse) :
    ∀ fuel now lastRecv times out s,
      pollLoop env sessionID session fuel now lastRecv times = some out →
      out.result = .ok s → s.Status = lit "succeeded" := by
  intro fuel
  induction fuel with
  | zero => intro now lastRecv times out s h; simp [pollLoop] at h
  | succ fuel ih =>
    intro now lastRecv times out s h hres
    rw [pollLoop_succ] at h
    split_ifs at h with hnow
    · split at h
      · simp only [Option.some.injEq] at h
        subst h
        simp at hres
      · split at h
        · split_ifs at h with hst
          · simp only [Option.some.injEq] at h
            subst h
            simp only [Except.ok.injEq] at hres
            rw [← hres]
            exact hst
          · exact ih _ _ _ _ _ h hres
        · split_ifs at h
          · simp only [Option.some.injEq] at h
            subst h
            simp at hres
          · exact ih _ _ _ _ _ h hres
    · simp only [Option.some.injEq] at h
      subst h
      simp at hres

/-- C28. `GetCheckoutSessionWithPolling` returns no session whose status is
not exactly `succeeded`. A status that is any other text, `failed`, `expired`
or `Succeeded` among them, keeps the call polling: when every fetch answers
with that status and the context is not cancelled, the call ends with the
timeout error, which carries that status. -/
theorem C28_only_succeeded_is_returned (env : Env) (sessionID : Bytes) :
    (∀ out s, GetCheckoutSessionWithPolling env sessionID = some out →
      out.result = .ok s → s.Status = lit "succeeded") ∧
    (∀ status : Bytes, status ≠ lit "succeeded" → env.cancelAt = none →
      (∀ i, ∃ s, GetCheckoutSession sessionID (env.reply i) = .ok s ∧ s.Status = status) →
      ∃ out, GetCheckoutSessionWithPolling env sessionID = some out ∧
        out.result = .error (.timedOut status)) := by
  constructor
  · intro out s h hres
    unfold GetCheckoutSessionWithPolling at h
    simp only at h
    split at h
    · split_ifs at h with hst
      · simp only [Option.some.injEq] at h
        subst h
        simp only [Except.ok.injEq] at hres
        rw [← hres]
        exact hst
      · exact pollLoop_ok_succeeded _ _ _ _ _ _ _ _ _ h hres
    · split_ifs at h
      · simp only [Option.some.injEq] at h
        subst h
        simp at hres
      · exact pollLoop_ok_succeeded _ _ _ _ _ _ _ _ _ h hres
  · intro status hne hctx hall
    have hkeep : ∀ i, keepsPolling sessionID (env.reply i) = true := by
      intro i
      obtain ⟨s, hs, hst⟩ := hall i
      simp [keepsPolling, hs, hst, hne]
    obtain ⟨out, hout⟩ :=
      Option.isSome_iff_exists.mp (GetCheckoutSessionWithPolling_isSome env sessionID)
    refine ⟨out, hout, ?_⟩
    obtain ⟨s0, hs0, hst0⟩ := hall 0
    have h := hout
    unfold GetCheckoutSessionWithPolling at h
    simp only [hs0] at h
    rw [if_neg (by rw [hst0]; exact hne)] at h
    have := pollLoop_timedOut_status env sessionID (some s0) hctx hkeep _ _ _ _ _ h
    simpa [hst0] using this

/-- C28 on the runs answered `failed` and `Succeeded` every time. -/
theorem C28_only_succeeded_is_returned_witness :
    (∃ out, GetCheckoutSessionWithPolling (alwaysStatus (lit "failed")) (lit "cs_1") = some out ∧
      out.result = .error (.timedOut (lit "failed"))) ∧
    (∃ out, GetCheckoutSessionWithPolling (alwaysStatus (lit "Succeeded")) (lit "cs_1") =
        some out ∧ out.result = .error (.timedOut (lit "Succeeded"))) :=
  ⟨(C28_only_succeeded_is_returned (alwaysStatus (lit "failed")) (lit "cs_1")).2 (lit "failed")
      (by decide) rfl
      (fun _ => ⟨sessionWithStatus (lit "failed"),
        show GetCheckoutSession (lit "cs_1") (replyWithStatus (lit "failed")) = _ by decide,
        rfl⟩),
   (C28_only_succeeded_is_returned (alwaysStatus (lit "Succeeded")) (lit "cs_1")).2
      (lit "Succeeded") (by decide) rfl
      (fun _ => ⟨sessionWithStatus (lit "Succeeded"),
        show GetCheckoutSession (lit "cs_1") (replyWithStatus (lit "Succeeded")) = _ by decide,
        rfl⟩)⟩

end Polar

/-! ## What the verification depends on -/

namespace Polar

/-- C26. `VerifyWebhookSignature` depends on the webhook ID, the timestamp and
the payload only through `webhookID + "." + timestamp + "." + payload`: for
non-empty IDs and timestamps with the same concatenation, the result is the
same for every secret and signature; hence, for a non-empty secret, the
signature computed for one of the two triples verifies the other. -/
theorem C26_only_the_concatenation_counts (secret id1 ts1 b1 id2 ts2 b2 : Bytes)
    (hid1 : id1 ≠ []) (hts1 : ts1 ≠ []) (hid2 : id2 ≠ []) (hts2 : ts2 ≠ [])
    (heq : signedContent id1 ts1 b1 = signedContent id2 ts2 b2) :
    (∀ signature, VerifyWebhookSignature secret id1 ts1 b1 signature =
      VerifyWebhookSignature secret id2 ts2 b2 signature) ∧
    (secret ≠ [] →
      VerifyWebhookSignature secret id2 ts2 b2 (ComputeWebhookSignature secret id1 ts1 b1) =
        none) := by
  have hall : ∀ signature, VerifyWebhookSignature secret id1 ts1 b1 signature =
      VerifyWebhookSignature secret id2 ts2 b2 signature := by
    intro signature
    unfold VerifyWebhookSignature checkSignature
    rw [if_neg hid1, if_neg hts1, if_neg hid2, if_neg hts2, heq]
  refine ⟨hall, fun hsecret => ?_⟩
  rw [← hall]
  exact (verify_computed_eq_none_iff secret id1 ts1 b1 b1 hsecret hid1 hts1).mpr rfl

/-- C26 at the ID `a.b` with the timestamp `c` and the ID `a` with the
timestamp `b.c`: two distinct triples that the same signature verifies. -/
theorem C26_only_the_concatenation_counts_witness :
    (lit "a.b", lit "c") ≠ (lit "a", lit "b.c") ∧
    (∀ signature,
      VerifyWebhookSignature (lit "whsec") (lit "a.b") (lit "c") (lit "paid") signature =
        VerifyWebhookSignature (lit "whsec") (lit "a") (lit "b.c") (lit "paid") signature) ∧
    VerifyWebhookSignature (lit "whsec") (lit "a") (lit "b.c") (lit "paid")
      (ComputeWebhookSignature (lit "whsec") (lit "a.b") (lit "c") (lit "paid")) = none :=
  have h := C26_only_the_concatenation_counts (lit "whsec") (lit "a.b") (lit "c") (lit "paid")
    (lit "a") (lit "b.c") (lit "paid") (by decide) (by decide) (by decide) (by decide)
    (by decide)
  ⟨by decide, h.1, h.2 (by decide)⟩

/-- C27. `VerifyWebhookSignature` is a function of its five arguments, and of
the timestamp it asks only that it is not empty: for a non-empty secret and
webhook ID and every payload, the signature computed over a timestamp
verifies with that timestamp whenever it is not empty, whatever text it is
(old, in the future, no number); the empty timestamp alone is turned down. -/
theorem C27_any_timestamp_verifies (secret webhookID payload : Bytes)
    (hsecret : secret ≠ []) (hid : webhookID ≠ []) :
    ∀ timestamp : Bytes,
      VerifyWebhookSignature secret webhookID timestamp payload
          (ComputeWebhookSignature secret webhookID timestamp payload) =
        if timestamp = [] then some .timestampMissing else none := by
  intro timestamp
  by_cases hts : timestamp = []
  · rw [if_pos hts]
    unfold VerifyWebhookSignature
    rw [if_neg hsecret, if_neg (ComputeWebhookSignature_ne_nil _ _ _ _), if_neg hid, if_pos hts]
  · rw [if_neg hts]
    exact (verify_computed_eq_none_iff secret webhookID timestamp payload payload
      hsecret hid hts).mpr rfl

/-- C27 at the timestamps `0`, `99999999999` and `not a number`. -/
theorem C27_any_timestamp_verifies_witness :
    VerifyWebhookSignature (lit "whsec") (lit "msg_1") (lit "0") (lit "paid")
      (ComputeWebhookSignature (lit "whsec") (lit "msg_1") (lit "0") (lit "paid")) = none ∧
    VerifyWebhookSignature (lit "whsec") (lit "msg_1") (lit "99999999999") (lit "paid")
      (ComputeWebhookSignature (lit "whsec") (lit "msg_1") (lit "99999999999") (lit "paid")) =
        none ∧
    VerifyWebhookSignature (lit "whsec") (lit "msg_1") (lit "not a number") (lit "paid")
      (ComputeWebhookSignature (lit "whsec") (lit "msg_1") (lit "not a number") (lit "paid")) =
        none :=
  have h := C27_any_timestamp_verifies (lit "whsec") (lit "msg_1") (lit "paid")
    (by decide) (by decide)
  ⟨(h (lit "0")).trans (if_neg (by decide)),
   (h (lit "99999999999")).trans (if_neg (by decide)),
   (h (lit "not a number")).trans (if_neg (by decide))⟩

end Polar

/-! ## The fields `GetSubscription` does not take from the provider -/

namespace Polar

/-- C30. In every successful result of `GetSubscription`, the response was a
200 with a first item, `ExternalCustomerID` is the argument, `OrganizationID`
is 0, `PlanName` is empty and `CancelAtPeriodEnd` is false; `CanceledAt` is
nil exactly when the provider's `canceled_at` is null. Every 200 response
with a first item gives a result, whatever its timestamps: a period or
`canceled_at` text that does not parse gives the zero time. -/
theorem C30_fields_set_by_the_adapter (externalCustomerID : Bytes)
    (parse : Bytes → Option Int) :
    (∀ reply sub, GetSubscription externalCustomerID reply = .ok sub →
      ∃ body item rest, reply = .response 200 body (.ok (item :: rest)) ∧
        sub.ExternalCustomerID = externalCustomerID ∧ sub.OrganizationID = 0 ∧
        sub.PlanName = [] ∧ sub.CancelAtPeriodEnd = false ∧
        (sub.CanceledAt = none ↔ item.CanceledAt = none)) ∧
    (∀ body item rest, ∃ sub,
      GetSubscription externalCustomerID (.response 200 body (.ok (item :: rest))) = .ok sub ∧
        (parse item.CurrentPeriodStart = none →
          sub.CurrentPeriodStart.instant parse = zeroInstant) ∧
        (parse item.CurrentPeriodEnd = none →
          sub.CurrentPeriodEnd.instant parse = zeroInstant) ∧
        (∀ text, item.CanceledAt = some text → parse text = none →
          sub.CanceledAt.map (Time.instant parse) = some zeroInstant)) := by
  constructor
  · intro reply sub h
    cases reply with
    | transportError err => simp [GetSubscription] at h
    | response code body decoded =>
      by_cases hcode : code = 200
      · subst hcode
        cases decoded with
        | error err => simp [GetSubscription] at h
        | ok items =>
          cases items with
          | nil => simp [GetSubscription] at h
          | cons item rest =>
            rw [GetSubscription_ok] at h
            simp only [Except.ok.injEq] at h
            subst h
            refine ⟨body, item, rest, rfl, rfl, rfl, rfl, rfl, ?_⟩
            simp
      · simp [GetSubscription, hcode] at h
  · intro body item rest
    refine ⟨_, GetSubscription_ok _ _ _ _, fun h => ?_, fun h => ?_, fun text ht h => ?_⟩
    · simp [Time.instant, parseTime, h]
    · simp [Time.instant, parseTime, h]
    · simp [Time.instant, parseTime, ht, h]

/-- C30 on a response whose first item has a period start and a `canceled_at`
that are no RFC 3339 text, with a parser that reads one text only. -/
theorem C30_fields_set_by_the_adapter_witness :
    ∃ sub,
      GetSubscription (lit "org_1")
        (.response 200 []
          (.ok [{ itemWithProductMetadata [] with
                  CurrentPeriodStart := lit "yesterday",
                  CanceledAt := some (lit "never") }])) = .ok sub ∧
      sub.ExternalCustomerID = lit "org_1" ∧ sub.OrganizationID = 0 ∧
      sub.CurrentPeriodStart.instant
        (fun s => if s = lit "2024-02-01T00:00:00Z" then some 1706745600 else none) =
          zeroInstant ∧
      sub.CurrentPeriodEnd.instant
        (fun s => if s = lit "2024-02-01T00:00:00Z" then some 1706745600 else none) =
          1706745600 ∧
      sub.CanceledAt.map (Time.instant
        (fun s => if s = lit "2024-02-01T00:00:00Z" then some 1706745600 else none)) =
          some zeroInstant := by
  obtain ⟨sub, hsub, hstart, -, hcanceled⟩ :=
    (C30_fields_set_by_the_adapter (lit "org_1")
      (fun s => if s = lit "2024-02-01T00:00:00Z" then some 1706745600 else none)).2 []
      { itemWithProductMetadata [] with
        CurrentPeriodStart := lit "yesterday", CanceledAt := some (lit "never") } []
  obtain ⟨_, _, _, -, hcid, horg, -⟩ :=
    (C30_fields_set_by_the_adapter (lit "org_1")
      (fun s => if s = lit "2024-02-01T00:00:00Z" then some 1706745600 else none)).1 _ _ hsub
  refine ⟨sub, hsub, hcid, horg, hstart (by decide), ?_, hcanceled _ rfl (by decide)⟩
  rw [GetSubscription_ok] at hsub
  simp only [Except.ok.injEq] at hsub
  subst hsub
  decide

end Polar

/-! ## A quota ceiling that is no JSON string -/

namespace Polar

/-- The folding of member names on some names. -/
theorem foldName_examples :
    foldName (lit "ITEMS") = lit "items" ∧
    foldName [0xE2, 0x84, 0xAA, 69, 89] = lit "key" ∧
    foldName [0xC5, 0xBF, 116, 97, 116, 117, 0xC5, 0xBF] = lit "status" ∧
    foldName [0xE2, 0x84, 65] = [0xE2, 0x84, 97] ∧
    foldName (lit "current_Period_start") = lit "current_period_start" := by
  decide

/-- The document `subscriptionsDocument ceiling` decodes exactly when
`ceiling` is a JSON string or `null`, to the one item whose product metadata
hold that text under `invoice_count`. -/
theorem decodeResult_subscriptionsDocument (ceiling : JSONValue) :
    decodeResult (subscriptionsDocument ceiling) =
      (decodeString [] ceiling).map
        (fun s => [itemWithProductMetadata [(lit "invoice_count", s)]]) := by
  cases ceiling <;> rfl

/-- Decoding on some documents: no `items`, `null`, an array at the top, a
`null` element, names in capitals. -/
theorem decodeResult_examples :
    decodeResult (.object []) = some [] ∧
    decodeResult .null = some [] ∧
    decodeResult (.array []) = none ∧
    decodeResult (.object [(lit "Items", .array [.null])]) = some [zeroItem] ∧
    decodeResult (.object [(lit "items", .array [.object [(lit "ID", .string (lit "sub_1"))]])]) =
      some [{ zeroItem with ID := lit "sub_1" }] ∧
    decodeResult (.object [(lit "items", .array [.object [(lit "id", .number (lit "1"))]])]) =
      none := by
  decide

/-- C18, as stated, fails. A 200 response with one subscription whose product
metadata give `invoice_count` as the JSON number 250 does not decode, the
field being a `map[string]string`, and the call fails with the decoding error
wrapped as "failed to decode response: ..."; so it does with the ceiling
`true`. The same response with the JSON string "250" gives the ceiling 250,
and with the JSON string "lots" the ceiling 0. -/
theorem C18_counterexample :
    decodeResult (subscriptionsDocument (.number (lit "250"))) = none ∧
    (∀ body decodeError,
      GetSubscription (lit "org_1")
          (jsonReply 200 body (subscriptionsDocument (.number (lit "250"))) decodeError) =
        .error (.wrap (lit "failed to decode response") decodeError)) ∧
    (∀ body decodeError,
      GetSubscription (lit "org_1")
          (jsonReply 200 body (subscriptionsDocument (.bool true)) decodeError) =
        .error (.wrap (lit "failed to decode response") decodeError)) ∧
    (∀ body decodeError,
      (GetSubscription (lit "org_1")
          (jsonReply 200 body (subscriptionsDocument (.string (lit "250"))) decodeError)).map
        (fun sub => sub.Metadata.lookup (lit "invoice_count_max")) =
        .ok (some (.int32 250))) ∧
    (∀ body decodeError,
      (GetSubscription (lit "org_1")
          (jsonReply 200 body (subscriptionsDocument (.string (lit "lots"))) decodeError)).map
        (fun sub => sub.Metadata.lookup (lit "invoice_count_max")) =
        .ok (some (.int32 0))) := by
  refine ⟨by decide, fun body decodeError => ?_, fun body decodeError => ?_,
    fun body decodeError => ?_, fun body decodeError => ?_⟩
  · rfl
  · rfl
  · rfl
  · rfl

end Polar
